import Mathlib

/-!
# KACE instruction emulator (`src/KACE/emulation.cpp`)

A shallow embedding of the `VCPU` namespace of the emulator: the captured
thread context viewed as a flat array of 64-bit slots, the virtual control
registers, the MSR table, host memory, and the three entry points
`PrivilegedInstruction::Parse`, `MemoryRead::Parse`, `MemoryWrite::Parse`
together with the `InstrEmu` helpers they dispatch to.

Conventions.
* Unsigned 64-bit quantities are natural numbers; every arithmetic result the
  source computes in `uint64_t` is reduced modulo `2^64` where it can wrap.
* `DebugBreak()` stops the call: the call ends in `Outcome.fatal`, carrying the
  state reached when the breakpoint was hit.
* `Logger::Log`, `printf` and `fflush` have no effect on the modelled state.
* The process-global `instr` is overwritten by `Decode` at the start of every
  `Parse`; the embedding hands the freshly decoded instruction to the helpers.
* Host memory reached through a translated address is disjoint from the context
  record and from the emulator's own globals.
-/

namespace VCPU

/-! ## Disassembler vocabulary (Zydis) -/

/-- Modelled from the spec: the register ids of the disassembler (§3, §4.3), whose
declarations belong to the library. A register is given by its class and its index
inside the class.
`GPR8` follows the library's order `AL CL DL BL AH CH DH BH SPL BPL SIL DIL R8B … R15B`;
the 16/32/64-bit classes follow `AX CX DX BX SP BP SI DI R8 … R15`. -/
inductive ZydisRegister where
  | NONE
  | GPR8 (id : Fin 20)
  | GPR16 (id : Fin 16)
  | GPR32 (id : Fin 16)
  | GPR64 (id : Fin 16)
  | EFLAGS
  | RIP
  | CR0
  | CR3
  | CR4
  | CR8
  | DR7
  | OTHER (id : Nat)
  deriving DecidableEq, Repr

/-- Register classes the emulator distinguishes. -/
inductive ZydisRegisterClass where
  | INVALID
  | GPR8
  | GPR16
  | GPR32
  | GPR64
  | FLAGS
  | IP
  | CONTROL
  | DEBUG
  | OTHER
  deriving DecidableEq, Repr

/-- Mnemonics the emulator dispatches on; `OTHER` stands for every other one. -/
inductive ZydisMnemonic where
  | CLI
  | STI
  | MOV
  | WRMSR
  | RDMSR
  | OR
  | XOR
  | AND
  | SUB
  | ADD
  | CMP
  | TEST
  | MOVZX
  | MOVSXD
  | OTHER (id : Nat)
  deriving DecidableEq, Repr

/-- Operand kinds of a decoded operand. -/
inductive ZydisOperandType where
  | UNUSED
  | REGISTER
  | MEMORY
  | POINTER
  | IMMEDIATE
  deriving DecidableEq, Repr

/-- One decoded operand: `type`, `reg.value`, `imm.value.s`, `size`, `element_size`. -/
structure ZydisDecodedOperand where
  type : ZydisOperandType
  reg : ZydisRegister
  imm : Int
  size : Nat
  element_size : Nat
  deriving DecidableEq, Repr

/-- The decoded instruction: mnemonic, length in bytes, `operands[0]` and `operands[1]`. -/
structure ZydisDecodedInstruction where
  mnemonic : ZydisMnemonic
  length : Nat
  operand0 : ZydisDecodedOperand
  operand1 : ZydisDecodedOperand
  deriving DecidableEq, Repr

def ZYDIS_REGISTER_AL : ZydisRegister := .GPR8 0
def ZYDIS_REGISTER_AH : ZydisRegister := .GPR8 4
def ZYDIS_REGISTER_CH : ZydisRegister := .GPR8 5
def ZYDIS_REGISTER_DH : ZydisRegister := .GPR8 6
def ZYDIS_REGISTER_BH : ZydisRegister := .GPR8 7
def ZYDIS_REGISTER_AX : ZydisRegister := .GPR16 0
def ZYDIS_REGISTER_EAX : ZydisRegister := .GPR32 0
def ZYDIS_REGISTER_ECX : ZydisRegister := .GPR32 1
def ZYDIS_REGISTER_RAX : ZydisRegister := .GPR64 0
def ZYDIS_REGISTER_RCX : ZydisRegister := .GPR64 1
def ZYDIS_REGISTER_RDX : ZydisRegister := .GPR64 2
def ZYDIS_REGISTER_RBX : ZydisRegister := .GPR64 3

/-- Modelled from the spec: the library's `ZydisRegisterGetClass`, the operand class
`GPR8/16/32/64` of a register (glossary), or the class of a non-general register. -/
def ZydisRegisterGetClass : ZydisRegister → ZydisRegisterClass
  | .NONE => .INVALID
  | .GPR8 _ => .GPR8
  | .GPR16 _ => .GPR16
  | .GPR32 _ => .GPR32
  | .GPR64 _ => .GPR64
  | .EFLAGS => .FLAGS
  | .RIP => .IP
  | .CR0 => .CONTROL
  | .CR3 => .CONTROL
  | .CR4 => .CONTROL
  | .CR8 => .CONTROL
  | .DR7 => .DEBUG
  | .OTHER _ => .OTHER

/-- Modelled from the spec: the library's table sending an 8-bit register index to
the index of its parent, so that `AH CH DH BH` (4..7) share the parents of
`AL CL DL BL` (0..3) (§3, "Register Index"). -/
def GPR8_MAPPING (id : Fin 20) : Fin 16 :=
  if h : id.val < 4 then ⟨id.val, by omega⟩
  else if h2 : id.val < 8 then ⟨id.val - 4, by omega⟩
  else ⟨id.val - 4, by omega⟩

/-- Modelled from the spec: the library's `ZydisRegisterGetLargestEnclosing` in
64-bit long mode (§3, "largest enclosing register"): a general-purpose register
resolves to its 64-bit parent, everything the emulator can meet otherwise resolves
outside the range `RAX..R15`. -/
def ZydisRegisterGetLargestEnclosing : ZydisRegister → ZydisRegister
  | .GPR8 id => .GPR64 (GPR8_MAPPING id)
  | .GPR16 id => .GPR64 id
  | .GPR32 id => .GPR64 id
  | .GPR64 id => .GPR64 id
  | _ => .NONE

/-! ## Thread context -/

/-- Modelled from the spec: the captured thread context, which the source indexes
as a flat array of 64-bit slots through `(uint64_t*)ctx` (§3, §9). The record type
`CONTEXT` is declared by the platform headers; slot `i` is the quad-word at byte
offset `8 * i` of the x64 record, which fixes the slot numbers below. -/
structure CONTEXT where
  slot : Nat → Nat

/-- Slot holding `SegGs`, `SegSs` and, in its upper half, `EFlags` (offset `0x44`). -/
def SLOT_EFLAGS : Nat := 8
/-- Slot of `Dr7` (offset `0x70`). -/
def SLOT_DR7 : Nat := 14
/-- Slot of `Rax` (offset `0x78`); `Rcx … R15` follow in the disassembler's order. -/
def SLOT_RAX : Nat := 15
/-- Slot of `Rcx` (offset `0x80`). -/
def SLOT_RCX : Nat := 16
/-- Slot of `Rdx` (offset `0x88`). -/
def SLOT_RDX : Nat := 17
/-- Slot of `Rip` (offset `0xF8`). -/
def SLOT_RIP : Nat := 31

namespace CONTEXT

/-- Store into one slot: `context_lookup[i] = v`. -/
def set (c : CONTEXT) (i v : Nat) : CONTEXT :=
  ⟨fun j => if j = i then v else c.slot j⟩

def Rax (c : CONTEXT) : Nat := c.slot SLOT_RAX
def Rcx (c : CONTEXT) : Nat := c.slot SLOT_RCX
def Rdx (c : CONTEXT) : Nat := c.slot SLOT_RDX
def Rip (c : CONTEXT) : Nat := c.slot SLOT_RIP
def Dr7 (c : CONTEXT) : Nat := c.slot SLOT_DR7

/-- Read of the 32-bit field `EFlags`, the upper half of its slot. -/
def EFlags (c : CONTEXT) : Nat := (c.slot SLOT_EFLAGS >>> 32) % 2 ^ 32

/-- Store into the 32-bit field `EFlags`; the lower half of the slot is kept. -/
def setEFlags (c : CONTEXT) (v : Nat) : CONTEXT :=
  c.set SLOT_EFLAGS ((c.slot SLOT_EFLAGS % 2 ^ 32) ||| ((v % 2 ^ 32) <<< 32))

end CONTEXT

/-! ## Machine integers and host memory -/

/-- Addition in `uint64_t`. -/
def wrapAdd (a b : Nat) : Nat := (a + b) % 2 ^ 64

/-- Subtraction in `uint64_t` of a subtrahend below `2^64`. -/
def wrapSub (a b : Nat) : Nat := (a + (2 ^ 64 - b)) % 2 ^ 64

/-- Left shift in `uint64_t`. -/
def wrapShl (a k : Nat) : Nat := (a <<< k) % 2 ^ 64

/-- Host memory: the byte stored at each host address. -/
abbrev Memory := Nat → Nat

/-- Little-endian load of `n` bytes starting at `p`. -/
def readLE (mem : Memory) (p : Nat) : Nat → Nat
  | 0 => 0
  | n + 1 => mem p % 256 + 256 * readLE mem (p + 1) n

/-- Load through `*(uint8_t*)ptr`. -/
def readU8 (mem : Memory) (p : Nat) : Nat := readLE mem p 1
/-- Load through `*(uint16_t*)ptr`. -/
def readU16 (mem : Memory) (p : Nat) : Nat := readLE mem p 2
/-- Load through `*(uint32_t*)ptr`. -/
def readU32 (mem : Memory) (p : Nat) : Nat := readLE mem p 4
/-- Load through `*(uint64_t*)ptr`. -/
def readU64 (mem : Memory) (p : Nat) : Nat := readLE mem p 8

/-- Conversion of a signed `bits`-wide value (given by its unsigned bit pattern)
to `uint64_t`: two's-complement sign extension. -/
def signExtend (bits v : Nat) : Nat :=
  if v.testBit (bits - 1) then v + (2 ^ 64 - 2 ^ bits) else v

/-- Little-endian store of the low `n` bytes of `v` starting at `p`. -/
def writeLE (mem : Memory) (p n v : Nat) : Memory :=
  fun a => if p ≤ a ∧ a < p + n then (v >>> (8 * (a - p))) % 256 else mem a

/-! ## Process-wide state -/

/-- The MSR table `std::unordered_map<uint32_t, std::pair<uint64_t, std::string>>`. -/
abbrev MSRTable := Nat → Option (Nat × String)

namespace MSRTable

/-- Method `contains`. -/
def contains (t : MSRTable) (k : Nat) : Bool := (t k).isSome

/-- Assignment through `operator[]`: `t[k] = v`. -/
def assign (t : MSRTable) (k : Nat) (v : Nat × String) : MSRTable :=
  fun j => if j = k then some v else t j

/-- Read through the non-const `operator[]`: an absent key is first inserted with
a value-initialised entry. -/
def index (t : MSRTable) (k : Nat) : (Nat × String) × MSRTable :=
  match t k with
  | some v => (v, t)
  | none => ((0, ""), assign t k (0, ""))

/-- Method `insert`: no effect when the key is already present. -/
def insert (t : MSRTable) (k : Nat) (v : Nat × String) : MSRTable :=
  match t k with
  | some _ => t
  | none => assign t k v

/-- The set of keys of the table. -/
def keys (t : MSRTable) : Set Nat := {k | t k ≠ none}

end MSRTable

/-- Everything an emulation call can read or change. -/
structure State where
  ctx : CONTEXT
  CR0 : Nat
  CR3 : Nat
  CR4 : Nat
  CR8 : Nat
  MSRData : MSRTable
  mem : Memory
  checked : List Nat

/-- How a call ends: it returns a `bool`, or it stops at `DebugBreak()`. -/
inductive Outcome where
  | ret (b : Bool) (s : State)
  | fatal (s : State)

namespace Outcome

/-- Sequencing: continue with the returned value unless the call stopped. -/
def andThen (o : Outcome) (k : Bool → State → Outcome) : Outcome :=
  match o with
  | ret b s => k b s
  | fatal s => fatal s

/-- The state a call ends in. -/
def state : Outcome → State
  | ret _ s => s
  | fatal s => s

end Outcome

/-- The collaborators `Provider::FindDataImpl` and `MemoryTracker::GetHVA`; both
answer `0` for "none". -/
structure Collaborators where
  FindDataImpl : Nat → Nat
  GetHVA : Nat → Nat

/-- Initial values of the virtual control registers and an empty MSR table. -/
def initialState (ctx : CONTEXT) (mem : Memory) : State :=
  { ctx := ctx, CR0 := 0x80050033, CR3 := 0x1ad002, CR4 := 0x370678, CR8 := 0,
    MSRData := fun _ => none, mem := mem, checked := [] }

namespace MSRContext

/-- Embeds `MSRContext::Initialize`. -/
def Initialize (t : MSRTable) : MSRTable :=
  let t := t.insert 0x1D9 (0, "DBGCTL_MSR")
  let t := t.insert 0x1DB (0, "MSRLASTBRANCH-_FROM_IP_MSR")
  let t := t.insert 0x680 (0, "LastBranchFromIP_MSR")
  let t := t.insert 0x1c9 (0, "MSR_LASTBRANCH_TOS")
  let t := t.insert 0 (0xFFF, "MSR_0_P5_IP_ADDR")
  let t := t.insert 0xc0000082 (0x10000, "MSR_LSTAR")
  t

end MSRContext

/-! ## Register access -/

/-- Embeds `GRegIndex`: the slot of a register inside the context. -/
def GRegIndex (Reg : ZydisRegister) : Nat :=
  if Reg = ZydisRegister.RIP then SLOT_RIP
  else if Reg = ZydisRegister.EFLAGS then SLOT_EFLAGS
  else
    match ZydisRegisterGetLargestEnclosing Reg with
    | .GPR64 index => SLOT_RAX + index.val
    | _ => 0

/-- The test `reg == AH || reg == BH || reg == CH || reg == DH`. -/
def isHighByte (reg : ZydisRegister) : Bool :=
  reg = ZYDIS_REGISTER_AH || reg = ZYDIS_REGISTER_BH || reg = ZYDIS_REGISTER_CH
    || reg = ZYDIS_REGISTER_DH

/-- Embeds `ReadRegisterValue`; `none` is the `DebugBreak()` branch. -/
def ReadRegisterValue (ctx : CONTEXT) (reg : ZydisRegister) : Option Nat :=
  let ret := ctx.slot (GRegIndex reg)
  match ZydisRegisterGetClass reg with
  | .GPR64 => some ret
  | .GPR32 => some (ret &&& 0xFFFFFFFF)
  | .GPR16 => some (ret &&& 0xFFFF)
  | .GPR8 => if isHighByte reg then some ((ret &&& 0xFF00) >>> 8) else some (ret &&& 0xFF)
  | _ => none

/-- Embeds `SkipToNext`. -/
def SkipToNext (instr : ZydisDecodedInstruction) (s : State) : Outcome :=
  .ret true { s with ctx := s.ctx.set SLOT_RIP (wrapAdd s.ctx.Rip instr.length) }

/-- Store into one slot of the context of a state. -/
def State.setSlot (s : State) (i v : Nat) : State :=
  { s with ctx := s.ctx.set i v }

/-- Store into the `EFlags` field of the context of a state. -/
def State.setEFlags (s : State) (v : Nat) : State :=
  { s with ctx := s.ctx.setEFlags v }

/-! ## Flag kernel -/

/-- Even parity of the low byte, the condition under which `PF` is set. -/
def parityEven (r : Nat) : Bool :=
  ((List.range 8).filter (fun i => r.testBit i)).length % 2 == 0

/-- Modelled from the spec: the flag kernel behind the helpers `u_cmp_W_sp` and
`u_cmp_W_dp`, which are not part of the sources at hand. `CMP` computes
`left − right` at width `W` and updates `CF, OF, SF, ZF, AF, PF`; every other
bit of the incoming flags word is passed through. -/
def cmpFlags (W eflags left right : Nat) : Nat :=
  let r := (left + (2 ^ W - right)) % 2 ^ W
  let cf := decide (left < right)
  let pf := parityEven r
  let af := decide (left % 16 < right % 16)
  let zf := decide (r = 0)
  let sf := r.testBit (W - 1)
  let ovf := (left.testBit (W - 1) != right.testBit (W - 1))
    && (r.testBit (W - 1) != left.testBit (W - 1))
  (eflags &&& 0xFFFFF72A) ||| (cf.toNat ||| (pf.toNat <<< 2) ||| (af.toNat <<< 4)
    ||| (zf.toNat <<< 6) ||| (sf.toNat <<< 7) ||| (ovf.toNat <<< 11))

/-- Modelled from the spec: the flag kernel behind the helpers `u_test_W_sp` and
`u_test_W_dp`, which are not part of the sources at hand. `TEST` computes
`left AND right` at width `W`, updates `SF, ZF, PF` and clears `CF, OF`; `AF`
(left undefined by the spec) and every other bit are passed through. -/
def testFlags (W eflags left right : Nat) : Nat :=
  let r := (left &&& right) % 2 ^ W
  let pf := parityEven r
  let zf := decide (r = 0)
  let sf := r.testBit (W - 1)
  (eflags &&& 0xFFFFF73A) ||| ((pf.toNat <<< 2) ||| (zf.toNat <<< 6) ||| (sf.toNat <<< 7))

/-- Modelled from the spec: `u_cmp_W_sp(eflags, ptr, operand)` emulates
`CMP [ptr], operand`, memory being the left operand. -/
def u_cmp_sp (W : Nat) (mem : Memory) (eflags ptr operand : Nat) : Nat :=
  cmpFlags W eflags (readLE mem ptr (W / 8)) (operand % 2 ^ W)

/-- Modelled from the spec: `u_cmp_W_dp(eflags, ptr, operand)` emulates
`CMP operand, [ptr]`, memory being the right operand. -/
def u_cmp_dp (W : Nat) (mem : Memory) (eflags ptr operand : Nat) : Nat :=
  cmpFlags W eflags (operand % 2 ^ W) (readLE mem ptr (W / 8))

/-- Modelled from the spec: `u_test_W_sp(eflags, ptr, operand)` emulates
`TEST [ptr], operand`. -/
def u_test_sp (W : Nat) (mem : Memory) (eflags ptr operand : Nat) : Nat :=
  testFlags W eflags (readLE mem ptr (W / 8)) (operand % 2 ^ W)

/-- Modelled from the spec: `u_test_W_dp(eflags, ptr, operand)` emulates
`TEST operand, [ptr]`. -/
def u_test_dp (W : Nat) (mem : Memory) (eflags ptr operand : Nat) : Nat :=
  testFlags W eflags (operand % 2 ^ W) (readLE mem ptr (W / 8))

/-- An immediate `imm.value.s` narrowed to the `int32_t` parameter and widened
again to the 64-bit operand of the flag helpers. -/
def immOperand (imm : Int) : Nat := signExtend 32 (imm % 2 ^ 32).toNat

/-! ## `InstrEmu` -/

namespace InstrEmu

/-- Embeds `InstrEmu::EmulateCMPSourcePtr`: `cmp [ptr], reg`. -/
def EmulateCMPSourcePtr (s : State) (reg : ZydisRegister) (ptr : Nat) : Outcome :=
  match ReadRegisterValue s.ctx reg with
  | none => .fatal s
  | some reg_value =>
    match ZydisRegisterGetClass reg with
    | .GPR64 => .ret true (s.setEFlags (u_cmp_sp 64 s.mem s.ctx.EFlags ptr reg_value))
    | .GPR32 => .ret true (s.setEFlags (u_cmp_sp 32 s.mem s.ctx.EFlags ptr reg_value))
    | .GPR16 => .ret true (s.setEFlags (u_cmp_sp 16 s.mem s.ctx.EFlags ptr reg_value))
    | .GPR8 => .ret true (s.setEFlags (u_cmp_sp 8 s.mem s.ctx.EFlags ptr reg_value))
    | _ => .fatal s

/-- Embeds `InstrEmu::EmulateCMPDestPtr`: `cmp reg, [ptr]`. -/
def EmulateCMPDestPtr (s : State) (reg : ZydisRegister) (ptr : Nat) : Outcome :=
  match ReadRegisterValue s.ctx reg with
  | none => .fatal s
  | some reg_value =>
    match ZydisRegisterGetClass reg with
    | .GPR64 => .ret true (s.setEFlags (u_cmp_dp 64 s.mem s.ctx.EFlags ptr reg_value))
    | .GPR32 => .ret true (s.setEFlags (u_cmp_dp 32 s.mem s.ctx.EFlags ptr reg_value))
    | .GPR16 => .ret true (s.setEFlags (u_cmp_dp 16 s.mem s.ctx.EFlags ptr reg_value))
    | .GPR8 => .ret true (s.setEFlags (u_cmp_dp 8 s.mem s.ctx.EFlags ptr reg_value))
    | _ => .fatal s

/-- Embeds `InstrEmu::EmulateCMPImm`. -/
def EmulateCMPImm (s : State) (imm : Int) (ptr size : Nat) : Outcome :=
  if size = 64 then .ret true (s.setEFlags (u_cmp_sp 64 s.mem s.ctx.EFlags ptr (immOperand imm)))
  else if size = 32 then
    .ret true (s.setEFlags (u_cmp_sp 32 s.mem s.ctx.EFlags ptr (immOperand imm)))
  else if size = 16 then
    .ret true (s.setEFlags (u_cmp_sp 16 s.mem s.ctx.EFlags ptr (immOperand imm)))
  else if size = 8 then
    .ret true (s.setEFlags (u_cmp_sp 8 s.mem s.ctx.EFlags ptr (immOperand imm)))
  else .fatal s

/-- Embeds `InstrEmu::EmulateTestSourcePtr`: `test [ptr], reg`. -/
def EmulateTestSourcePtr (s : State) (reg : ZydisRegister) (ptr : Nat) : Outcome :=
  match ReadRegisterValue s.ctx reg with
  | none => .fatal s
  | some reg_value =>
    match ZydisRegisterGetClass reg with
    | .GPR64 =>
      .ret true (s.setEFlags (u_test_sp 64 s.mem s.ctx.EFlags ptr reg_value ||| 0x10000))
    | .GPR32 =>
      .ret true (s.setEFlags (u_test_sp 32 s.mem s.ctx.EFlags ptr reg_value ||| 0x10000))
    | .GPR16 =>
      .ret true (s.setEFlags (u_test_sp 16 s.mem s.ctx.EFlags ptr reg_value ||| 0x10000))
    | .GPR8 =>
      .ret true (s.setEFlags (u_test_sp 8 s.mem s.ctx.EFlags ptr reg_value ||| 0x10000))
    | _ => .fatal s

/-- Embeds `InstrEmu::EmulateTestDestPtr`: `test reg, [ptr]`. -/
def EmulateTestDestPtr (s : State) (reg : ZydisRegister) (ptr : Nat) : Outcome :=
  match ReadRegisterValue s.ctx reg with
  | none => .fatal s
  | some reg_value =>
    match ZydisRegisterGetClass reg with
    | .GPR64 =>
      .ret true (s.setEFlags (u_test_dp 64 s.mem s.ctx.EFlags ptr reg_value ||| 0x10000))
    | .GPR32 =>
      .ret true (s.setEFlags (u_test_dp 32 s.mem s.ctx.EFlags ptr reg_value ||| 0x10000))
    | .GPR16 =>
      .ret true (s.setEFlags (u_test_dp 16 s.mem s.ctx.EFlags ptr reg_value ||| 0x10000))
    | .GPR8 =>
      .ret true (s.setEFlags (u_test_dp 8 s.mem s.ctx.EFlags ptr reg_value ||| 0x10000))
    | _ => .fatal s

/-- Embeds `InstrEmu::EmulateTestImm`. -/
def EmulateTestImm (s : State) (imm : Int) (ptr size : Nat) : Outcome :=
  if size = 64 then
    .ret true (s.setEFlags (u_test_sp 64 s.mem s.ctx.EFlags ptr (immOperand imm) ||| 0x10000))
  else if size = 32 then
    .ret true (s.setEFlags (u_test_sp 32 s.mem s.ctx.EFlags ptr (immOperand imm) ||| 0x10000))
  else if size = 16 then
    .ret true (s.setEFlags (u_test_sp 16 s.mem s.ctx.EFlags ptr (immOperand imm) ||| 0x10000))
  else if size = 8 then
    .ret true (s.setEFlags (u_test_sp 8 s.mem s.ctx.EFlags ptr (immOperand imm) ||| 0x10000))
  else .fatal s

namespace ReadPtr

/-- Embeds `InstrEmu::ReadPtr::EmulateMOV`: `mov reg, [ptr]`. -/
def EmulateMOV (s : State) (reg : ZydisRegister) (ptr : Nat) : Outcome :=
  let orig_value := s.ctx.slot (GRegIndex reg)
  match ZydisRegisterGetClass reg with
  | .GPR64 => .ret true (s.setSlot (GRegIndex reg) (readU64 s.mem ptr))
  | .GPR32 => .ret true (s.setSlot (GRegIndex reg) (readU32 s.mem ptr))
  | .GPR16 =>
    .ret true (s.setSlot (GRegIndex reg)
      ((orig_value &&& 0xFFFFFFFFFFFF0000) ||| readU16 s.mem ptr))
  | .GPR8 =>
    if isHighByte reg then
      .ret true (s.setSlot (GRegIndex reg)
        ((orig_value &&& 0xFFFFFFFFFFFF00FF) ||| (readU8 s.mem ptr <<< 8)))
    else
      .ret true (s.setSlot (GRegIndex reg)
        ((orig_value &&& 0xFFFFFFFFFFFFFF00) ||| readU8 s.mem ptr))
  | _ => .fatal s

/-- Embeds `InstrEmu::ReadPtr::EmulateSUB`: `sub reg, [ptr]`. -/
def EmulateSUB (s : State) (reg : ZydisRegister) (ptr : Nat) : Outcome :=
  let cur := s.ctx.slot (GRegIndex reg)
  match ZydisRegisterGetClass reg with
  | .GPR64 => .ret true (s.setSlot (GRegIndex reg) (wrapSub cur (readU64 s.mem ptr)))
  | .GPR32 =>
    .ret true (s.setSlot (GRegIndex reg) (wrapSub (cur &&& 0xFFFFFFFF) (readU32 s.mem ptr)))
  | .GPR16 => .ret true (s.setSlot (GRegIndex reg) (wrapSub cur (readU16 s.mem ptr)))
  | .GPR8 =>
    if isHighByte reg then
      .ret true (s.setSlot (GRegIndex reg) (wrapSub cur (readU8 s.mem ptr <<< 8)))
    else
      .ret true (s.setSlot (GRegIndex reg) (wrapSub cur (readU8 s.mem ptr)))
  | _ => .fatal s

/-- Embeds `InstrEmu::ReadPtr::EmulateADD`: `add reg, [ptr]`. -/
def EmulateADD (s : State) (reg : ZydisRegister) (ptr : Nat) : Outcome :=
  let cur := s.ctx.slot (GRegIndex reg)
  match ZydisRegisterGetClass reg with
  | .GPR64 => .ret true (s.setSlot (GRegIndex reg) (wrapAdd cur (readU64 s.mem ptr)))
  | .GPR32 =>
    .ret true (s.setSlot (GRegIndex reg) (wrapAdd (cur &&& 0xFFFFFFFF) (readU32 s.mem ptr)))
  | .GPR16 => .ret true (s.setSlot (GRegIndex reg) (wrapAdd cur (readU16 s.mem ptr)))
  | .GPR8 =>
    if isHighByte reg then
      .ret true (s.setSlot (GRegIndex reg) (wrapAdd cur (readU8 s.mem ptr <<< 8)))
    else
      .ret true (s.setSlot (GRegIndex reg) (wrapAdd cur (readU8 s.mem ptr)))
  | _ => .fatal s

/-- Embeds `InstrEmu::ReadPtr::EmulateOR`: `or reg, [ptr]`. -/
def EmulateOR (s : State) (reg : ZydisRegister) (ptr : Nat) : Outcome :=
  let cur := s.ctx.slot (GRegIndex reg)
  match ZydisRegisterGetClass reg with
  | .GPR64 => .ret true (s.setSlot (GRegIndex reg) (cur ||| readU64 s.mem ptr))
  | .GPR32 =>
    .ret true (s.setSlot (GRegIndex reg) ((cur &&& 0xFFFFFFFF) ||| readU32 s.mem ptr))
  | .GPR16 => .ret true (s.setSlot (GRegIndex reg) (cur ||| readU16 s.mem ptr))
  | .GPR8 =>
    if isHighByte reg then
      .ret true (s.setSlot (GRegIndex reg) (cur ||| (readU8 s.mem ptr <<< 8)))
    else
      .ret true (s.setSlot (GRegIndex reg) (cur ||| readU8 s.mem ptr))
  | _ => .fatal s

/-- Embeds `InstrEmu::ReadPtr::EmulateXOR`: `xor reg, [ptr]`. -/
def EmulateXOR (s : State) (reg : ZydisRegister) (ptr : Nat) : Outcome :=
  let cur := s.ctx.slot (GRegIndex reg)
  match ZydisRegisterGetClass reg with
  | .GPR64 => .ret true (s.setSlot (GRegIndex reg) (cur ^^^ readU64 s.mem ptr))
  | .GPR32 =>
    .ret true (s.setSlot (GRegIndex reg) ((cur &&& 0xFFFFFFFF) ^^^ readU32 s.mem ptr))
  | .GPR16 => .ret true (s.setSlot (GRegIndex reg) (cur ^^^ readU16 s.mem ptr))
  | .GPR8 =>
    if isHighByte reg then
      .ret true (s.setSlot (GRegIndex reg) (cur ^^^ (readU8 s.mem ptr <<< 8)))
    else
      .ret true (s.setSlot (GRegIndex reg) (cur ^^^ readU8 s.mem ptr))
  | _ => .fatal s

/-- Embeds `InstrEmu::ReadPtr::EmulateAND`: `and reg, [ptr]`. -/
def EmulateAND (s : State) (reg : ZydisRegister) (ptr : Nat) : Outcome :=
  let cur := s.ctx.slot (GRegIndex reg)
  match ZydisRegisterGetClass reg with
  | .GPR64 => .ret true (s.setSlot (GRegIndex reg) (cur &&& readU64 s.mem ptr))
  | .GPR32 =>
    .ret true (s.setSlot (GRegIndex reg) ((cur &&& 0xFFFFFFFF) &&& readU32 s.mem ptr))
  | .GPR16 => .ret true (s.setSlot (GRegIndex reg) (cur &&& readU16 s.mem ptr))
  | .GPR8 =>
    if isHighByte reg then
      .ret true (s.setSlot (GRegIndex reg) (cur &&& (readU8 s.mem ptr <<< 8)))
    else
      .ret true (s.setSlot (GRegIndex reg) (cur &&& readU8 s.mem ptr))
  | _ => .fatal s

/-- Embeds `InstrEmu::ReadPtr::EmulateMOVZX`: `movzx reg, [ptr]` with a `size`-bit source. -/
def EmulateMOVZX (s : State) (reg : ZydisRegister) (ptr size : Nat) : Outcome :=
  match ZydisRegisterGetClass reg with
  | .GPR32 =>
    if size = 16 then .ret true (s.setSlot (GRegIndex reg) (readU16 s.mem ptr))
    else if size = 8 then .ret true (s.setSlot (GRegIndex reg) (readU8 s.mem ptr))
    else .fatal s
  | .GPR16 =>
    if size = 8 then .ret true (s.setSlot (GRegIndex reg) (readU8 s.mem ptr))
    else .fatal s
  | _ => .fatal s

/-- Embeds `InstrEmu::ReadPtr::EmulateMOVSX`: `movsxd reg, [ptr]` with a `size`-bit source. -/
def EmulateMOVSX (s : State) (reg : ZydisRegister) (ptr size : Nat) : Outcome :=
  if size = 64 then .ret true (s.setSlot (GRegIndex reg) (signExtend 64 (readU64 s.mem ptr)))
  else if size = 32 then
    .ret true (s.setSlot (GRegIndex reg) (signExtend 32 (readU32 s.mem ptr)))
  else if size = 16 then
    .ret true (s.setSlot (GRegIndex reg) (signExtend 16 (readU16 s.mem ptr)))
  else if size = 8 then
    .ret true (s.setSlot (GRegIndex reg) (signExtend 8 (readU8 s.mem ptr)))
  else .fatal s

end ReadPtr

namespace WritePtr

/-- Embeds `InstrEmu::WritePtr::EmulateMOV`: `mov [ptr], reg`. -/
def EmulateMOV (s : State) (reg : ZydisRegister) (ptr : Nat) : Outcome :=
  let cur := s.ctx.slot (GRegIndex reg)
  match ZydisRegisterGetClass reg with
  | .GPR64 => .ret true { s with mem := writeLE s.mem ptr 8 cur }
  | .GPR32 => .ret true { s with mem := writeLE s.mem ptr 4 cur }
  | .GPR16 => .ret true { s with mem := writeLE s.mem ptr 2 cur }
  | .GPR8 =>
    if isHighByte reg then .ret true { s with mem := writeLE s.mem ptr 1 (cur >>> 8) }
    else .ret true { s with mem := writeLE s.mem ptr 1 cur }
  | _ => .fatal s

/-- Embeds `InstrEmu::WritePtr::EmulateSUB`: a stub that hits `DebugBreak()`. -/
def EmulateSUB (s : State) (_reg : ZydisRegister) (_ptr : Nat) : Outcome := .fatal s

/-- Embeds `InstrEmu::WritePtr::EmulateADD`: a stub that hits `DebugBreak()`. -/
def EmulateADD (s : State) (_reg : ZydisRegister) (_ptr : Nat) : Outcome := .fatal s

/-- Embeds `InstrEmu::WritePtr::EmulateOR`: a stub that hits `DebugBreak()`. -/
def EmulateOR (s : State) (_reg : ZydisRegister) (_ptr : Nat) : Outcome := .fatal s

/-- Embeds `InstrEmu::WritePtr::EmulateXOR`: a stub that hits `DebugBreak()`. -/
def EmulateXOR (s : State) (_reg : ZydisRegister) (_ptr : Nat) : Outcome := .fatal s

/-- Embeds `InstrEmu::WritePtr::EmulateAND`: a stub that hits `DebugBreak()`. -/
def EmulateAND (s : State) (_reg : ZydisRegister) (_ptr : Nat) : Outcome := .fatal s

/-- Embeds `InstrEmu::WritePtr::EmulateMOVZX`: a stub that hits `DebugBreak()`. -/
def EmulateMOVZX (s : State) (_reg : ZydisRegister) (_ptr _size : Nat) : Outcome := .fatal s

end WritePtr

end InstrEmu

/-! ## `PrivilegedInstruction` -/

namespace PrivilegedInstruction

/-- Embeds `PrivilegedInstruction::EmulatePrivilegedMOV`. The operand-type check of the
source tests `operands[0]` on both sides of `||`. -/
def EmulatePrivilegedMOV (instr : ZydisDecodedInstruction) (s : State) : Outcome :=
  let reg_to_write := GRegIndex instr.operand0.reg
  let reg_to_read := GRegIndex instr.operand1.reg
  if instr.operand0.type ≠ ZydisOperandType.REGISTER
      ∨ instr.operand0.type ≠ ZydisOperandType.REGISTER then .fatal s
  else if reg_to_read = 0 ∧ reg_to_write = 0 then .fatal s
  else if instr.operand0.reg = ZydisRegister.CR0 then
    .ret true { s with CR0 := s.ctx.slot reg_to_read }
  else if instr.operand1.reg = ZydisRegister.CR0 then
    .ret true (s.setSlot reg_to_write s.CR0)
  else if instr.operand0.reg = ZydisRegister.CR3 then
    .ret true { s with CR3 := s.ctx.slot reg_to_read }
  else if instr.operand1.reg = ZydisRegister.CR3 then
    .ret true (s.setSlot reg_to_write s.CR3)
  else if instr.operand0.reg = ZydisRegister.CR4 then
    .ret true { s with CR4 := s.ctx.slot reg_to_read }
  else if instr.operand1.reg = ZydisRegister.CR4 then
    .ret true (s.setSlot reg_to_write s.CR4)
  else if instr.operand0.reg = ZydisRegister.CR8 then
    .ret true { s with CR8 := s.ctx.slot reg_to_read }
  else if instr.operand1.reg = ZydisRegister.CR8 then
    .ret true (s.setSlot reg_to_write s.CR8)
  else if instr.operand0.reg = ZydisRegister.DR7 then
    .ret true (s.setSlot SLOT_DR7 (s.ctx.slot reg_to_read))
  else .fatal s

/-- Embeds `PrivilegedInstruction::ReadMSR`. -/
def ReadMSR (s : State) : Outcome :=
  let ECX := s.ctx.Rcx &&& 0xFFFFFFFF
  if ¬ s.MSRData.contains ECX then .ret false s
  else
    let ReadData := s.MSRData.index ECX
    let MSRValue := ReadData.1.1
    let s1 : State := { s with MSRData := ReadData.2 }
    let s2 := s1.setSlot SLOT_RDX ((MSRValue >>> 32) &&& 0xFFFFFFFF)
    let s3 := s2.setSlot SLOT_RAX (MSRValue &&& 0xFFFFFFFF)
    .ret true s3

/-- Embeds `PrivilegedInstruction::WriteMSR`. In the source `&` binds tighter than `|`:
the new value is `(Rdx << 32) | (Rax & 0xFFFFFFFF)`. -/
def WriteMSR (s : State) : Outcome :=
  let ECX := s.ctx.Rcx &&& 0xFFFFFFFF
  if ¬ s.MSRData.contains ECX then .ret false s
  else
    let ReadData := s.MSRData.index ECX
    let MSRName := ReadData.1.2
    let NewMSRValue := wrapShl s.ctx.Rdx 32 ||| (s.ctx.Rax &&& 0xFFFFFFFF)
    .ret true { s with MSRData := ReadData.2.assign ECX (NewMSRValue, MSRName) }

/-- Embeds `PrivilegedInstruction::Parse`; `decoded` is what `Decode` obtained at
`context->Rip` (`none` when decoding failed). -/
def Parse (decoded : Option ZydisDecodedInstruction) (s : State) : Outcome :=
  match decoded with
  | none => .ret false s
  | some instr =>
    match instr.mnemonic with
    | .CLI => SkipToNext instr s
    | .STI => SkipToNext instr s
    | .MOV => (EmulatePrivilegedMOV instr s).andThen fun _ s1 => SkipToNext instr s1
    | .WRMSR =>
      (WriteMSR s).andThen fun ok s1 => if ok then SkipToNext instr s1 else .ret false s1
    | .RDMSR =>
      (ReadMSR s).andThen fun ok s1 => if ok then SkipToNext instr s1 else .ret false s1
    | _ => .fatal s

end PrivilegedInstruction

/-! ## `MemoryWrite` -/

namespace MemoryWrite

/-- Embeds `MemoryWrite::EmulateWrite`. -/
def EmulateWrite (instr : ZydisDecodedInstruction) (addr : Nat) (s : State) : Outcome :=
  match instr.mnemonic with
  | .MOV =>
    if instr.operand1.type = ZydisOperandType.REGISTER then
      (InstrEmu.WritePtr.EmulateMOV s instr.operand1.reg addr).andThen
        fun _ s1 => SkipToNext instr s1
    else .fatal s
  | .OR =>
    if instr.operand1.type = ZydisOperandType.REGISTER then
      (InstrEmu.WritePtr.EmulateOR s instr.operand1.reg addr).andThen
        fun _ s1 => SkipToNext instr s1
    else .fatal s
  | .XOR =>
    if instr.operand1.type = ZydisOperandType.REGISTER then
      (InstrEmu.WritePtr.EmulateXOR s instr.operand1.reg addr).andThen
        fun _ s1 => SkipToNext instr s1
    else .fatal s
  | .AND =>
    if instr.operand1.type = ZydisOperandType.REGISTER then
      (InstrEmu.WritePtr.EmulateAND s instr.operand1.reg addr).andThen
        fun _ s1 => SkipToNext instr s1
    else .fatal s
  | _ => .fatal s

/-- Embeds `MemoryWrite::Parse`. -/
def Parse (env : Collaborators) (decoded : Option ZydisDecodedInstruction) (addr : Nat)
    (s : State) : Outcome :=
  match decoded with
  | none => .ret false s
  | some instr =>
    if env.FindDataImpl addr ≠ 0 then EmulateWrite instr (env.FindDataImpl addr) s
    else if env.GetHVA addr ≠ 0 then EmulateWrite instr (env.GetHVA addr) s
    else if addr = 0xffffffffffffffff then .ret false s
    else .ret false { s with checked := addr :: s.checked }

end MemoryWrite

/-! ## `MemoryRead` -/

namespace MemoryRead

/-- Embeds `MemoryRead::EmulateRead`. -/
def EmulateRead (instr : ZydisDecodedInstruction) (addr : Nat) (s : State) : Outcome :=
  let op0 := instr.operand0
  let op1 := instr.operand1
  match instr.mnemonic with
  | .MOV =>
    if op0.type = ZydisOperandType.REGISTER then
      (InstrEmu.ReadPtr.EmulateMOV s op0.reg addr).andThen fun _ s1 => SkipToNext instr s1
    else .fatal s
  | .OR =>
    if op0.type = ZydisOperandType.REGISTER then
      (InstrEmu.ReadPtr.EmulateOR s op0.reg addr).andThen fun _ s1 => SkipToNext instr s1
    else .fatal s
  | .XOR =>
    if op0.type = ZydisOperandType.REGISTER then
      (InstrEmu.ReadPtr.EmulateXOR s op0.reg addr).andThen fun _ s1 => SkipToNext instr s1
    else .fatal s
  | .AND =>
    if op0.type = ZydisOperandType.REGISTER then
      (InstrEmu.ReadPtr.EmulateAND s op0.reg addr).andThen fun _ s1 => SkipToNext instr s1
    else .fatal s
  | .SUB =>
    if op0.type = ZydisOperandType.REGISTER then
      (InstrEmu.ReadPtr.EmulateSUB s op0.reg addr).andThen fun _ s1 => SkipToNext instr s1
    else .fatal s
  | .ADD =>
    if op0.type = ZydisOperandType.REGISTER then
      (InstrEmu.ReadPtr.EmulateADD s op0.reg addr).andThen fun _ s1 => SkipToNext instr s1
    else .fatal s
  | .CMP =>
    if op0.type = ZydisOperandType.MEMORY ∧ op1.type = ZydisOperandType.REGISTER then
      (InstrEmu.EmulateCMPSourcePtr s op1.reg addr).andThen fun _ s1 => SkipToNext instr s1
    else if op1.type = ZydisOperandType.MEMORY ∧ op0.type = ZydisOperandType.REGISTER then
      (InstrEmu.EmulateCMPDestPtr s op0.reg addr).andThen fun _ s1 => SkipToNext instr s1
    else if op1.type = ZydisOperandType.MEMORY ∧ op0.type = ZydisOperandType.IMMEDIATE then
      (InstrEmu.EmulateCMPImm s op0.imm addr op1.element_size).andThen
        fun _ s1 => SkipToNext instr s1
    else if op1.type = ZydisOperandType.IMMEDIATE ∧ op0.type = ZydisOperandType.MEMORY then
      (InstrEmu.EmulateCMPImm s op1.imm addr op0.element_size).andThen
        fun _ s1 => SkipToNext instr s1
    else .fatal s
  | .TEST =>
    if op0.type = ZydisOperandType.MEMORY ∧ op1.type = ZydisOperandType.REGISTER then
      (InstrEmu.EmulateTestSourcePtr s op1.reg addr).andThen fun _ s1 => SkipToNext instr s1
    else if op1.type = ZydisOperandType.MEMORY ∧ op0.type = ZydisOperandType.REGISTER then
      (InstrEmu.EmulateTestDestPtr s op0.reg addr).andThen fun _ s1 => SkipToNext instr s1
    else if op1.type = ZydisOperandType.MEMORY ∧ op0.type = ZydisOperandType.IMMEDIATE then
      (InstrEmu.EmulateTestImm s op0.imm addr op1.element_size).andThen
        fun _ s1 => SkipToNext instr s1
    else if op1.type = ZydisOperandType.IMMEDIATE ∧ op0.type = ZydisOperandType.MEMORY then
      (InstrEmu.EmulateTestImm s op1.imm addr op0.element_size).andThen
        fun _ s1 => SkipToNext instr s1
    else .fatal s
  | .MOVZX =>
    if op1.type = ZydisOperandType.MEMORY ∧ op0.type = ZydisOperandType.REGISTER then
      (InstrEmu.ReadPtr.EmulateMOVZX s op0.reg addr op1.size).andThen
        fun _ s1 => SkipToNext instr s1
    else .fatal s
  | .MOVSXD =>
    if op1.type = ZydisOperandType.MEMORY ∧ op0.type = ZydisOperandType.REGISTER then
      (InstrEmu.ReadPtr.EmulateMOVSX s op0.reg addr op1.size).andThen
        fun _ s1 => SkipToNext instr s1
    else .fatal s
  | _ => .fatal s

/-- Embeds `MemoryRead::Parse`. -/
def Parse (env : Collaborators) (decoded : Option ZydisDecodedInstruction) (addr : Nat)
    (s : State) : Outcome :=
  match decoded with
  | none => .ret false s
  | some instr =>
    if env.FindDataImpl addr ≠ 0 then EmulateRead instr (env.FindDataImpl addr) s
    else if env.GetHVA addr ≠ 0 then EmulateRead instr (env.GetHVA addr) s
    else if addr = 0xffffffffffffffff then .ret false s
    else .ret false { s with checked := addr :: s.checked }

end MemoryRead

/-! ## Shapes of outcomes -/

/-- What `MemoryRead::EmulateRead` can end in: a stop at `DebugBreak()` in the
pre-state, or `SkipToNext` after one store into the slot of `operands[0].reg`, or
`SkipToNext` after one store into `EFlags`. -/
def ReadOutcome (instr : ZydisDecodedInstruction) (s : State) (o : Outcome) : Prop :=
  o = .fatal s
    ∨ (∃ v, o = SkipToNext instr (s.setSlot (GRegIndex instr.operand0.reg) v))
    ∨ (∃ v, o = SkipToNext instr (s.setEFlags v))

/-- What `MemoryWrite::EmulateWrite` can end in: a stop at `DebugBreak()` in the
pre-state, or `SkipToNext` after a store to host memory. -/
def WriteOutcome (instr : ZydisDecodedInstruction) (s : State) (o : Outcome) : Prop :=
  o = .fatal s ∨ ∃ m, o = SkipToNext instr { s with mem := m }

/-- What `EmulatePrivilegedMOV` can end in: a stop at `DebugBreak()` in the
pre-state, or a return of `true` after writing one virtual control register, the
slot of `operands[0].reg`, or `Dr7`. -/
def PrivMovOutcome (instr : ZydisDecodedInstruction) (s : State) (o : Outcome) : Prop :=
  o = .fatal s
    ∨ (∃ v, o = .ret true { s with CR0 := v })
    ∨ (∃ v, o = .ret true { s with CR3 := v })
    ∨ (∃ v, o = .ret true { s with CR4 := v })
    ∨ (∃ v, o = .ret true { s with CR8 := v })
    ∨ (∃ v, o = .ret true (s.setSlot (GRegIndex instr.operand0.reg) v))
    ∨ (∃ v, o = .ret true (s.setSlot SLOT_DR7 v))

/-- The frame every entry point keeps, for an outcome `o` reached from `s` on the
decoded instruction `instr`: the key set of the MSR table is the one of `s`; a
return of `false` leaves context, host memory, MSR table and virtual control
registers as in `s`; a return of `true` has advanced `Rip` by the instruction
length, provided `operands[0]` does not name `RIP` itself. -/
def StepFrame (instr : ZydisDecodedInstruction) (s : State) (o : Outcome) : Prop :=
  o.state.MSRData.keys = s.MSRData.keys
    ∧ (∀ s1, o = .ret false s1 →
        s1.ctx = s.ctx ∧ s1.mem = s.mem ∧ s1.MSRData = s.MSRData
          ∧ s1.CR0 = s.CR0 ∧ s1.CR3 = s.CR3 ∧ s1.CR4 = s.CR4 ∧ s1.CR8 = s.CR8)
    ∧ (∀ s1, o = .ret true s1 → instr.operand0.reg ≠ ZydisRegister.RIP →
        s1.ctx.Rip = (s.ctx.Rip + instr.length) % 2 ^ 64)

/-- The outcome `o`, reached from `s` on an instruction of length `len`, is a
success whose only effects are: slot `i` of the context holds `v`, and `Rip` has
advanced by `len`. Every other slot, host memory, the MSR table and the virtual
control registers are those of `s`. -/
def StoresOnly (s : State) (len i v : Nat) (o : Outcome) : Prop :=
  ∃ s1, o = .ret true s1
    ∧ s1.ctx.slot i = v
    ∧ s1.ctx.Rip = (s.ctx.Rip + len) % 2 ^ 64
    ∧ (∀ j, j ≠ i → j ≠ SLOT_RIP → s1.ctx.slot j = s.ctx.slot j)
    ∧ s1.mem = s.mem ∧ s1.MSRData = s.MSRData
    ∧ s1.CR0 = s.CR0 ∧ s1.CR3 = s.CR3 ∧ s1.CR4 = s.CR4 ∧ s1.CR8 = s.CR8

/-! ## Concrete inputs used to exercise the statements -/

/-- An operand slot the instruction does not use. -/
def unusedOperand : ZydisDecodedOperand :=
  { type := .UNUSED, reg := .NONE, imm := 0, size := 0, element_size := 0 }

/-- A register operand. -/
def regOperand (r : ZydisRegister) (bits : Nat) : ZydisDecodedOperand :=
  { type := .REGISTER, reg := r, imm := 0, size := bits, element_size := bits }

/-- A memory operand of the given width. -/
def memOperand (bits : Nat) : ZydisDecodedOperand :=
  { type := .MEMORY, reg := .NONE, imm := 0, size := bits, element_size := bits }

/-- Instruction `WRMSR` (`0F 30`). -/
def wrmsrInstr : ZydisDecodedInstruction :=
  { mnemonic := .WRMSR, length := 2, operand0 := unusedOperand, operand1 := unusedOperand }

/-- Instruction `RDMSR` (`0F 32`). -/
def rdmsrInstr : ZydisDecodedInstruction :=
  { mnemonic := .RDMSR, length := 2, operand0 := unusedOperand, operand1 := unusedOperand }

/-- A context that is zero except for `Rax`, `Rcx`, `Rdx` and `Rip`. -/
def contextWith (rax rcx rdx rip : Nat) : CONTEXT :=
  ⟨fun i => if i = SLOT_RAX then rax else if i = SLOT_RCX then rcx
    else if i = SLOT_RDX then rdx else if i = SLOT_RIP then rip else 0⟩

/-- Host memory holding `11 22 33 44 55 66 77 88` at host address `0x7FFE0020`
and zero elsewhere. -/
def scenarioMemory : Memory := fun a =>
  if a = 0x7FFE0020 then 0x11 else if a = 0x7FFE0021 then 0x22
  else if a = 0x7FFE0022 then 0x33 else if a = 0x7FFE0023 then 0x44
  else if a = 0x7FFE0024 then 0x55 else if a = 0x7FFE0025 then 0x66
  else if a = 0x7FFE0026 then 0x77 else if a = 0x7FFE0027 then 0x88 else 0

/-- The state after `Initialize` with the given context and the scenario memory. -/
def seededState (ctx : CONTEXT) : State :=
  { initialState ctx scenarioMemory with MSRData := MSRContext.Initialize (fun _ => none) }

/-- The round-trip scenario: `Rcx = MSR_LSTAR`, `Rdx = 0xFEEDFACE`, `Rax = 0xDEADBEEF`. -/
def lstarState : State := seededState (contextWith 0xDEADBEEF 0xC0000082 0xFEEDFACE 0x1000)

/-- The miss scenario: `Rcx = 0xDEADBEEF`, not a key of the table. -/
def missState : State := seededState (contextWith 0 0xDEADBEEF 0 0x1000)

/-- Guest address `G` of the scenarios, `0x20` into the user-shared-data page. -/
def scenarioG : Nat := 0xFFFFF78000000020

/-- Collaborators of the scenarios: no data provider, and the user-shared-data page
(guest `0xFFFFF78000000000`, length `0x1000`) mapped to host `0x7FFE0000`. -/
def scenarioEnv : Collaborators :=
  { FindDataImpl := fun _ => 0
    GetHVA := fun a =>
      if 0xFFFFF78000000000 ≤ a ∧ a < 0xFFFFF78000001000 then 0x7FFE0000 + (a - 0xFFFFF78000000000)
      else 0 }

/-- Collaborators that resolve no address at all. -/
def emptyEnv : Collaborators := { FindDataImpl := fun _ => 0, GetHVA := fun _ => 0 }

/-- Instruction `mov rbx, [G]`, seven bytes long. -/
def movRbxInstr : ZydisDecodedInstruction :=
  { mnemonic := .MOV, length := 7, operand0 := regOperand ZYDIS_REGISTER_RBX 64,
    operand1 := memOperand 64 }

/-- The scenario pre-state: zeroed context with `Rip = 0x1000`. -/
def zeroState : State := seededState (contextWith 0 0 0 0x1000)

/-- A zeroed context with the given `Rax` and `Rip = 0x1000`, in the seeded state. -/
def raxState (rax : Nat) : State := seededState (contextWith rax 0 0 0x1000)

/-- A two-operand instruction `mnemonic reg, [mem]`. -/
def regMemInstr (m : ZydisMnemonic) (r : ZydisRegister) (regBits memBits : Nat) :
    ZydisDecodedInstruction :=
  { mnemonic := m, length := 7, operand0 := regOperand r regBits,
    operand1 := memOperand memBits }

/-- Instruction `add eax, [G]`. -/
def addEaxInstr : ZydisDecodedInstruction := regMemInstr .ADD ZYDIS_REGISTER_EAX 32 32
/-- Instruction `sub eax, [G]`. -/
def subEaxInstr : ZydisDecodedInstruction := regMemInstr .SUB ZYDIS_REGISTER_EAX 32 32
/-- Instruction `movsxd eax, [G + 4]`. -/
def movsxdEaxInstr : ZydisDecodedInstruction := regMemInstr .MOVSXD ZYDIS_REGISTER_EAX 32 32
/-- Instruction `and ax, [G]`. -/
def andAxInstr : ZydisDecodedInstruction := regMemInstr .AND ZYDIS_REGISTER_AX 16 16
/-- Instruction `add ax, [G]`. -/
def addAxInstr : ZydisDecodedInstruction := regMemInstr .ADD ZYDIS_REGISTER_AX 16 16
/-- Instruction `sub ax, [G]`. -/
def subAxInstr : ZydisDecodedInstruction := regMemInstr .SUB ZYDIS_REGISTER_AX 16 16
/-- Instruction `movzx ax, byte [G]`. -/
def movzxAxInstr : ZydisDecodedInstruction := regMemInstr .MOVZX ZYDIS_REGISTER_AX 16 8
/-- Instruction `and ah, [G]`. -/
def andAhInstr : ZydisDecodedInstruction := regMemInstr .AND ZYDIS_REGISTER_AH 8 8
/-- Instruction `and al, [G]`. -/
def andAlInstr : ZydisDecodedInstruction := regMemInstr .AND ZYDIS_REGISTER_AL 8 8
/-- Instruction `mov ah, [G]`. -/
def movAhInstr : ZydisDecodedInstruction := regMemInstr .MOV ZYDIS_REGISTER_AH 8 8
/-- Instruction `mov al, [G]`. -/
def movAlInstr : ZydisDecodedInstruction := regMemInstr .MOV ZYDIS_REGISTER_AL 8 8

/-! ## Vocabulary of the statements about registers and control registers -/

/-- Width in bits of a general-purpose operand class `GPR8/16/32/64`; `0` for every
other class. -/
def classBits : ZydisRegisterClass → Nat
  | .GPR8 => 8
  | .GPR16 => 16
  | .GPR32 => 32
  | .GPR64 => 64
  | _ => 0

/-- The slot a privileged `MOV` targets: the virtual control-register store for
`CR0/CR3/CR4/CR8`, the `Dr7` field of the context for `DR7`. -/
def controlValue (s : State) : ZydisRegister → Nat
  | .CR0 => s.CR0
  | .CR3 => s.CR3
  | .CR4 => s.CR4
  | .CR8 => s.CR8
  | .DR7 => s.ctx.Dr7
  | _ => 0

/-! ## Further concrete inputs -/

/-- A two-operand instruction `mnemonic [mem], reg`. -/
def memRegInstr (m : ZydisMnemonic) (r : ZydisRegister) (regBits memBits : Nat) :
    ZydisDecodedInstruction :=
  { mnemonic := m, length := 7, operand0 := memOperand memBits,
    operand1 := regOperand r regBits }

/-- Instruction `mov [G], ecx`. -/
def movMemEcxInstr : ZydisDecodedInstruction := memRegInstr .MOV ZYDIS_REGISTER_ECX 32 32

/-- The store scenario: `Rcx = 0x0000000099AABBCC`. -/
def rcxState : State := seededState (contextWith 0 0x99AABBCC 0 0x1000)

/-- Instruction `mov cr3, rax`, three bytes long. -/
def movCr3RaxInstr : ZydisDecodedInstruction :=
  { mnemonic := .MOV, length := 3, operand0 := regOperand .CR3 64,
    operand1 := regOperand ZYDIS_REGISTER_RAX 64 }

/-- Instruction `mov rax, cr0`, three bytes long. -/
def movRaxCr0Instr : ZydisDecodedInstruction :=
  { mnemonic := .MOV, length := 3, operand0 := regOperand ZYDIS_REGISTER_RAX 64,
    operand1 := regOperand .CR0 64 }

/-- Instruction `cli`, one byte long. -/
def cliInstr : ZydisDecodedInstruction :=
  { mnemonic := .CLI, length := 1, operand0 := unusedOperand, operand1 := unusedOperand }

/-- Instruction `cmp dword ptr [G], eax`. -/
def cmpMemEaxInstr : ZydisDecodedInstruction := memRegInstr .CMP ZYDIS_REGISTER_EAX 32 32

/-- Instruction `test dword ptr [G], eax`. -/
def testMemEaxInstr : ZydisDecodedInstruction := memRegInstr .TEST ZYDIS_REGISTER_EAX 32 32

/-- Collaborators in which the data provider answers for `G` with host address
`0x7FFE0020` while the address map holds a different host address, `0x5000`, for it. -/
def providerEnv : Collaborators :=
  { FindDataImpl := fun a => if a = scenarioG then 0x7FFE0020 else 0
    GetHVA := fun a => if a = scenarioG then 0x5000 else 0 }

/-! ## Vocabulary of the statements about read-side arithmetic -/

/-- The bitwise operation a read-side `OR`, `XOR` or `AND` applies. -/
def bitOp : ZydisMnemonic → Nat → Nat → Nat
  | .OR => fun a b => a ||| b
  | .XOR => fun a b => a ^^^ b
  | _ => fun a b => a &&& b

/-- The signed value of the `bits`-wide pattern `m`: `m` itself when its top bit is
clear, `m - 2^bits` when it is set. -/
def signedValue (bits m : Nat) : Int :=
  if m.testBit (bits - 1) then (m : Int) - 2 ^ bits else (m : Int)

/-- Instruction `or ax, [G]`. -/
def orAxInstr : ZydisDecodedInstruction := regMemInstr .OR ZYDIS_REGISTER_AX 16 16
/-- Instruction `xor ah, [G]`. -/
def xorAhInstr : ZydisDecodedInstruction := regMemInstr .XOR ZYDIS_REGISTER_AH 8 8
/-- Instruction `add ah, [G]`. -/
def addAhInstr : ZydisDecodedInstruction := regMemInstr .ADD ZYDIS_REGISTER_AH 8 8
/-- Instruction `movzx eax, word ptr [G]`. -/
def movzxEaxInstr : ZydisDecodedInstruction := regMemInstr .MOVZX ZYDIS_REGISTER_EAX 32 16
/-- Instruction `movsxd rax, dword ptr [G + 4]`. -/
def movsxdRaxInstr : ZydisDecodedInstruction := regMemInstr .MOVSXD ZYDIS_REGISTER_RAX 64 32
/-- Instruction `or [G], eax`. -/
def orMemEaxInstr : ZydisDecodedInstruction := memRegInstr .OR ZYDIS_REGISTER_EAX 32 32

/-- The arithmetic a read-side `ADD` or `SUB` applies, over the integers. -/
def arithOp : ZydisMnemonic → Int → Int → Int
  | .ADD => fun a b => a + b
  | _ => fun a b => a - b

/-! ## Basic facts about masks, slots and the MSR table -/

theorem and_mask32 (x : Nat) : x &&& 0xFFFFFFFF = x % 2 ^ 32 :=
  Nat.and_pow_two_sub_one_eq_mod x 32

theorem and_mask16 (x : Nat) : x &&& 0xFFFF = x % 2 ^ 16 :=
  Nat.and_pow_two_sub_one_eq_mod x 16

theorem and_mask8 (x : Nat) : x &&& 0xFF = x % 2 ^ 8 :=
  Nat.and_pow_two_sub_one_eq_mod x 8

@[simp] theorem CONTEXT.slot_set (c : CONTEXT) (i v j : Nat) :
    (c.set i v).slot j = if j = i then v else c.slot j := rfl

@[simp] theorem State.setSlot_ctx (s : State) (i v : Nat) :
    (s.setSlot i v).ctx = s.ctx.set i v := rfl

@[simp] theorem State.setSlot_mem (s : State) (i v : Nat) : (s.setSlot i v).mem = s.mem := rfl

@[simp] theorem State.setSlot_MSRData (s : State) (i v : Nat) :
    (s.setSlot i v).MSRData = s.MSRData := rfl

@[simp] theorem State.setEFlags_ctx (s : State) (v : Nat) :
    (s.setEFlags v).ctx = s.ctx.setEFlags v := rfl

@[simp] theorem State.setEFlags_mem (s : State) (v : Nat) : (s.setEFlags v).mem = s.mem := rfl

@[simp] theorem State.setEFlags_MSRData (s : State) (v : Nat) :
    (s.setEFlags v).MSRData = s.MSRData := rfl

theorem MSRTable.contains_of_eq_some {t : MSRTable} {k : Nat} {e : Nat × String}
    (h : t k = some e) : t.contains k = true := by
  simp [MSRTable.contains, h]

theorem MSRTable.index_of_eq_some {t : MSRTable} {k : Nat} {e : Nat × String}
    (h : t k = some e) : t.index k = (e, t) := by
  simp [MSRTable.index, h]

theorem MSRTable.contains_eq_false_of_eq_none {t : MSRTable} {k : Nat}
    (h : t k = none) : t.contains k = false := by
  simp [MSRTable.contains, h]

/-- A hit of `ReadMSR`, as an equation on states. -/
theorem PrivilegedInstruction.ReadMSR_hit_eq (s : State) (v : Nat) (name : String)
    (hk : s.MSRData (s.ctx.Rcx % 2 ^ 32) = some (v, name)) :
    ReadMSR s = .ret true
      ((s.setSlot SLOT_RDX ((v >>> 32) % 2 ^ 32)).setSlot SLOT_RAX (v % 2 ^ 32)) := by
  unfold ReadMSR
  simp only [and_mask32, MSRTable.contains_of_eq_some hk, MSRTable.index_of_eq_some hk]
  rfl

/-- A hit of `WriteMSR`, as an equation on states. -/
theorem PrivilegedInstruction.WriteMSR_hit_eq (s : State) (v : Nat) (name : String)
    (hk : s.MSRData (s.ctx.Rcx % 2 ^ 32) = some (v, name)) :
    WriteMSR s = .ret true
      { s with
        MSRData := s.MSRData.assign (s.ctx.Rcx % 2 ^ 32)
                     (((s.ctx.Rdx <<< 32) % 2 ^ 64) ||| (s.ctx.Rax % 2 ^ 32), name) } := by
  unfold WriteMSR
  simp only [and_mask32, MSRTable.contains_of_eq_some hk, MSRTable.index_of_eq_some hk, wrapShl]
  rfl

/-- A miss of `ReadMSR`. -/
theorem PrivilegedInstruction.ReadMSR_miss_eq (s : State)
    (hk : s.MSRData (s.ctx.Rcx % 2 ^ 32) = none) : ReadMSR s = .ret false s := by
  have hc := MSRTable.contains_eq_false_of_eq_none hk
  unfold ReadMSR
  simp only [and_mask32, hc]
  rfl

/-- A miss of `WriteMSR`. -/
theorem PrivilegedInstruction.WriteMSR_miss_eq (s : State)
    (hk : s.MSRData (s.ctx.Rcx % 2 ^ 32) = none) : WriteMSR s = .ret false s := by
  have hc := MSRTable.contains_eq_false_of_eq_none hk
  unfold WriteMSR
  simp only [and_mask32, hc]
  rfl

theorem pack_lo (a b : Nat) :
    (((a <<< 32) % 2 ^ 64) ||| (b % 2 ^ 32)) % 2 ^ 32 = b % 2 ^ 32 := by
  apply Nat.eq_of_testBit_eq
  intro i
  simp only [Nat.testBit_mod_two_pow, Nat.testBit_or, Nat.testBit_shiftLeft]
  by_cases h : i < 32
  · have : ¬ (i ≥ 32) := by omega
    simp [h, this]
  · simp [h]

theorem pack_hi (a b : Nat) :
    ((((a <<< 32) % 2 ^ 64) ||| (b % 2 ^ 32)) >>> 32) % 2 ^ 32 = a % 2 ^ 32 := by
  apply Nat.eq_of_testBit_eq
  intro i
  simp only [Nat.testBit_mod_two_pow, Nat.testBit_or, Nat.testBit_shiftLeft,
    Nat.testBit_shiftRight]
  by_cases h : i < 32
  · have h1 : 32 + i < 64 := by omega
    have h2 : ¬ (32 + i < 32) := by omega
    simp [h, h1, h2]
  · simp [h]

theorem shiftRight32_lt {v : Nat} (hv : v < 2 ^ 64) : v >>> 32 < 2 ^ 32 := by
  rw [Nat.shiftRight_eq_div_pow]
  omega

/-! ## Model-specific registers -/

/-- C1 — MSR round trip. When `ECX` (`Rcx mod 2^32`) is a key of the MSR table,
emulating `WRMSR` and then `RDMSR` through `PrivilegedInstruction::Parse` succeeds
both times, `Rcx` is untouched in between, and afterwards `Rax` and `Rdx` hold the
low 32 bits of the `Rax` and `Rdx` given to `WRMSR` (so their upper halves are
zero), while `Rip` has advanced by the two instruction lengths. -/
theorem C1_msr_round_trip (s : State) (iw ir : ZydisDecodedInstruction) (k : Nat)
    (e : Nat × String) (hw : iw.mnemonic = ZydisMnemonic.WRMSR)
    (hr : ir.mnemonic = ZydisMnemonic.RDMSR) (hecx : s.ctx.Rcx % 2 ^ 32 = k)
    (hk : s.MSRData k = some e) :
    ∃ s1 s2, PrivilegedInstruction.Parse (some iw) s = .ret true s1
      ∧ PrivilegedInstruction.Parse (some ir) s1 = .ret true s2
      ∧ s1.ctx.Rcx = s.ctx.Rcx
      ∧ s2.ctx.Rax = s.ctx.Rax % 2 ^ 32 ∧ s2.ctx.Rdx = s.ctx.Rdx % 2 ^ 32
      ∧ s2.ctx.Rax < 2 ^ 32 ∧ s2.ctx.Rdx < 2 ^ 32
      ∧ s2.ctx.Rip = (s.ctx.Rip + (iw.length + ir.length)) % 2 ^ 64 := by
  subst hecx
  obtain ⟨v, name⟩ := e
  have h1 := PrivilegedInstruction.WriteMSR_hit_eq s v name hk
  generalize hnew : ((s.ctx.Rdx <<< 32) % 2 ^ 64) ||| (s.ctx.Rax % 2 ^ 32) = new at h1
  generalize hs1 : ({ s with
      MSRData := s.MSRData.assign (s.ctx.Rcx % 2 ^ 32) (new, name) } : State) = s0 at h1
  have hctx0 : s0.ctx = s.ctx := by rw [← hs1]
  have hmsr0 : s0.MSRData = s.MSRData.assign (s.ctx.Rcx % 2 ^ 32) (new, name) := by rw [← hs1]
  have hparse1 : PrivilegedInstruction.Parse (some iw) s
      = .ret true (s0.setSlot SLOT_RIP (wrapAdd s0.ctx.Rip iw.length)) := by
    simp only [PrivilegedInstruction.Parse, hw, h1, Outcome.andThen]
    rfl
  generalize hs1' : s0.setSlot SLOT_RIP (wrapAdd s0.ctx.Rip iw.length) = s1 at hparse1
  have hrcx1 : s1.ctx.Rcx = s.ctx.Rcx := by
    rw [← hs1', ← hctx0]
    simp [CONTEXT.Rcx, SLOT_RCX, SLOT_RIP]
  have hrip1 : s1.ctx.Rip = wrapAdd s.ctx.Rip iw.length := by
    rw [← hs1', ← hctx0]
    simp [CONTEXT.Rip]
  have hk2 : s1.MSRData (s1.ctx.Rcx % 2 ^ 32) = some (new, name) := by
    rw [hrcx1, ← hs1']
    simp [hmsr0, MSRTable.assign]
  have h2 := PrivilegedInstruction.ReadMSR_hit_eq s1 new name hk2
  have hparse2 : PrivilegedInstruction.Parse (some ir) s1 = .ret true
      (((s1.setSlot SLOT_RDX ((new >>> 32) % 2 ^ 32)).setSlot SLOT_RAX (new % 2 ^ 32)).setSlot
        SLOT_RIP (wrapAdd s1.ctx.Rip ir.length)) := by
    simp only [PrivilegedInstruction.Parse, hr, h2, Outcome.andThen]
    simp [SkipToNext, State.setSlot, CONTEXT.Rip, SLOT_RIP, SLOT_RAX, SLOT_RDX]
  have hlo : new % 2 ^ 32 = s.ctx.Rax % 2 ^ 32 := by rw [← hnew]; exact pack_lo _ _
  have hhi : (new >>> 32) % 2 ^ 32 = s.ctx.Rdx % 2 ^ 32 := by rw [← hnew]; exact pack_hi _ _
  have hrax2 : (((s1.setSlot SLOT_RDX ((new >>> 32) % 2 ^ 32)).setSlot SLOT_RAX
      (new % 2 ^ 32)).setSlot SLOT_RIP (wrapAdd s1.ctx.Rip ir.length)).ctx.Rax
      = new % 2 ^ 32 := by
    simp [CONTEXT.Rax, SLOT_RAX, SLOT_RIP]
  have hrdx2 : (((s1.setSlot SLOT_RDX ((new >>> 32) % 2 ^ 32)).setSlot SLOT_RAX
      (new % 2 ^ 32)).setSlot SLOT_RIP (wrapAdd s1.ctx.Rip ir.length)).ctx.Rdx
      = (new >>> 32) % 2 ^ 32 := by
    simp [CONTEXT.Rdx, SLOT_RAX, SLOT_RDX, SLOT_RIP]
  refine ⟨s1, _, hparse1, hparse2, hrcx1, ?_, ?_, ?_, ?_, ?_⟩
  · rw [hrax2, hlo]
  · rw [hrdx2, hhi]
  · rw [hrax2]
    exact Nat.mod_lt _ (by norm_num)
  · rw [hrdx2]
    exact Nat.mod_lt _ (by norm_num)
  · have : (((s1.setSlot SLOT_RDX ((new >>> 32) % 2 ^ 32)).setSlot SLOT_RAX
        (new % 2 ^ 32)).setSlot SLOT_RIP (wrapAdd s1.ctx.Rip ir.length)).ctx.Rip
        = wrapAdd s1.ctx.Rip ir.length := by
      simp [CONTEXT.Rip]
    rw [this, hrip1]
    simp [wrapAdd, Nat.add_assoc]

/-- C1, exercised on the round-trip scenario: `Rcx = 0xC0000082` (`MSR_LSTAR`),
`Rdx = 0xFEEDFACE`, `Rax = 0xDEADBEEF`, table as seeded by `Initialize`. -/
theorem C1_msr_round_trip_witness :
    wrmsrInstr.mnemonic = ZydisMnemonic.WRMSR ∧ rdmsrInstr.mnemonic = ZydisMnemonic.RDMSR
      ∧ lstarState.ctx.Rcx % 2 ^ 32 = 0xC0000082
      ∧ lstarState.MSRData 0xC0000082 = some (0x10000, "MSR_LSTAR")
      ∧ ∃ s1 s2, PrivilegedInstruction.Parse (some wrmsrInstr) lstarState = .ret true s1
        ∧ PrivilegedInstruction.Parse (some rdmsrInstr) s1 = .ret true s2
        ∧ s1.ctx.Rcx = lstarState.ctx.Rcx
        ∧ s2.ctx.Rax = lstarState.ctx.Rax % 2 ^ 32 ∧ s2.ctx.Rdx = lstarState.ctx.Rdx % 2 ^ 32
        ∧ s2.ctx.Rax < 2 ^ 32 ∧ s2.ctx.Rdx < 2 ^ 32
        ∧ s2.ctx.Rip = (lstarState.ctx.Rip + (wrmsrInstr.length + rdmsrInstr.length)) % 2 ^ 64 :=
  ⟨rfl, rfl, by decide, by rfl,
    C1_msr_round_trip lstarState wrmsrInstr rdmsrInstr 0xC0000082 (0x10000, "MSR_LSTAR")
      rfl rfl (by decide) (by rfl)⟩

/-- C2 — `RDMSR` hit. When `k = Rcx mod 2^32` is a key of the MSR table with a
64-bit value `v`, `ReadMSR` returns true with `Rdx = v >> 32` and `Rax = v mod 2^32`
(both below `2^32`); the MSR table, every other slot of the context, host memory and
the virtual control registers are unchanged; and any state with the same table and
the same low 32 bits of `Rcx` obtains the same `Rdx` and `Rax`. -/
theorem C2_rdmsr_hit (s : State) (v : Nat) (name : String)
    (hk : s.MSRData (s.ctx.Rcx % 2 ^ 32) = some (v, name)) (hv : v < 2 ^ 64) :
    ∃ s1, PrivilegedInstruction.ReadMSR s = .ret true s1
      ∧ s1.ctx.Rdx = v >>> 32 ∧ s1.ctx.Rax = v % 2 ^ 32
      ∧ s1.ctx.Rdx < 2 ^ 32 ∧ s1.ctx.Rax < 2 ^ 32
      ∧ s1.MSRData = s.MSRData
      ∧ (∀ i, i ≠ SLOT_RAX → i ≠ SLOT_RDX → s1.ctx.slot i = s.ctx.slot i)
      ∧ s1.mem = s.mem ∧ s1.CR0 = s.CR0 ∧ s1.CR3 = s.CR3 ∧ s1.CR4 = s.CR4 ∧ s1.CR8 = s.CR8
      ∧ ∀ t : State, t.MSRData = s.MSRData → t.ctx.Rcx % 2 ^ 32 = s.ctx.Rcx % 2 ^ 32 →
          ∃ t1, PrivilegedInstruction.ReadMSR t = .ret true t1
            ∧ t1.ctx.Rdx = s1.ctx.Rdx ∧ t1.ctx.Rax = s1.ctx.Rax := by
  have hhi : (v >>> 32) % 2 ^ 32 = v >>> 32 := Nat.mod_eq_of_lt (shiftRight32_lt hv)
  have hrax : ∀ u : State, ((u.setSlot SLOT_RDX ((v >>> 32) % 2 ^ 32)).setSlot SLOT_RAX
      (v % 2 ^ 32)).ctx.Rax = v % 2 ^ 32 := by
    intro u
    simp [CONTEXT.Rax]
  have hrdx : ∀ u : State, ((u.setSlot SLOT_RDX ((v >>> 32) % 2 ^ 32)).setSlot SLOT_RAX
      (v % 2 ^ 32)).ctx.Rdx = v >>> 32 := by
    intro u
    rw [hhi]
    simp [CONTEXT.Rdx, SLOT_RAX, SLOT_RDX]
  refine ⟨_, PrivilegedInstruction.ReadMSR_hit_eq s v name hk, hrdx s, hrax s, ?_, ?_, rfl, ?_,
    rfl, rfl, rfl, rfl, rfl, ?_⟩
  · rw [hrdx s]
    exact shiftRight32_lt hv
  · rw [hrax s]
    exact Nat.mod_lt _ (by norm_num)
  · intro i h1 h2
    simp [h1, h2]
  · intro t hmsr hrcx
    have hk1 : t.MSRData (t.ctx.Rcx % 2 ^ 32) = some (v, name) := by rw [hmsr, hrcx]; exact hk
    exact ⟨_, PrivilegedInstruction.ReadMSR_hit_eq t v name hk1, by rw [hrdx t, hrdx s],
      by rw [hrax t, hrax s]⟩

/-- C2, exercised on the seeded table with `Rcx = 0xC0000082`, whose value is `0x10000`. -/
theorem C2_rdmsr_hit_witness :
    lstarState.MSRData (lstarState.ctx.Rcx % 2 ^ 32) = some (0x10000, "MSR_LSTAR")
      ∧ 0x10000 < 2 ^ 64
      ∧ ∃ s1, PrivilegedInstruction.ReadMSR lstarState = .ret true s1
        ∧ s1.ctx.Rdx = 0x10000 >>> 32 ∧ s1.ctx.Rax = 0x10000 % 2 ^ 32
        ∧ s1.ctx.Rdx < 2 ^ 32 ∧ s1.ctx.Rax < 2 ^ 32
        ∧ s1.MSRData = lstarState.MSRData
        ∧ (∀ i, i ≠ SLOT_RAX → i ≠ SLOT_RDX → s1.ctx.slot i = lstarState.ctx.slot i)
        ∧ s1.mem = lstarState.mem ∧ s1.CR0 = lstarState.CR0 ∧ s1.CR3 = lstarState.CR3
        ∧ s1.CR4 = lstarState.CR4 ∧ s1.CR8 = lstarState.CR8
        ∧ ∀ t : State, t.MSRData = lstarState.MSRData →
            t.ctx.Rcx % 2 ^ 32 = lstarState.ctx.Rcx % 2 ^ 32 →
            ∃ t1, PrivilegedInstruction.ReadMSR t = .ret true t1
              ∧ t1.ctx.Rdx = s1.ctx.Rdx ∧ t1.ctx.Rax = s1.ctx.Rax :=
  ⟨by rfl, by norm_num, C2_rdmsr_hit lstarState 0x10000 "MSR_LSTAR" (by rfl) (by norm_num)⟩

/-- C3 — MSR miss. When `ECX` (`Rcx mod 2^32`) is not a key of the MSR table,
emulating `RDMSR` or `WRMSR` returns failure, from `ReadMSR`/`WriteMSR` and from
`PrivilegedInstruction::Parse` alike, and the whole state (context with `Rip`,
`Rax`, `Rdx`; MSR table; virtual control registers; host memory) is the pre-call
state. -/
theorem C3_msr_miss (s : State) (instr : ZydisDecodedInstruction)
    (hm : instr.mnemonic = ZydisMnemonic.RDMSR ∨ instr.mnemonic = ZydisMnemonic.WRMSR)
    (hmiss : s.MSRData (s.ctx.Rcx % 2 ^ 32) = none) :
    PrivilegedInstruction.Parse (some instr) s = .ret false s
      ∧ PrivilegedInstruction.ReadMSR s = .ret false s
      ∧ PrivilegedInstruction.WriteMSR s = .ret false s := by
  have hr := PrivilegedInstruction.ReadMSR_miss_eq s hmiss
  have hw := PrivilegedInstruction.WriteMSR_miss_eq s hmiss
  refine ⟨?_, hr, hw⟩
  rcases hm with h | h
  · simp [PrivilegedInstruction.Parse, h, hr, Outcome.andThen]
  · simp [PrivilegedInstruction.Parse, h, hw, Outcome.andThen]

/-- C3, exercised on the miss scenario `Rcx = 0xDEADBEEF`. -/
theorem C3_msr_miss_witness :
    (rdmsrInstr.mnemonic = ZydisMnemonic.RDMSR ∨ rdmsrInstr.mnemonic = ZydisMnemonic.WRMSR)
      ∧ missState.MSRData (missState.ctx.Rcx % 2 ^ 32) = none
      ∧ PrivilegedInstruction.Parse (some rdmsrInstr) missState = .ret false missState
      ∧ PrivilegedInstruction.ReadMSR missState = .ret false missState
      ∧ PrivilegedInstruction.WriteMSR missState = .ret false missState :=
  ⟨Or.inl rfl, by rfl, C3_msr_miss missState rdmsrInstr (Or.inl rfl) (by rfl)⟩

/-- C4 — `WRMSR` hit. When `k = Rcx mod 2^32` is a key of the MSR table, `WriteMSR`
returns true, the value stored for `k` becomes
`((Rdx << 32) mod 2^64) | (Rax mod 2^32)` under the name stored before, every other
entry of the table is unchanged, and so are the context, host memory and the
virtual control registers. -/
theorem C4_wrmsr_hit (s : State) (v : Nat) (name : String)
    (hk : s.MSRData (s.ctx.Rcx % 2 ^ 32) = some (v, name)) :
    ∃ s1, PrivilegedInstruction.WriteMSR s = .ret true s1
      ∧ s1.MSRData (s.ctx.Rcx % 2 ^ 32)
          = some (((s.ctx.Rdx <<< 32) % 2 ^ 64) ||| (s.ctx.Rax % 2 ^ 32), name)
      ∧ (∀ j, j ≠ s.ctx.Rcx % 2 ^ 32 → s1.MSRData j = s.MSRData j)
      ∧ s1.ctx = s.ctx ∧ s1.mem = s.mem
      ∧ s1.CR0 = s.CR0 ∧ s1.CR3 = s.CR3 ∧ s1.CR4 = s.CR4 ∧ s1.CR8 = s.CR8 := by
  refine ⟨_, PrivilegedInstruction.WriteMSR_hit_eq s v name hk, ?_, ?_, rfl, rfl, rfl, rfl, rfl,
    rfl⟩
  · simp [MSRTable.assign]
  · intro j hj
    show (if j = s.ctx.Rcx % 2 ^ 32 then _ else s.MSRData j) = s.MSRData j
    rw [if_neg hj]

/-- C4, exercised on the round-trip scenario. -/
theorem C4_wrmsr_hit_witness :
    lstarState.MSRData (lstarState.ctx.Rcx % 2 ^ 32) = some (0x10000, "MSR_LSTAR")
      ∧ ∃ s1, PrivilegedInstruction.WriteMSR lstarState = .ret true s1
        ∧ s1.MSRData (lstarState.ctx.Rcx % 2 ^ 32)
            = some (((lstarState.ctx.Rdx <<< 32) % 2 ^ 64) ||| (lstarState.ctx.Rax % 2 ^ 32),
                "MSR_LSTAR")
        ∧ (∀ j, j ≠ lstarState.ctx.Rcx % 2 ^ 32 → s1.MSRData j = lstarState.MSRData j)
        ∧ s1.ctx = lstarState.ctx ∧ s1.mem = lstarState.mem
        ∧ s1.CR0 = lstarState.CR0 ∧ s1.CR3 = lstarState.CR3 ∧ s1.CR4 = lstarState.CR4
        ∧ s1.CR8 = lstarState.CR8 :=
  ⟨by rfl, C4_wrmsr_hit lstarState 0x10000 "MSR_LSTAR" (by rfl)⟩

/-! ## Shapes of the helpers' outcomes -/

theorem GRegIndex_ne_rip {reg : ZydisRegister} (h : reg ≠ ZydisRegister.RIP) :
    GRegIndex reg ≠ SLOT_RIP := by
  cases reg <;>
    simp [GRegIndex, ZydisRegisterGetLargestEnclosing, SLOT_RIP, SLOT_EFLAGS, SLOT_RAX] at h ⊢ <;>
    omega

theorem InstrEmu.ReadPtr.EmulateMOV_shape (s : State) (reg : ZydisRegister) (ptr : Nat) :
    EmulateMOV s reg ptr  = .fatal s
      ∨ ∃ v, EmulateMOV s reg ptr  = .ret true (s.setSlot (GRegIndex reg) v) := by
  unfold EmulateMOV
  repeat' split
  all_goals first | exact Or.inl rfl | exact Or.inr ⟨_, rfl⟩

theorem InstrEmu.ReadPtr.EmulateSUB_shape (s : State) (reg : ZydisRegister) (ptr : Nat) :
    EmulateSUB s reg ptr  = .fatal s
      ∨ ∃ v, EmulateSUB s reg ptr  = .ret true (s.setSlot (GRegIndex reg) v) := by
  unfold EmulateSUB
  repeat' split
  all_goals first | exact Or.inl rfl | exact Or.inr ⟨_, rfl⟩

theorem InstrEmu.ReadPtr.EmulateADD_shape (s : State) (reg : ZydisRegister) (ptr : Nat) :
    EmulateADD s reg ptr  = .fatal s
      ∨ ∃ v, EmulateADD s reg ptr  = .ret true (s.setSlot (GRegIndex reg) v) := by
  unfold EmulateADD
  repeat' split
  all_goals first | exact Or.inl rfl | exact Or.inr ⟨_, rfl⟩

theorem InstrEmu.ReadPtr.EmulateOR_shape (s : State) (reg : ZydisRegister) (ptr : Nat) :
    EmulateOR s reg ptr  = .fatal s
      ∨ ∃ v, EmulateOR s reg ptr  = .ret true (s.setSlot (GRegIndex reg) v) := by
  unfold EmulateOR
  repeat' split
  all_goals first | exact Or.inl rfl | exact Or.inr ⟨_, rfl⟩

theorem InstrEmu.ReadPtr.EmulateXOR_shape (s : State) (reg : ZydisRegister) (ptr : Nat) :
    EmulateXOR s reg ptr  = .fatal s
      ∨ ∃ v, EmulateXOR s reg ptr  = .ret true (s.setSlot (GRegIndex reg) v) := by
  unfold EmulateXOR
  repeat' split
  all_goals first | exact Or.inl rfl | exact Or.inr ⟨_, rfl⟩

theorem InstrEmu.ReadPtr.EmulateAND_shape (s : State) (reg : ZydisRegister) (ptr : Nat) :
    EmulateAND s reg ptr  = .fatal s
      ∨ ∃ v, EmulateAND s reg ptr  = .ret true (s.setSlot (GRegIndex reg) v) := by
  unfold EmulateAND
  repeat' split
  all_goals first | exact Or.inl rfl | exact Or.inr ⟨_, rfl⟩

theorem InstrEmu.ReadPtr.EmulateMOVZX_shape (s : State) (reg : ZydisRegister) (ptr size : Nat) :
    EmulateMOVZX s reg ptr size = .fatal s
      ∨ ∃ v, EmulateMOVZX s reg ptr size = .ret true (s.setSlot (GRegIndex reg) v) := by
  unfold EmulateMOVZX
  repeat' split
  all_goals first | exact Or.inl rfl | exact Or.inr ⟨_, rfl⟩

theorem InstrEmu.ReadPtr.EmulateMOVSX_shape (s : State) (reg : ZydisRegister) (ptr size : Nat) :
    EmulateMOVSX s reg ptr size = .fatal s
      ∨ ∃ v, EmulateMOVSX s reg ptr size = .ret true (s.setSlot (GRegIndex reg) v) := by
  unfold EmulateMOVSX
  repeat' split
  all_goals first | exact Or.inl rfl | exact Or.inr ⟨_, rfl⟩

theorem InstrEmu.EmulateCMPSourcePtr_shape (s : State) (reg : ZydisRegister) (ptr : Nat) :
    EmulateCMPSourcePtr s reg ptr = .fatal s ∨ ∃ v, EmulateCMPSourcePtr s reg ptr = .ret true (s.setEFlags v) := by
  unfold EmulateCMPSourcePtr
  repeat' split
  all_goals first | exact Or.inl rfl | exact Or.inr ⟨_, rfl⟩

theorem InstrEmu.EmulateCMPDestPtr_shape (s : State) (reg : ZydisRegister) (ptr : Nat) :
    EmulateCMPDestPtr s reg ptr = .fatal s ∨ ∃ v, EmulateCMPDestPtr s reg ptr = .ret true (s.setEFlags v) := by
  unfold EmulateCMPDestPtr
  repeat' split
  all_goals first | exact Or.inl rfl | exact Or.inr ⟨_, rfl⟩

theorem InstrEmu.EmulateTestSourcePtr_shape (s : State) (reg : ZydisRegister) (ptr : Nat) :
    EmulateTestSourcePtr s reg ptr = .fatal s ∨ ∃ v, EmulateTestSourcePtr s reg ptr = .ret true (s.setEFlags v) := by
  unfold EmulateTestSourcePtr
  repeat' split
  all_goals first | exact Or.inl rfl | exact Or.inr ⟨_, rfl⟩

theorem InstrEmu.EmulateTestDestPtr_shape (s : State) (reg : ZydisRegister) (ptr : Nat) :
    EmulateTestDestPtr s reg ptr = .fatal s ∨ ∃ v, EmulateTestDestPtr s reg ptr = .ret true (s.setEFlags v) := by
  unfold EmulateTestDestPtr
  repeat' split
  all_goals first | exact Or.inl rfl | exact Or.inr ⟨_, rfl⟩

theorem InstrEmu.EmulateCMPImm_shape (s : State) (imm : Int) (ptr size : Nat) :
    EmulateCMPImm s imm ptr size = .fatal s
      ∨ ∃ v, EmulateCMPImm s imm ptr size = .ret true (s.setEFlags v) := by
  unfold EmulateCMPImm
  repeat' split
  all_goals first | exact Or.inl rfl | exact Or.inr ⟨_, rfl⟩

theorem InstrEmu.EmulateTestImm_shape (s : State) (imm : Int) (ptr size : Nat) :
    EmulateTestImm s imm ptr size = .fatal s
      ∨ ∃ v, EmulateTestImm s imm ptr size = .ret true (s.setEFlags v) := by
  unfold EmulateTestImm
  repeat' split
  all_goals first | exact Or.inl rfl | exact Or.inr ⟨_, rfl⟩

theorem InstrEmu.WritePtr.EmulateMOV_store_shape (s : State) (reg : ZydisRegister) (ptr : Nat) :
    EmulateMOV s reg ptr = .fatal s
      ∨ ∃ m, EmulateMOV s reg ptr = .ret true { s with mem := m } := by
  unfold EmulateMOV
  repeat' split
  all_goals first | exact Or.inl rfl | exact Or.inr ⟨_, rfl⟩

theorem ReadOutcome.of_reg {instr : ZydisDecodedInstruction} {s : State} {o : Outcome}
    (h : o = .fatal s ∨ ∃ v, o = .ret true (s.setSlot (GRegIndex instr.operand0.reg) v)) :
    ReadOutcome instr s (o.andThen fun _ s1 => SkipToNext instr s1) := by
  rcases h with h | ⟨v, h⟩
  · exact Or.inl (by rw [h]; rfl)
  · exact Or.inr (Or.inl ⟨v, by rw [h]; rfl⟩)

theorem ReadOutcome.of_flags {instr : ZydisDecodedInstruction} {s : State} {o : Outcome}
    (h : o = .fatal s ∨ ∃ v, o = .ret true (s.setEFlags v)) :
    ReadOutcome instr s (o.andThen fun _ s1 => SkipToNext instr s1) := by
  rcases h with h | ⟨v, h⟩
  · exact Or.inl (by rw [h]; rfl)
  · exact Or.inr (Or.inr ⟨v, by rw [h]; rfl⟩)

theorem WriteOutcome.of_mem {instr : ZydisDecodedInstruction} {s : State} {o : Outcome}
    (h : o = .fatal s ∨ ∃ m, o = .ret true { s with mem := m }) :
    WriteOutcome instr s (o.andThen fun _ s1 => SkipToNext instr s1) := by
  rcases h with h | ⟨m, h⟩
  · exact Or.inl (by rw [h]; rfl)
  · exact Or.inr ⟨m, by rw [h]; rfl⟩

/-- Every run of `MemoryRead::EmulateRead` has one of the three read shapes. -/
theorem MemoryRead.EmulateRead_shape (instr : ZydisDecodedInstruction) (addr : Nat)
    (s : State) : ReadOutcome instr s (EmulateRead instr addr s) := by
  unfold EmulateRead
  simp only []
  split
  · split
    · exact ReadOutcome.of_reg (InstrEmu.ReadPtr.EmulateMOV_shape _ _ _)
    · exact Or.inl rfl
  · split
    · exact ReadOutcome.of_reg (InstrEmu.ReadPtr.EmulateOR_shape _ _ _)
    · exact Or.inl rfl
  · split
    · exact ReadOutcome.of_reg (InstrEmu.ReadPtr.EmulateXOR_shape _ _ _)
    · exact Or.inl rfl
  · split
    · exact ReadOutcome.of_reg (InstrEmu.ReadPtr.EmulateAND_shape _ _ _)
    · exact Or.inl rfl
  · split
    · exact ReadOutcome.of_reg (InstrEmu.ReadPtr.EmulateSUB_shape _ _ _)
    · exact Or.inl rfl
  · split
    · exact ReadOutcome.of_reg (InstrEmu.ReadPtr.EmulateADD_shape _ _ _)
    · exact Or.inl rfl
  · split
    · exact ReadOutcome.of_flags (InstrEmu.EmulateCMPSourcePtr_shape _ _ _)
    · split
      · exact ReadOutcome.of_flags (InstrEmu.EmulateCMPDestPtr_shape _ _ _)
      · split
        · exact ReadOutcome.of_flags (InstrEmu.EmulateCMPImm_shape _ _ _ _)
        · split
          · exact ReadOutcome.of_flags (InstrEmu.EmulateCMPImm_shape _ _ _ _)
          · exact Or.inl rfl
  · split
    · exact ReadOutcome.of_flags (InstrEmu.EmulateTestSourcePtr_shape _ _ _)
    · split
      · exact ReadOutcome.of_flags (InstrEmu.EmulateTestDestPtr_shape _ _ _)
      · split
        · exact ReadOutcome.of_flags (InstrEmu.EmulateTestImm_shape _ _ _ _)
        · split
          · exact ReadOutcome.of_flags (InstrEmu.EmulateTestImm_shape _ _ _ _)
          · exact Or.inl rfl
  · split
    · exact ReadOutcome.of_reg (InstrEmu.ReadPtr.EmulateMOVZX_shape _ _ _ _)
    · exact Or.inl rfl
  · split
    · exact ReadOutcome.of_reg (InstrEmu.ReadPtr.EmulateMOVSX_shape _ _ _ _)
    · exact Or.inl rfl
  · exact Or.inl rfl

/-- Every run of `MemoryWrite::EmulateWrite` has one of the two write shapes. -/
theorem MemoryWrite.EmulateWrite_shape (instr : ZydisDecodedInstruction) (addr : Nat)
    (s : State) : WriteOutcome instr s (EmulateWrite instr addr s) := by
  unfold EmulateWrite
  split
  · split
    · exact WriteOutcome.of_mem (InstrEmu.WritePtr.EmulateMOV_store_shape _ _ _)
    · exact Or.inl rfl
  · split
    · exact Or.inl rfl
    · exact Or.inl rfl
  · split
    · exact Or.inl rfl
    · exact Or.inl rfl
  · split
    · exact Or.inl rfl
    · exact Or.inl rfl
  · exact Or.inl rfl

/-- Every run of `EmulatePrivilegedMOV` has one of the privileged-`MOV` shapes. -/
theorem PrivilegedInstruction.EmulatePrivilegedMOV_shape (instr : ZydisDecodedInstruction)
    (s : State) : PrivMovOutcome instr s (EmulatePrivilegedMOV instr s) := by
  unfold EmulatePrivilegedMOV
  by_cases h0 : instr.operand0.type ≠ ZydisOperandType.REGISTER
      ∨ instr.operand0.type ≠ ZydisOperandType.REGISTER
  · rw [if_pos h0]; exact Or.inl rfl
  rw [if_neg h0]
  by_cases h1 : GRegIndex instr.operand1.reg = 0 ∧ GRegIndex instr.operand0.reg = 0
  · rw [if_pos h1]; exact Or.inl rfl
  rw [if_neg h1]
  by_cases h2 : instr.operand0.reg = ZydisRegister.CR0
  · rw [if_pos h2]; exact Or.inr (Or.inl ⟨_, rfl⟩)
  rw [if_neg h2]
  by_cases h3 : instr.operand1.reg = ZydisRegister.CR0
  · rw [if_pos h3]; exact Or.inr (Or.inr (Or.inr (Or.inr (Or.inr (Or.inl ⟨_, rfl⟩)))))
  rw [if_neg h3]
  by_cases h4 : instr.operand0.reg = ZydisRegister.CR3
  · rw [if_pos h4]; exact Or.inr (Or.inr (Or.inl ⟨_, rfl⟩))
  rw [if_neg h4]
  by_cases h5 : instr.operand1.reg = ZydisRegister.CR3
  · rw [if_pos h5]; exact Or.inr (Or.inr (Or.inr (Or.inr (Or.inr (Or.inl ⟨_, rfl⟩)))))
  rw [if_neg h5]
  by_cases h6 : instr.operand0.reg = ZydisRegister.CR4
  · rw [if_pos h6]; exact Or.inr (Or.inr (Or.inr (Or.inl ⟨_, rfl⟩)))
  rw [if_neg h6]
  by_cases h7 : instr.operand1.reg = ZydisRegister.CR4
  · rw [if_pos h7]; exact Or.inr (Or.inr (Or.inr (Or.inr (Or.inr (Or.inl ⟨_, rfl⟩)))))
  rw [if_neg h7]
  by_cases h8 : instr.operand0.reg = ZydisRegister.CR8
  · rw [if_pos h8]; exact Or.inr (Or.inr (Or.inr (Or.inr (Or.inl ⟨_, rfl⟩))))
  rw [if_neg h8]
  by_cases h9 : instr.operand1.reg = ZydisRegister.CR8
  · rw [if_pos h9]; exact Or.inr (Or.inr (Or.inr (Or.inr (Or.inr (Or.inl ⟨_, rfl⟩)))))
  rw [if_neg h9]
  by_cases h10 : instr.operand0.reg = ZydisRegister.DR7
  · rw [if_pos h10]; exact Or.inr (Or.inr (Or.inr (Or.inr (Or.inr (Or.inr ⟨_, rfl⟩)))))
  rw [if_neg h10]
  exact Or.inl rfl

/-! ## The frame of the entry points -/

theorem MSRTable.keys_assign {t : MSRTable} {k : Nat} (e : Nat × String) (h : t k ≠ none) :
    (t.assign k e).keys = t.keys := by
  ext j
  simp only [MSRTable.keys, MSRTable.assign, Set.mem_setOf_eq]
  by_cases hj : j = k
  · subst hj
    simp [h]
  · simp [hj]

theorem PrivilegedInstruction.ReadMSR_shape (s : State) :
    ReadMSR s = .ret false s
      ∨ ∃ a b, ReadMSR s = .ret true ((s.setSlot SLOT_RDX a).setSlot SLOT_RAX b) := by
  cases h : s.MSRData (s.ctx.Rcx % 2 ^ 32) with
  | none => exact Or.inl (ReadMSR_miss_eq s h)
  | some e => exact Or.inr ⟨_, _, ReadMSR_hit_eq s e.1 e.2 h⟩

theorem PrivilegedInstruction.WriteMSR_shape (s : State) :
    WriteMSR s = .ret false s
      ∨ ∃ k e, s.MSRData k ≠ none
          ∧ WriteMSR s = .ret true { s with MSRData := s.MSRData.assign k e } := by
  cases h : s.MSRData (s.ctx.Rcx % 2 ^ 32) with
  | none => exact Or.inl (WriteMSR_miss_eq s h)
  | some e => exact Or.inr ⟨_, _, by rw [h]; simp, WriteMSR_hit_eq s e.1 e.2 h⟩

theorem StepFrame.fatal (instr : ZydisDecodedInstruction) (s : State) :
    StepFrame instr s (.fatal s) := by
  unfold StepFrame
  refine ⟨rfl, ?_, ?_⟩
  · intro s1 h1
    cases h1
  · intro s1 h1
    cases h1

theorem StepFrame.ret_false (instr : ZydisDecodedInstruction) (s t : State)
    (h : t.ctx = s.ctx ∧ t.mem = s.mem ∧ t.MSRData = s.MSRData
      ∧ t.CR0 = s.CR0 ∧ t.CR3 = s.CR3 ∧ t.CR4 = s.CR4 ∧ t.CR8 = s.CR8) :
    StepFrame instr s (.ret false t) := by
  unfold StepFrame
  refine ⟨?_, ?_, ?_⟩
  · show t.MSRData.keys = s.MSRData.keys
    rw [h.2.2.1]
  · intro s1 h1
    cases h1
    exact h
  · intro s1 h1
    cases h1

theorem StepFrame.skip (instr : ZydisDecodedInstruction) (s t : State)
    (hk : t.MSRData.keys = s.MSRData.keys)
    (hrip : instr.operand0.reg ≠ ZydisRegister.RIP → t.ctx.Rip = s.ctx.Rip) :
    StepFrame instr s (SkipToNext instr t) := by
  unfold StepFrame
  refine ⟨hk, ?_, ?_⟩
  · intro s1 h1
    cases h1
  · intro s1 h1 hreg
    cases h1
    show (t.ctx.set SLOT_RIP (wrapAdd t.ctx.Rip instr.length)).Rip = _
    rw [hrip hreg]
    simp [CONTEXT.Rip, wrapAdd]

theorem ReadOutcome.read_stepFrame {instr : ZydisDecodedInstruction} {s : State} {o : Outcome}
    (h : ReadOutcome instr s o) : StepFrame instr s o := by
  rcases h with h | ⟨v, h⟩ | ⟨v, h⟩
  · rw [h]; exact StepFrame.fatal instr s
  · rw [h]
    refine StepFrame.skip instr s _ rfl ?_
    intro hreg
    have := GRegIndex_ne_rip hreg
    simp [CONTEXT.Rip, Ne.symm this]
  · rw [h]
    refine StepFrame.skip instr s _ rfl ?_
    intro _
    simp [CONTEXT.Rip, CONTEXT.setEFlags, SLOT_RIP, SLOT_EFLAGS]

theorem WriteOutcome.write_stepFrame {instr : ZydisDecodedInstruction} {s : State} {o : Outcome}
    (h : WriteOutcome instr s o) : StepFrame instr s o := by
  rcases h with h | ⟨m, h⟩
  · rw [h]; exact StepFrame.fatal instr s
  · rw [h]
    exact StepFrame.skip instr s _ rfl (fun _ => rfl)

theorem PrivMovOutcome.privMov_stepFrame {instr : ZydisDecodedInstruction} {s : State} {o : Outcome}
    (h : PrivMovOutcome instr s o) :
    StepFrame instr s (o.andThen fun _ s1 => SkipToNext instr s1) := by
  rcases h with h | ⟨v, h⟩ | ⟨v, h⟩ | ⟨v, h⟩ | ⟨v, h⟩ | ⟨v, h⟩ | ⟨v, h⟩
  · rw [h]; exact StepFrame.fatal instr s
  · rw [h]; exact StepFrame.skip instr s _ rfl (fun _ => rfl)
  · rw [h]; exact StepFrame.skip instr s _ rfl (fun _ => rfl)
  · rw [h]; exact StepFrame.skip instr s _ rfl (fun _ => rfl)
  · rw [h]; exact StepFrame.skip instr s _ rfl (fun _ => rfl)
  · rw [h]
    refine StepFrame.skip instr s _ rfl ?_
    intro hreg
    have := GRegIndex_ne_rip hreg
    simp [CONTEXT.Rip, Ne.symm this]
  · rw [h]
    refine StepFrame.skip instr s _ rfl ?_
    intro _
    simp [CONTEXT.Rip, SLOT_RIP, SLOT_DR7]

/-- The frame of `PrivilegedInstruction::Parse` on a decoded instruction. -/
theorem PrivilegedInstruction.Parse_priv_stepFrame (instr : ZydisDecodedInstruction) (s : State) :
    StepFrame instr s (Parse (some instr) s) := by
  unfold PrivilegedInstruction.Parse
  simp only []
  split
  · exact StepFrame.skip instr s s rfl (fun _ => rfl)
  · exact StepFrame.skip instr s s rfl (fun _ => rfl)
  · exact (EmulatePrivilegedMOV_shape instr s).privMov_stepFrame
  · rcases WriteMSR_shape s with h | ⟨k, e, hk, h⟩
    · rw [h]
      exact StepFrame.ret_false instr s s ⟨rfl, rfl, rfl, rfl, rfl, rfl, rfl⟩
    · rw [h]
      exact StepFrame.skip instr s _ (MSRTable.keys_assign e hk) (fun _ => rfl)
  · rcases ReadMSR_shape s with h | ⟨a, b, h⟩
    · rw [h]
      exact StepFrame.ret_false instr s s ⟨rfl, rfl, rfl, rfl, rfl, rfl, rfl⟩
    · rw [h]
      refine StepFrame.skip instr s _ rfl ?_
      intro _
      simp [CONTEXT.Rip, SLOT_RIP, SLOT_RAX, SLOT_RDX]
  · exact StepFrame.fatal instr s

/-- The frame of `MemoryRead::Parse` on a decoded instruction. -/
theorem MemoryRead.Parse_read_stepFrame (env : Collaborators) (instr : ZydisDecodedInstruction)
    (addr : Nat) (s : State) : StepFrame instr s (Parse env (some instr) addr s) := by
  unfold MemoryRead.Parse
  simp only []
  split
  · exact (EmulateRead_shape instr _ s).read_stepFrame
  · split
    · exact (EmulateRead_shape instr _ s).read_stepFrame
    · split
      · exact StepFrame.ret_false instr s s ⟨rfl, rfl, rfl, rfl, rfl, rfl, rfl⟩
      · exact StepFrame.ret_false instr s _ ⟨rfl, rfl, rfl, rfl, rfl, rfl, rfl⟩

/-- The frame of `MemoryWrite::Parse` on a decoded instruction. -/
theorem MemoryWrite.Parse_write_stepFrame (env : Collaborators) (instr : ZydisDecodedInstruction)
    (addr : Nat) (s : State) : StepFrame instr s (Parse env (some instr) addr s) := by
  unfold MemoryWrite.Parse
  simp only []
  split
  · exact (EmulateWrite_shape instr _ s).write_stepFrame
  · split
    · exact (EmulateWrite_shape instr _ s).write_stepFrame
    · split
      · exact StepFrame.ret_false instr s s ⟨rfl, rfl, rfl, rfl, rfl, rfl, rfl⟩
      · exact StepFrame.ret_false instr s _ ⟨rfl, rfl, rfl, rfl, rfl, rfl, rfl⟩

/-! ## Invariants of the entry points -/

/-- C5 — the key set of the MSR table is invariant. Whatever the decode result,
the fault address and the pre-state, the state in which
`PrivilegedInstruction::Parse`, `MemoryRead::Parse` or `MemoryWrite::Parse` ends
(success, failure or stop) has the same set of MSR keys as the pre-state; the same
holds for `ReadMSR` and `WriteMSR` on their own, hit or miss. -/
theorem C5_msr_keys_invariant (env : Collaborators) (decoded : Option ZydisDecodedInstruction)
    (addr : Nat) (s : State) :
    (PrivilegedInstruction.Parse decoded s).state.MSRData.keys = s.MSRData.keys
      ∧ (MemoryRead.Parse env decoded addr s).state.MSRData.keys = s.MSRData.keys
      ∧ (MemoryWrite.Parse env decoded addr s).state.MSRData.keys = s.MSRData.keys
      ∧ (PrivilegedInstruction.ReadMSR s).state.MSRData.keys = s.MSRData.keys
      ∧ (PrivilegedInstruction.WriteMSR s).state.MSRData.keys = s.MSRData.keys := by
  refine ⟨?_, ?_, ?_, ?_, ?_⟩
  · cases decoded with
    | none => rfl
    | some instr => exact (PrivilegedInstruction.Parse_priv_stepFrame instr s).1
  · cases decoded with
    | none => rfl
    | some instr => exact (MemoryRead.Parse_read_stepFrame env instr addr s).1
  · cases decoded with
    | none => rfl
    | some instr => exact (MemoryWrite.Parse_write_stepFrame env instr addr s).1
  · rcases PrivilegedInstruction.ReadMSR_shape s with h | ⟨a, b, h⟩ <;> rw [h] <;> rfl
  · rcases PrivilegedInstruction.WriteMSR_shape s with h | ⟨k, e, hk, h⟩
    · rw [h]; rfl
    · rw [h]; exact MSRTable.keys_assign e hk

/-- C6 — `Rip` advances by the instruction length on success. For every decoded
instruction whose `operands[0]` does not name `RIP` (no encodable instruction does),
every fault address and every pre-state: whenever `PrivilegedInstruction::Parse`,
`MemoryRead::Parse` or `MemoryWrite::Parse` returns `true`, the `Rip` of the
post-state is the `Rip` of the pre-state plus the decoded length, modulo `2^64`. -/
theorem C6_rip_advances (env : Collaborators) (instr : ZydisDecodedInstruction) (addr : Nat)
    (s s1 : State) (hreg : instr.operand0.reg ≠ ZydisRegister.RIP) :
    (PrivilegedInstruction.Parse (some instr) s = .ret true s1 →
        s1.ctx.Rip = (s.ctx.Rip + instr.length) % 2 ^ 64)
      ∧ (MemoryRead.Parse env (some instr) addr s = .ret true s1 →
        s1.ctx.Rip = (s.ctx.Rip + instr.length) % 2 ^ 64)
      ∧ (MemoryWrite.Parse env (some instr) addr s = .ret true s1 →
        s1.ctx.Rip = (s.ctx.Rip + instr.length) % 2 ^ 64) :=
  ⟨fun h => (PrivilegedInstruction.Parse_priv_stepFrame instr s).2.2 s1 h hreg,
    fun h => (MemoryRead.Parse_read_stepFrame env instr addr s).2.2 s1 h hreg,
    fun h => (MemoryWrite.Parse_write_stepFrame env instr addr s).2.2 s1 h hreg⟩

/-- C6, exercised on `mov rbx, [G]` at `Rip = 0x1000`: the read is emulated, and
`Rip` ends at `0x1007`. -/
theorem C6_rip_advances_witness :
    movRbxInstr.operand0.reg ≠ ZydisRegister.RIP
      ∧ MemoryRead.Parse scenarioEnv (some movRbxInstr) scenarioG zeroState
          = .ret true (MemoryRead.Parse scenarioEnv (some movRbxInstr) scenarioG zeroState).state
      ∧ (MemoryRead.Parse scenarioEnv (some movRbxInstr) scenarioG zeroState).state.ctx.Rip
          = (zeroState.ctx.Rip + movRbxInstr.length) % 2 ^ 64
      ∧ (zeroState.ctx.Rip + movRbxInstr.length) % 2 ^ 64 = 0x1007 :=
  ⟨by decide, by rfl,
    (C6_rip_advances scenarioEnv movRbxInstr scenarioG zeroState
      (MemoryRead.Parse scenarioEnv (some movRbxInstr) scenarioG zeroState).state
      (by decide)).2.1 (by rfl),
    by decide⟩

/-- C7 — failure atomicity. Whenever `PrivilegedInstruction::Parse`,
`MemoryRead::Parse` or `MemoryWrite::Parse` returns `false`, the context and host
memory of the post-state are those of the pre-state (and so are the MSR table and
the virtual control registers). The listed triggers do return `false`: a decode
failure on all three entry points, and an address that neither the data provider
nor the address map resolves (the sentinel included) on the two memory entry
points; the unsupported MSR index is the subject of C3. -/
theorem C7_failure_atomicity (env : Collaborators) (decoded : Option ZydisDecodedInstruction)
    (addr : Nat) (s s1 : State) :
    (PrivilegedInstruction.Parse decoded s = .ret false s1 →
        s1.ctx = s.ctx ∧ s1.mem = s.mem ∧ s1.MSRData = s.MSRData
          ∧ s1.CR0 = s.CR0 ∧ s1.CR3 = s.CR3 ∧ s1.CR4 = s.CR4 ∧ s1.CR8 = s.CR8)
      ∧ (MemoryRead.Parse env decoded addr s = .ret false s1 →
        s1.ctx = s.ctx ∧ s1.mem = s.mem ∧ s1.MSRData = s.MSRData
          ∧ s1.CR0 = s.CR0 ∧ s1.CR3 = s.CR3 ∧ s1.CR4 = s.CR4 ∧ s1.CR8 = s.CR8)
      ∧ (MemoryWrite.Parse env decoded addr s = .ret false s1 →
        s1.ctx = s.ctx ∧ s1.mem = s.mem ∧ s1.MSRData = s.MSRData
          ∧ s1.CR0 = s.CR0 ∧ s1.CR3 = s.CR3 ∧ s1.CR4 = s.CR4 ∧ s1.CR8 = s.CR8)
      ∧ PrivilegedInstruction.Parse none s = .ret false s
      ∧ MemoryRead.Parse env none addr s = .ret false s
      ∧ MemoryWrite.Parse env none addr s = .ret false s
      ∧ (env.FindDataImpl addr = 0 → env.GetHVA addr = 0 →
          ∃ s2, MemoryRead.Parse env decoded addr s = .ret false s2
            ∧ MemoryWrite.Parse env decoded addr s = .ret false s2) := by
  refine ⟨?_, ?_, ?_, rfl, rfl, rfl, ?_⟩
  · cases decoded with
    | none =>
      intro h
      cases h
      exact ⟨rfl, rfl, rfl, rfl, rfl, rfl, rfl⟩
    | some instr => exact (PrivilegedInstruction.Parse_priv_stepFrame instr s).2.1 s1
  · cases decoded with
    | none =>
      intro h
      cases h
      exact ⟨rfl, rfl, rfl, rfl, rfl, rfl, rfl⟩
    | some instr => exact (MemoryRead.Parse_read_stepFrame env instr addr s).2.1 s1
  · cases decoded with
    | none =>
      intro h
      cases h
      exact ⟨rfl, rfl, rfl, rfl, rfl, rfl, rfl⟩
    | some instr => exact (MemoryWrite.Parse_write_stepFrame env instr addr s).2.1 s1
  · intro hp hm
    cases decoded with
    | none => exact ⟨s, rfl, rfl⟩
    | some instr =>
      by_cases ha : addr = 0xffffffffffffffff
      · subst ha
        exact ⟨s, by simp [MemoryRead.Parse, hp, hm], by simp [MemoryWrite.Parse, hp, hm]⟩
      · exact ⟨{ s with checked := addr :: s.checked },
          by simp [MemoryRead.Parse, hp, hm, ha], by simp [MemoryWrite.Parse, hp, hm, ha]⟩

/-- C7, exercised on an `RDMSR` of the unsupported index `0xDEADBEEF`: the call
fails and returns the pre-state. -/
theorem C7_failure_atomicity_witness :
    PrivilegedInstruction.Parse (some rdmsrInstr) missState = .ret false missState
      ∧ missState.ctx = missState.ctx ∧ missState.mem = missState.mem
      ∧ missState.MSRData = missState.MSRData
      ∧ missState.CR0 = missState.CR0 ∧ missState.CR3 = missState.CR3
      ∧ missState.CR4 = missState.CR4 ∧ missState.CR8 = missState.CR8 :=
  ⟨by rfl,
    (C7_failure_atomicity emptyEnv (some rdmsrInstr) 0 missState missState).1 (by rfl)⟩

/-! ## Width rules of the read side -/

/-- C8 — the 32-bit width rule, evaluated where the emulator breaks it. With the
scenario memory (`[G] = 0x44332211`, `[G + 4] = 0x88776655`):
`add eax, [G]` with `Rax = 0xFFFFFFFF` succeeds and leaves `Rax = 0x144332210`,
bit 32 set by the carry; `sub eax, [G]` with `Rax = 0` leaves
`Rax = 0xFFFFFFFFBBCCDDEF`; `movsxd eax, [G + 4]` leaves `Rax = 0xFFFFFFFF88776655`.
In all three the upper half of the parent register is not zero. -/
theorem C8_width32_violations :
    (∃ s1, MemoryRead.Parse scenarioEnv (some addEaxInstr) scenarioG (raxState 0xFFFFFFFF)
        = .ret true s1 ∧ s1.ctx.Rax = 0x144332210 ∧ s1.ctx.Rax >>> 32 = 1)
      ∧ (∃ s1, MemoryRead.Parse scenarioEnv (some subEaxInstr) scenarioG (raxState 0)
        = .ret true s1 ∧ s1.ctx.Rax = 0xFFFFFFFFBBCCDDEF ∧ s1.ctx.Rax >>> 32 = 0xFFFFFFFF)
      ∧ (∃ s1, MemoryRead.Parse scenarioEnv (some movsxdEaxInstr) (scenarioG + 4) (raxState 0)
        = .ret true s1 ∧ s1.ctx.Rax = 0xFFFFFFFF88776655 ∧ s1.ctx.Rax >>> 32 = 0xFFFFFFFF) := by
  refine ⟨⟨_, rfl, ?_, ?_⟩, ⟨_, rfl, ?_, ?_⟩, ⟨_, rfl, ?_, ?_⟩⟩ <;> decide

/-- C9 — the 16/8-bit width rule, evaluated where the emulator breaks it. With the
scenario memory (`[G] = 11 22 …`) and `Rax = 0xDEADBEEFCAFEBABE`:
`and ax, [G]` leaves `Rax = 0x2210`, `and al, [G]` leaves `Rax = 0x10`,
`and ah, [G]` leaves `Rax = 0x1000`, `movzx ax, byte [G]` leaves `Rax = 0x11`;
with `Rax = 0xDEADBEEFCAFEFFFF`, `add ax, [G]` leaves `Rax = 0xDEADBEEFCAFF2210`;
with `Rax = 0`, `sub ax, [G]` leaves `Rax = 0xFFFFFFFFFFFFDDEF`. In each case bits
of the parent register outside the written slice differ from their pre-call
values. -/
theorem C9_width16_8_violations :
    (∃ s1, MemoryRead.Parse scenarioEnv (some andAxInstr) scenarioG
        (raxState 0xDEADBEEFCAFEBABE) = .ret true s1 ∧ s1.ctx.Rax = 0x2210)
      ∧ (∃ s1, MemoryRead.Parse scenarioEnv (some andAlInstr) scenarioG
        (raxState 0xDEADBEEFCAFEBABE) = .ret true s1 ∧ s1.ctx.Rax = 0x10)
      ∧ (∃ s1, MemoryRead.Parse scenarioEnv (some andAhInstr) scenarioG
        (raxState 0xDEADBEEFCAFEBABE) = .ret true s1 ∧ s1.ctx.Rax = 0x1000)
      ∧ (∃ s1, MemoryRead.Parse scenarioEnv (some movzxAxInstr) scenarioG
        (raxState 0xDEADBEEFCAFEBABE) = .ret true s1 ∧ s1.ctx.Rax = 0x11)
      ∧ (∃ s1, MemoryRead.Parse scenarioEnv (some addAxInstr) scenarioG
        (raxState 0xDEADBEEFCAFEFFFF) = .ret true s1 ∧ s1.ctx.Rax = 0xDEADBEEFCAFF2210)
      ∧ (∃ s1, MemoryRead.Parse scenarioEnv (some subAxInstr) scenarioG
        (raxState 0) = .ret true s1 ∧ s1.ctx.Rax = 0xFFFFFFFFFFFFDDEF) := by
  refine ⟨⟨_, rfl, ?_⟩, ⟨_, rfl, ?_⟩, ⟨_, rfl, ?_⟩, ⟨_, rfl, ?_⟩, ⟨_, rfl, ?_⟩, ⟨_, rfl, ?_⟩⟩ <;>
    decide

/-! ## `MOV` from memory -/

/-- A little-endian load is the sum of its bytes weighted by powers of `256`. -/
theorem readLE_eq_sum (mem : Memory) (n : Nat) : ∀ p,
    readLE mem p n = ∑ k in Finset.range n, (mem (p + k) % 256) * 256 ^ k := by
  induction n with
  | zero => intro p; simp [readLE]
  | succ n ih =>
    intro p
    rw [readLE, ih (p + 1), Finset.sum_range_succ', Finset.mul_sum]
    simp only [pow_zero, mul_one, Nat.add_zero]
    rw [Nat.add_comm]
    congr 1
    apply Finset.sum_congr rfl
    intro k _
    have hk : p + 1 + k = p + (k + 1) := by omega
    rw [pow_succ, hk]
    ring

theorem readLE_lt (mem : Memory) (n : Nat) : ∀ p, readLE mem p n < 256 ^ n := by
  induction n with
  | zero => intro p; simp [readLE]
  | succ n ih =>
    intro p
    have h := ih (p + 1)
    have h2 : mem p % 256 < 256 := Nat.mod_lt _ (by norm_num)
    rw [readLE, pow_succ]
    nlinarith

theorem readU8_eq (mem : Memory) (p : Nat) : readU8 mem p = mem p % 256 := by
  simp [readU8, readLE]

theorem GRegIndex_GPR64 (id : Fin 16) : GRegIndex (.GPR64 id) = SLOT_RAX + id.val := rfl

theorem GRegIndex_GPR32 (id : Fin 16) : GRegIndex (.GPR32 id) = SLOT_RAX + id.val := rfl

theorem GRegIndex_GPR16 (id : Fin 16) : GRegIndex (.GPR16 id) = SLOT_RAX + id.val := rfl

theorem GRegIndex_GPR8 (id : Fin 20) :
    GRegIndex (.GPR8 id) = SLOT_RAX + (GPR8_MAPPING id).val := rfl

theorem GPR8_MAPPING_low (id : Fin 20) (h : id.val < 4) : (GPR8_MAPPING id).val = id.val := by
  simp [GPR8_MAPPING, h]

theorem GPR8_MAPPING_high (id : Fin 20) (h : 4 ≤ id.val) :
    (GPR8_MAPPING id).val = id.val - 4 := by
  have h1 : ¬ id.val < 4 := by omega
  unfold GPR8_MAPPING
  rw [dif_neg h1]
  split <;> rfl

theorem isHighByte_GPR8 : ∀ id : Fin 20,
    isHighByte (.GPR8 id) = decide (4 ≤ id.val ∧ id.val < 8) := by
  decide

theorem StoresOnly.of_skip (instr : ZydisDecodedInstruction) (s : State) (i v : Nat)
    (hi : i ≠ SLOT_RIP) :
    StoresOnly s instr.length i v (SkipToNext instr (s.setSlot i v)) := by
  have hrip : (s.setSlot i v).ctx.Rip = s.ctx.Rip := by
    simp [CONTEXT.Rip, Ne.symm hi]
  refine ⟨_, rfl, ?_, ?_, ?_, rfl, rfl, rfl, rfl, rfl, rfl⟩
  · simp [hi]
  · show ((s.setSlot i v).ctx.set SLOT_RIP (wrapAdd (s.setSlot i v).ctx.Rip instr.length)).Rip = _
    rw [hrip]
    simp [CONTEXT.Rip, wrapAdd]
  · intro j hj hjr
    simp [hj, hjr]

/-- The read-side `MOV` dispatch: `EmulateRead` runs `ReadPtr::EmulateMOV` on
`operands[0].reg` and then `SkipToNext`. -/
theorem MemoryRead.EmulateRead_MOV (instr : ZydisDecodedInstruction) (addr : Nat) (s : State)
    (hm : instr.mnemonic = ZydisMnemonic.MOV)
    (ht : instr.operand0.type = ZydisOperandType.REGISTER) :
    EmulateRead instr addr s
      = (InstrEmu.ReadPtr.EmulateMOV s instr.operand0.reg addr).andThen
          fun _ s1 => SkipToNext instr s1 := by
  unfold EmulateRead
  simp only [hm, ht, if_true]

/-- C10 — `MOV reg, [addr]`. For a decoded `MOV` whose `operands[0]` is a register,
`EmulateRead` succeeds and the parent register `P` of the destination becomes:
the eight little-endian bytes at `addr` for a 64-bit destination; the four
little-endian bytes, zero-extended, for a 32-bit destination;
`(P & 0xFFFFFFFFFFFF0000) | m16` for a 16-bit destination;
`(P & 0xFFFFFFFFFFFFFF00) | m8` for a low 8-bit destination; and
`(P & 0xFFFFFFFFFFFF00FF) | (m8 << 8)` for `AH/CH/DH/BH`, whose parents are
`RAX/RCX/RDX/RBX`. `Rip` advances by the instruction length; no other slot of the
context, no byte of host memory, no MSR entry and no virtual control register
changes. -/
theorem C10_mov_read (instr : ZydisDecodedInstruction) (addr : Nat) (s : State)
    (hm : instr.mnemonic = ZydisMnemonic.MOV)
    (ht : instr.operand0.type = ZydisOperandType.REGISTER) :
    (∀ id : Fin 16, instr.operand0.reg = .GPR64 id →
        StoresOnly s instr.length (SLOT_RAX + id.val)
          (∑ k in Finset.range 8, (s.mem (addr + k) % 256) * 256 ^ k)
          (MemoryRead.EmulateRead instr addr s))
      ∧ (∀ id : Fin 16, instr.operand0.reg = .GPR32 id →
        StoresOnly s instr.length (SLOT_RAX + id.val)
          (∑ k in Finset.range 4, (s.mem (addr + k) % 256) * 256 ^ k)
          (MemoryRead.EmulateRead instr addr s)
        ∧ (∑ k in Finset.range 4, (s.mem (addr + k) % 256) * 256 ^ k) < 2 ^ 32)
      ∧ (∀ id : Fin 16, instr.operand0.reg = .GPR16 id →
        StoresOnly s instr.length (SLOT_RAX + id.val)
          ((s.ctx.slot (SLOT_RAX + id.val) &&& 0xFFFFFFFFFFFF0000)
            ||| (∑ k in Finset.range 2, (s.mem (addr + k) % 256) * 256 ^ k))
          (MemoryRead.EmulateRead instr addr s))
      ∧ (∀ id : Fin 20, instr.operand0.reg = .GPR8 id → id.val < 4 ∨ 8 ≤ id.val →
        StoresOnly s instr.length (SLOT_RAX + (if id.val < 4 then id.val else id.val - 4))
          ((s.ctx.slot (SLOT_RAX + (if id.val < 4 then id.val else id.val - 4))
            &&& 0xFFFFFFFFFFFFFF00) ||| (s.mem addr % 256))
          (MemoryRead.EmulateRead instr addr s))
      ∧ (∀ id : Fin 20, instr.operand0.reg = .GPR8 id → 4 ≤ id.val ∧ id.val < 8 →
        StoresOnly s instr.length (SLOT_RAX + (id.val - 4))
          ((s.ctx.slot (SLOT_RAX + (id.val - 4)) &&& 0xFFFFFFFFFFFF00FF)
            ||| ((s.mem addr % 256) <<< 8))
          (MemoryRead.EmulateRead instr addr s)) := by
  have hE := MemoryRead.EmulateRead_MOV instr addr s hm ht
  refine ⟨?_, ?_, ?_, ?_, ?_⟩
  · intro id hreg
    rw [hE, hreg, ← readLE_eq_sum]
    have hi : SLOT_RAX + id.val ≠ SLOT_RIP := by
      have := id.isLt
      simp only [SLOT_RAX, SLOT_RIP]
      omega
    exact StoresOnly.of_skip instr s _ _ hi
  · intro id hreg
    rw [hE, hreg, ← readLE_eq_sum]
    have hi : SLOT_RAX + id.val ≠ SLOT_RIP := by
      have := id.isLt
      simp only [SLOT_RAX, SLOT_RIP]
      omega
    exact ⟨StoresOnly.of_skip instr s _ _ hi, readLE_lt s.mem 4 addr⟩
  · intro id hreg
    rw [hE, hreg, ← readLE_eq_sum]
    have hi : SLOT_RAX + id.val ≠ SLOT_RIP := by
      have := id.isLt
      simp only [SLOT_RAX, SLOT_RIP]
      omega
    exact StoresOnly.of_skip instr s _ _ hi
  · intro id hreg hlow
    have hi : SLOT_RAX + (if id.val < 4 then id.val else id.val - 4) ≠ SLOT_RIP := by
      have := id.isLt
      simp only [SLOT_RAX, SLOT_RIP]
      split <;> omega
    have hmap : (GPR8_MAPPING id).val = if id.val < 4 then id.val else id.val - 4 := by
      split
      · next h => exact GPR8_MAPPING_low id h
      · next h => exact GPR8_MAPPING_high id (by omega)
    have hhb : isHighByte (.GPR8 id) = false := by
      rw [isHighByte_GPR8]
      simp only [decide_eq_false_iff_not]
      omega
    have hrun : InstrEmu.ReadPtr.EmulateMOV s (.GPR8 id) addr
        = .ret true (s.setSlot (SLOT_RAX + (if id.val < 4 then id.val else id.val - 4))
            ((s.ctx.slot (SLOT_RAX + (if id.val < 4 then id.val else id.val - 4))
              &&& 0xFFFFFFFFFFFFFF00) ||| (s.mem addr % 256))) := by
      simp only [InstrEmu.ReadPtr.EmulateMOV, ZydisRegisterGetClass, hhb, GRegIndex_GPR8, hmap,
        readU8_eq]
      rfl
    rw [hE, hreg, hrun]
    exact StoresOnly.of_skip instr s _ _ hi
  · intro id hreg hhigh
    have hi : SLOT_RAX + (id.val - 4) ≠ SLOT_RIP := by
      have := id.isLt
      simp only [SLOT_RAX, SLOT_RIP]
      omega
    have hmap : (GPR8_MAPPING id).val = id.val - 4 := GPR8_MAPPING_high id hhigh.1
    have hhb : isHighByte (.GPR8 id) = true := by
      rw [isHighByte_GPR8]
      simp only [decide_eq_true_eq]
      exact hhigh
    have hrun : InstrEmu.ReadPtr.EmulateMOV s (.GPR8 id) addr
        = .ret true (s.setSlot (SLOT_RAX + (id.val - 4))
            ((s.ctx.slot (SLOT_RAX + (id.val - 4)) &&& 0xFFFFFFFFFFFF00FF)
              ||| ((s.mem addr % 256) <<< 8))) := by
      simp only [InstrEmu.ReadPtr.EmulateMOV, ZydisRegisterGetClass, hhb, GRegIndex_GPR8, hmap,
        readU8_eq]
      rfl
    rw [hE, hreg, hrun]
    exact StoresOnly.of_skip instr s _ _ hi

/-- C10, exercised on the three `MOV` scenarios at host address `0x7FFE0020`
(bytes `11 22 33 44 55 66 77 88`): `mov ah, [G]` and `mov al, [G]` with
`Rax = 0xDEADBEEFCAFEBABE` give `0xDEADBEEFCAFE11BE` and `0xDEADBEEFCAFEBA11`;
`mov rbx, [G]` gives `Rbx = 0x8877665544332211`. -/
theorem C10_mov_read_witness :
    movAhInstr.mnemonic = ZydisMnemonic.MOV
      ∧ movAhInstr.operand0.type = ZydisOperandType.REGISTER
      ∧ StoresOnly (raxState 0xDEADBEEFCAFEBABE) movAhInstr.length
          (SLOT_RAX + ((4 : Fin 20).val - 4))
          (((raxState 0xDEADBEEFCAFEBABE).ctx.slot (SLOT_RAX + ((4 : Fin 20).val - 4))
            &&& 0xFFFFFFFFFFFF00FF)
            ||| (((raxState 0xDEADBEEFCAFEBABE).mem 0x7FFE0020 % 256) <<< 8))
          (MemoryRead.EmulateRead movAhInstr 0x7FFE0020 (raxState 0xDEADBEEFCAFEBABE))
      ∧ (((raxState 0xDEADBEEFCAFEBABE).ctx.slot (SLOT_RAX + ((4 : Fin 20).val - 4))
            &&& 0xFFFFFFFFFFFF00FF)
            ||| (((raxState 0xDEADBEEFCAFEBABE).mem 0x7FFE0020 % 256) <<< 8))
          = 0xDEADBEEFCAFE11BE
      ∧ StoresOnly (raxState 0xDEADBEEFCAFEBABE) movAlInstr.length SLOT_RAX 0xDEADBEEFCAFEBA11
          (MemoryRead.EmulateRead movAlInstr 0x7FFE0020 (raxState 0xDEADBEEFCAFEBABE))
      ∧ StoresOnly zeroState movRbxInstr.length (SLOT_RAX + 3) 0x8877665544332211
          (MemoryRead.EmulateRead movRbxInstr 0x7FFE0020 zeroState) :=
  ⟨rfl, rfl,
    (C10_mov_read movAhInstr 0x7FFE0020 (raxState 0xDEADBEEFCAFEBABE) rfl rfl).2.2.2.2
      4 rfl (by decide),
    by decide,
    (C10_mov_read movAlInstr 0x7FFE0020 (raxState 0xDEADBEEFCAFEBABE) rfl rfl).2.2.2.1
      0 rfl (by decide),
    (C10_mov_read movRbxInstr 0x7FFE0020 zeroState rfl rfl).1 3 rfl⟩

/-! ## `MOV` to memory -/

theorem shiftRight_mul8 (x k : Nat) : x >>> (8 * k) = x / 256 ^ k := by
  rw [Nat.shiftRight_eq_div_pow, pow_mul]
  norm_num

/-- Reducing modulo `2^w` does not change the bytes that lie below bit `w`. -/
theorem byte_of_mod (x w k : Nat) (h : 8 * k + 8 ≤ w) :
    (x % 2 ^ w) / 256 ^ k % 256 = x / 256 ^ k % 256 := by
  rw [← shiftRight_mul8, ← shiftRight_mul8]
  apply Nat.eq_of_testBit_eq
  intro i
  have e : (256 : Nat) = 2 ^ 8 := by norm_num
  rw [e]
  simp only [Nat.testBit_mod_two_pow, Nat.testBit_shiftRight]
  by_cases hi : i < 8
  · have : 8 * k + i < w := by omega
    simp [hi, this]
  · simp [hi]

theorem testBit_FF00 (j : Nat) :
    Nat.testBit 0xFF00 j = (decide (8 ≤ j) && decide (j < 16)) := by
  have e : (0xFF00 : Nat) = (2 ^ 8 - 1) <<< 8 := by decide
  rw [e, Nat.testBit_shiftLeft, Nat.testBit_two_pow_sub_one]
  by_cases h : 8 ≤ j
  · have : (j - 8 < 8) ↔ j < 16 := by omega
    simp [h, this]
  · simp [h]

/-- The expression `(x & 0xFF00) >> 8` is the second byte of `x`. -/
theorem high_byte (x : Nat) : (x &&& 0xFF00) >>> 8 = x / 256 % 256 := by
  have e1 : x / 256 = x >>> 8 := by rw [Nat.shiftRight_eq_div_pow]
  have e : (256 : Nat) = 2 ^ 8 := by norm_num
  rw [e1, e]
  apply Nat.eq_of_testBit_eq
  intro i
  simp only [Nat.testBit_mod_two_pow, Nat.testBit_shiftRight, Nat.testBit_and, testBit_FF00]
  by_cases hi : i < 8
  · have : 8 + i < 16 := by omega
    simp [hi, this]
  · have : ¬ (8 + i < 16) := by omega
    simp [hi, this]

theorem writeLE_inside (mem : Memory) (p n v k : Nat) (hk : k < n) :
    writeLE mem p n v (p + k) = v / 256 ^ k % 256 := by
  have h : p ≤ p + k ∧ p + k < p + n := by omega
  simp only [writeLE, h, and_self, if_true, Nat.add_sub_cancel_left, shiftRight_mul8]

theorem writeLE_outside (mem : Memory) (p n v a : Nat) (ha : a < p ∨ p + n ≤ a) :
    writeLE mem p n v a = mem a := by
  have h : ¬ (p ≤ a ∧ a < p + n) := by omega
  simp only [writeLE, h, if_false]

/-- The store of `WritePtr::EmulateMOV`, byte by byte, in terms of the value
`ReadRegisterValue` gives for the source register. -/
theorem InstrEmu.WritePtr.EmulateMOV_bytes (s : State) (reg : ZydisRegister) (ptr v : Nat)
    (hv : ReadRegisterValue s.ctx reg = some v) :
    ∃ m, EmulateMOV s reg ptr = .ret true { s with mem := m }
      ∧ (∀ k, k < classBits (ZydisRegisterGetClass reg) / 8 → m (ptr + k) = v / 256 ^ k % 256)
      ∧ (∀ a, a < ptr ∨ ptr + classBits (ZydisRegisterGetClass reg) / 8 ≤ a → m a = s.mem a) := by
  cases reg with
  | GPR64 id =>
    simp only [ReadRegisterValue, ZydisRegisterGetClass, Option.some.injEq] at hv
    subst hv
    refine ⟨writeLE s.mem ptr 8 (s.ctx.slot (GRegIndex (.GPR64 id))), rfl, ?_, ?_⟩
    · intro k hk
      have hk8 : k < 8 := by simpa [classBits, ZydisRegisterGetClass] using hk
      exact writeLE_inside _ _ _ _ _ hk8
    · intro a ha
      have ha8 : a < ptr ∨ ptr + 8 ≤ a := by simpa [classBits, ZydisRegisterGetClass] using ha
      exact writeLE_outside _ _ _ _ _ ha8
  | GPR32 id =>
    simp only [ReadRegisterValue, ZydisRegisterGetClass, Option.some.injEq, and_mask32] at hv
    subst hv
    refine ⟨writeLE s.mem ptr 4 (s.ctx.slot (GRegIndex (.GPR32 id))), rfl, ?_, ?_⟩
    · intro k hk
      have hk4 : k < 4 := by simpa [classBits, ZydisRegisterGetClass] using hk
      rw [writeLE_inside _ _ _ _ _ hk4, byte_of_mod _ 32 k (by omega)]
    · intro a ha
      have haw : a < ptr ∨ ptr + 4 ≤ a := by
        simpa [classBits, ZydisRegisterGetClass] using ha
      exact writeLE_outside _ _ _ _ _ haw
  | GPR16 id =>
    simp only [ReadRegisterValue, ZydisRegisterGetClass, Option.some.injEq, and_mask16] at hv
    subst hv
    refine ⟨writeLE s.mem ptr 2 (s.ctx.slot (GRegIndex (.GPR16 id))), rfl, ?_, ?_⟩
    · intro k hk
      have hk2 : k < 2 := by simpa [classBits, ZydisRegisterGetClass] using hk
      rw [writeLE_inside _ _ _ _ _ hk2, byte_of_mod _ 16 k (by omega)]
    · intro a ha
      have haw : a < ptr ∨ ptr + 2 ≤ a := by
        simpa [classBits, ZydisRegisterGetClass] using ha
      exact writeLE_outside _ _ _ _ _ haw
  | GPR8 id =>
    by_cases hh : isHighByte (.GPR8 id) = true
    · simp only [ReadRegisterValue, ZydisRegisterGetClass, hh, if_true, Option.some.injEq,
        high_byte] at hv
      subst hv
      refine ⟨writeLE s.mem ptr 1 (s.ctx.slot (GRegIndex (.GPR8 id)) >>> 8), ?_, ?_, ?_⟩
      · simp only [EmulateMOV, ZydisRegisterGetClass, hh, if_true]
      · intro k hk
        have hk1 : k < 1 := by simpa [classBits, ZydisRegisterGetClass] using hk
        have hk0 : k = 0 := by omega
        subst hk0
        rw [writeLE_inside _ _ _ _ _ hk1, Nat.shiftRight_eq_div_pow]
        simp
      · intro a ha
        have haw : a < ptr ∨ ptr + 1 ≤ a := by
          simpa [classBits, ZydisRegisterGetClass] using ha
        exact writeLE_outside _ _ _ _ _ haw
    · simp only [ReadRegisterValue, ZydisRegisterGetClass, hh, Option.some.injEq,
        and_mask8] at hv
      simp only [Bool.false_eq_true, if_false, Option.some.injEq] at hv
      subst hv
      refine ⟨writeLE s.mem ptr 1 (s.ctx.slot (GRegIndex (.GPR8 id))), ?_, ?_, ?_⟩
      · simp only [EmulateMOV, ZydisRegisterGetClass, hh]
        rfl
      · intro k hk
        have hk1 : k < 1 := by simpa [classBits, ZydisRegisterGetClass] using hk
        rw [writeLE_inside _ _ _ _ _ hk1, byte_of_mod _ 8 k (by omega)]
      · intro a ha
        have haw : a < ptr ∨ ptr + 1 ≤ a := by
          simpa [classBits, ZydisRegisterGetClass] using ha
        exact writeLE_outside _ _ _ _ _ haw
  | _ => simp [ReadRegisterValue, ZydisRegisterGetClass] at hv

/-- C11 — `MOV [addr], reg`. For a decoded `MOV` whose `operands[1]` is a
general-purpose register, read by `ReadRegisterValue` as `v` at its width `w`
(bits `[15:8]` of the parent for `AH/CH/DH/BH`), `EmulateWrite` succeeds; byte `k`
of the `w/8` bytes starting at the translated address becomes byte `k` of `v`
(little-endian); every other host byte is unchanged; every slot of the context
except `Rip` is unchanged and `Rip` advances by the instruction length; the MSR
table and the virtual control registers are unchanged. -/
theorem C11_mov_write (instr : ZydisDecodedInstruction) (addr : Nat) (s : State) (v : Nat)
    (hm : instr.mnemonic = ZydisMnemonic.MOV)
    (ht : instr.operand1.type = ZydisOperandType.REGISTER)
    (hv : ReadRegisterValue s.ctx instr.operand1.reg = some v) :
    ∃ s1, MemoryWrite.EmulateWrite instr addr s = .ret true s1
      ∧ (∀ k, k < classBits (ZydisRegisterGetClass instr.operand1.reg) / 8 →
          s1.mem (addr + k) = v / 256 ^ k % 256)
      ∧ (∀ a, a < addr ∨ addr + classBits (ZydisRegisterGetClass instr.operand1.reg) / 8 ≤ a →
          s1.mem a = s.mem a)
      ∧ (∀ i, i ≠ SLOT_RIP → s1.ctx.slot i = s.ctx.slot i)
      ∧ s1.ctx.Rip = (s.ctx.Rip + instr.length) % 2 ^ 64
      ∧ s1.MSRData = s.MSRData
      ∧ s1.CR0 = s.CR0 ∧ s1.CR3 = s.CR3 ∧ s1.CR4 = s.CR4 ∧ s1.CR8 = s.CR8 := by
  obtain ⟨m, hrun, hin, hout⟩ := InstrEmu.WritePtr.EmulateMOV_bytes s instr.operand1.reg addr v hv
  have hE : MemoryWrite.EmulateWrite instr addr s
      = SkipToNext instr { s with mem := m } := by
    unfold MemoryWrite.EmulateWrite
    simp only [hm, ht, if_true, hrun, Outcome.andThen]
  refine ⟨_, hE, hin, hout, ?_, ?_, rfl, rfl, rfl, rfl, rfl⟩
  · intro i hi
    show (s.ctx.set SLOT_RIP (wrapAdd s.ctx.Rip instr.length)).slot i = s.ctx.slot i
    simp [hi]
  · show (s.ctx.set SLOT_RIP (wrapAdd s.ctx.Rip instr.length)).Rip = _
    simp [CONTEXT.Rip, wrapAdd]

/-- C11, exercised on the store scenario `mov [G], ecx` with `Rcx = 0x99AABBCC`
over the bytes `11 22 33 44 55 66 77 88`: the host bytes become
`CC BB AA 99 55 66 77 88`. -/
theorem C11_mov_write_witness :
    movMemEcxInstr.mnemonic = ZydisMnemonic.MOV
      ∧ movMemEcxInstr.operand1.type = ZydisOperandType.REGISTER
      ∧ ReadRegisterValue rcxState.ctx movMemEcxInstr.operand1.reg = some 0x99AABBCC
      ∧ (∃ s1, MemoryWrite.EmulateWrite movMemEcxInstr 0x7FFE0020 rcxState = .ret true s1
        ∧ (∀ k, k < classBits (ZydisRegisterGetClass movMemEcxInstr.operand1.reg) / 8 →
            s1.mem (0x7FFE0020 + k) = 0x99AABBCC / 256 ^ k % 256)
        ∧ (∀ a, a < 0x7FFE0020
              ∨ 0x7FFE0020 + classBits (ZydisRegisterGetClass movMemEcxInstr.operand1.reg) / 8 ≤ a →
            s1.mem a = rcxState.mem a)
        ∧ (∀ i, i ≠ SLOT_RIP → s1.ctx.slot i = rcxState.ctx.slot i)
        ∧ s1.ctx.Rip = (rcxState.ctx.Rip + movMemEcxInstr.length) % 2 ^ 64
        ∧ s1.MSRData = rcxState.MSRData
        ∧ s1.CR0 = rcxState.CR0 ∧ s1.CR3 = rcxState.CR3 ∧ s1.CR4 = rcxState.CR4
        ∧ s1.CR8 = rcxState.CR8)
      ∧ (List.range 8).map
          (fun k => (MemoryWrite.EmulateWrite movMemEcxInstr 0x7FFE0020 rcxState).state.mem
            (0x7FFE0020 + k))
          = [0xCC, 0xBB, 0xAA, 0x99, 0x55, 0x66, 0x77, 0x88] :=
  ⟨rfl, rfl, by decide,
    C11_mov_write movMemEcxInstr 0x7FFE0020 rcxState 0x99AABBCC rfl rfl (by decide),
    by decide⟩

/-! ## Privileged `MOV`, `CLI`, `STI` -/

theorem slot_rax_add_ne_zero (id : Fin 16) : ¬ (SLOT_RAX + id.val = 0) := by
  rw [SLOT_RAX]
  omega

theorem slot_rax_add_ne_rip (id : Fin 16) : ¬ (SLOT_RIP = SLOT_RAX + id.val) := by
  have := id.isLt
  rw [SLOT_RAX, SLOT_RIP]
  omega

/-- Run of `mov cr0, r64` through `PrivilegedInstruction::Parse`. -/
theorem PrivilegedInstruction.Parse_write_CR0 (instr : ZydisDecodedInstruction) (s : State)
    (id : Fin 16) (hm : instr.mnemonic = ZydisMnemonic.MOV)
    (ht : instr.operand0.type = ZydisOperandType.REGISTER)
    (hd : instr.operand0.reg = ZydisRegister.CR0) (hs : instr.operand1.reg = .GPR64 id) :
    Parse (some instr) s = .ret true
      (State.setSlot { s with CR0 := s.ctx.slot (SLOT_RAX + id.val) } SLOT_RIP
        (wrapAdd s.ctx.Rip instr.length)) := by
  have h0 := slot_rax_add_ne_zero id
  have hE : EmulatePrivilegedMOV instr s
      = .ret true { s with CR0 := s.ctx.slot (SLOT_RAX + id.val) } := by
    simp only [EmulatePrivilegedMOV, ht, hd, hs, ne_eq, not_true_eq_false, or_self,
      if_false, GRegIndex_GPR64, h0, false_and, reduceCtorEq, if_true]
  simp only [Parse, hm, hE, Outcome.andThen]
  rfl

/-- Run of `mov r64, cr0` through `PrivilegedInstruction::Parse`. -/
theorem PrivilegedInstruction.Parse_read_CR0 (instr : ZydisDecodedInstruction) (s : State)
    (id : Fin 16) (hm : instr.mnemonic = ZydisMnemonic.MOV)
    (ht : instr.operand0.type = ZydisOperandType.REGISTER)
    (hd : instr.operand0.reg = .GPR64 id) (hs : instr.operand1.reg = ZydisRegister.CR0) :
    Parse (some instr) s = .ret true
      ((s.setSlot (SLOT_RAX + id.val) s.CR0).setSlot SLOT_RIP
        (wrapAdd s.ctx.Rip instr.length)) := by
  have h0 := slot_rax_add_ne_zero id
  have hrip : (s.setSlot (SLOT_RAX + id.val) s.CR0).ctx.Rip = s.ctx.Rip := by
    simp only [State.setSlot_ctx, CONTEXT.Rip, CONTEXT.slot_set]
    rw [if_neg (slot_rax_add_ne_rip id)]
  have hE : EmulatePrivilegedMOV instr s
      = .ret true (s.setSlot (SLOT_RAX + id.val) s.CR0) := by
    simp only [EmulatePrivilegedMOV, ht, hd, hs, ne_eq, not_true_eq_false, or_self,
      if_false, GRegIndex_GPR64, h0, and_false, reduceCtorEq, if_true]
  simp only [Parse, hm, hE, Outcome.andThen, SkipToNext]
  rw [hrip]
  rfl

/-- Run of `mov cr3, r64` through `PrivilegedInstruction::Parse`. -/
theorem PrivilegedInstruction.Parse_write_CR3 (instr : ZydisDecodedInstruction) (s : State)
    (id : Fin 16) (hm : instr.mnemonic = ZydisMnemonic.MOV)
    (ht : instr.operand0.type = ZydisOperandType.REGISTER)
    (hd : instr.operand0.reg = ZydisRegister.CR3) (hs : instr.operand1.reg = .GPR64 id) :
    Parse (some instr) s = .ret true
      (State.setSlot { s with CR3 := s.ctx.slot (SLOT_RAX + id.val) } SLOT_RIP
        (wrapAdd s.ctx.Rip instr.length)) := by
  have h0 := slot_rax_add_ne_zero id
  have hE : EmulatePrivilegedMOV instr s
      = .ret true { s with CR3 := s.ctx.slot (SLOT_RAX + id.val) } := by
    simp only [EmulatePrivilegedMOV, ht, hd, hs, ne_eq, not_true_eq_false, or_self,
      if_false, GRegIndex_GPR64, h0, false_and, reduceCtorEq, if_true]
  simp only [Parse, hm, hE, Outcome.andThen]
  rfl

/-- Run of `mov r64, cr3` through `PrivilegedInstruction::Parse`. -/
theorem PrivilegedInstruction.Parse_read_CR3 (instr : ZydisDecodedInstruction) (s : State)
    (id : Fin 16) (hm : instr.mnemonic = ZydisMnemonic.MOV)
    (ht : instr.operand0.type = ZydisOperandType.REGISTER)
    (hd : instr.operand0.reg = .GPR64 id) (hs : instr.operand1.reg = ZydisRegister.CR3) :
    Parse (some instr) s = .ret true
      ((s.setSlot (SLOT_RAX + id.val) s.CR3).setSlot SLOT_RIP
        (wrapAdd s.ctx.Rip instr.length)) := by
  have h0 := slot_rax_add_ne_zero id
  have hrip : (s.setSlot (SLOT_RAX + id.val) s.CR3).ctx.Rip = s.ctx.Rip := by
    simp only [State.setSlot_ctx, CONTEXT.Rip, CONTEXT.slot_set]
    rw [if_neg (slot_rax_add_ne_rip id)]
  have hE : EmulatePrivilegedMOV instr s
      = .ret true (s.setSlot (SLOT_RAX + id.val) s.CR3) := by
    simp only [EmulatePrivilegedMOV, ht, hd, hs, ne_eq, not_true_eq_false, or_self,
      if_false, GRegIndex_GPR64, h0, and_false, reduceCtorEq, if_true]
  simp only [Parse, hm, hE, Outcome.andThen, SkipToNext]
  rw [hrip]
  rfl

/-- Run of `mov cr4, r64` through `PrivilegedInstruction::Parse`. -/
theorem PrivilegedInstruction.Parse_write_CR4 (instr : ZydisDecodedInstruction) (s : State)
    (id : Fin 16) (hm : instr.mnemonic = ZydisMnemonic.MOV)
    (ht : instr.operand0.type = ZydisOperandType.REGISTER)
    (hd : instr.operand0.reg = ZydisRegister.CR4) (hs : instr.operand1.reg = .GPR64 id) :
    Parse (some instr) s = .ret true
      (State.setSlot { s with CR4 := s.ctx.slot (SLOT_RAX + id.val) } SLOT_RIP
        (wrapAdd s.ctx.Rip instr.length)) := by
  have h0 := slot_rax_add_ne_zero id
  have hE : EmulatePrivilegedMOV instr s
      = .ret true { s with CR4 := s.ctx.slot (SLOT_RAX + id.val) } := by
    simp only [EmulatePrivilegedMOV, ht, hd, hs, ne_eq, not_true_eq_false, or_self,
      if_false, GRegIndex_GPR64, h0, false_and, reduceCtorEq, if_true]
  simp only [Parse, hm, hE, Outcome.andThen]
  rfl

/-- Run of `mov r64, cr4` through `PrivilegedInstruction::Parse`. -/
theorem PrivilegedInstruction.Parse_read_CR4 (instr : ZydisDecodedInstruction) (s : State)
    (id : Fin 16) (hm : instr.mnemonic = ZydisMnemonic.MOV)
    (ht : instr.operand0.type = ZydisOperandType.REGISTER)
    (hd : instr.operand0.reg = .GPR64 id) (hs : instr.operand1.reg = ZydisRegister.CR4) :
    Parse (some instr) s = .ret true
      ((s.setSlot (SLOT_RAX + id.val) s.CR4).setSlot SLOT_RIP
        (wrapAdd s.ctx.Rip instr.length)) := by
  have h0 := slot_rax_add_ne_zero id
  have hrip : (s.setSlot (SLOT_RAX + id.val) s.CR4).ctx.Rip = s.ctx.Rip := by
    simp only [State.setSlot_ctx, CONTEXT.Rip, CONTEXT.slot_set]
    rw [if_neg (slot_rax_add_ne_rip id)]
  have hE : EmulatePrivilegedMOV instr s
      = .ret true (s.setSlot (SLOT_RAX + id.val) s.CR4) := by
    simp only [EmulatePrivilegedMOV, ht, hd, hs, ne_eq, not_true_eq_false, or_self,
      if_false, GRegIndex_GPR64, h0, and_false, reduceCtorEq, if_true]
  simp only [Parse, hm, hE, Outcome.andThen, SkipToNext]
  rw [hrip]
  rfl

/-- Run of `mov cr8, r64` through `PrivilegedInstruction::Parse`. -/
theorem PrivilegedInstruction.Parse_write_CR8 (instr : ZydisDecodedInstruction) (s : State)
    (id : Fin 16) (hm : instr.mnemonic = ZydisMnemonic.MOV)
    (ht : instr.operand0.type = ZydisOperandType.REGISTER)
    (hd : instr.operand0.reg = ZydisRegister.CR8) (hs : instr.operand1.reg = .GPR64 id) :
    Parse (some instr) s = .ret true
      (State.setSlot { s with CR8 := s.ctx.slot (SLOT_RAX + id.val) } SLOT_RIP
        (wrapAdd s.ctx.Rip instr.length)) := by
  have h0 := slot_rax_add_ne_zero id
  have hE : EmulatePrivilegedMOV instr s
      = .ret true { s with CR8 := s.ctx.slot (SLOT_RAX + id.val) } := by
    simp only [EmulatePrivilegedMOV, ht, hd, hs, ne_eq, not_true_eq_false, or_self,
      if_false, GRegIndex_GPR64, h0, false_and, reduceCtorEq, if_true]
  simp only [Parse, hm, hE, Outcome.andThen]
  rfl

/-- Run of `mov r64, cr8` through `PrivilegedInstruction::Parse`. -/
theorem PrivilegedInstruction.Parse_read_CR8 (instr : ZydisDecodedInstruction) (s : State)
    (id : Fin 16) (hm : instr.mnemonic = ZydisMnemonic.MOV)
    (ht : instr.operand0.type = ZydisOperandType.REGISTER)
    (hd : instr.operand0.reg = .GPR64 id) (hs : instr.operand1.reg = ZydisRegister.CR8) :
    Parse (some instr) s = .ret true
      ((s.setSlot (SLOT_RAX + id.val) s.CR8).setSlot SLOT_RIP
        (wrapAdd s.ctx.Rip instr.length)) := by
  have h0 := slot_rax_add_ne_zero id
  have hrip : (s.setSlot (SLOT_RAX + id.val) s.CR8).ctx.Rip = s.ctx.Rip := by
    simp only [State.setSlot_ctx, CONTEXT.Rip, CONTEXT.slot_set]
    rw [if_neg (slot_rax_add_ne_rip id)]
  have hE : EmulatePrivilegedMOV instr s
      = .ret true (s.setSlot (SLOT_RAX + id.val) s.CR8) := by
    simp only [EmulatePrivilegedMOV, ht, hd, hs, ne_eq, not_true_eq_false, or_self,
      if_false, GRegIndex_GPR64, h0, and_false, reduceCtorEq, if_true]
  simp only [Parse, hm, hE, Outcome.andThen, SkipToNext]
  rw [hrip]
  rfl

/-- Run of `mov dr7, r64` through `PrivilegedInstruction::Parse`. -/
theorem PrivilegedInstruction.Parse_write_DR7 (instr : ZydisDecodedInstruction) (s : State)
    (id : Fin 16) (hm : instr.mnemonic = ZydisMnemonic.MOV)
    (ht : instr.operand0.type = ZydisOperandType.REGISTER)
    (hd : instr.operand0.reg = ZydisRegister.DR7) (hs : instr.operand1.reg = .GPR64 id) :
    Parse (some instr) s = .ret true
      ((s.setSlot SLOT_DR7 (s.ctx.slot (SLOT_RAX + id.val))).setSlot SLOT_RIP
        (wrapAdd s.ctx.Rip instr.length)) := by
  have h0 := slot_rax_add_ne_zero id
  have hrip : (s.setSlot SLOT_DR7 (s.ctx.slot (SLOT_RAX + id.val))).ctx.Rip = s.ctx.Rip := by
    simp [CONTEXT.Rip, SLOT_RIP, SLOT_DR7]
  have hE : EmulatePrivilegedMOV instr s
      = .ret true (s.setSlot SLOT_DR7 (s.ctx.slot (SLOT_RAX + id.val))) := by
    simp only [EmulatePrivilegedMOV, ht, hd, hs, ne_eq, not_true_eq_false, or_self,
      if_false, GRegIndex_GPR64, h0, false_and, reduceCtorEq, if_true]
  simp only [Parse, hm, hE, Outcome.andThen, SkipToNext]
  rw [hrip]
  rfl

/-- C12 — privileged `MOV` into a control or debug register. For a decoded `MOV`
whose `operands[0]` is the register `D ∈ {CR0, CR3, CR4, CR8, DR7}` and whose
`operands[1]` is a 64-bit general-purpose register `S`,
`PrivilegedInstruction::Parse` succeeds and the slot of `D` (virtual control
register, or `Dr7` of the context) equals the pre-call value of `S`; the other
four of these slots, all sixteen general-purpose registers, the MSR table and host
memory are unchanged; `Rip` advances by the instruction length. With the operand
positions exchanged (`operands[0] = S`, `operands[1] = D`, `D` a control register)
the same call reads instead: `D` keeps its value and `S` receives it. -/
theorem C12_mov_to_control (instr : ZydisDecodedInstruction) (s : State) (id : Fin 16)
    (D : ZydisRegister) (hm : instr.mnemonic = ZydisMnemonic.MOV)
    (ht : instr.operand0.type = ZydisOperandType.REGISTER)
    (hd : instr.operand0.reg = D)
    (hD : D ∈ [ZydisRegister.CR0, ZydisRegister.CR3, ZydisRegister.CR4, ZydisRegister.CR8,
      ZydisRegister.DR7])
    (hs : instr.operand1.reg = .GPR64 id) :
    (∃ s1, PrivilegedInstruction.Parse (some instr) s = .ret true s1
      ∧ controlValue s1 D = s.ctx.slot (SLOT_RAX + id.val)
      ∧ (∀ E ∈ [ZydisRegister.CR0, ZydisRegister.CR3, ZydisRegister.CR4, ZydisRegister.CR8,
          ZydisRegister.DR7], E ≠ D → controlValue s1 E = controlValue s E)
      ∧ (∀ j : Fin 16, s1.ctx.slot (SLOT_RAX + j.val) = s.ctx.slot (SLOT_RAX + j.val))
      ∧ s1.ctx.Rip = (s.ctx.Rip + instr.length) % 2 ^ 64
      ∧ s1.MSRData = s.MSRData ∧ s1.mem = s.mem)
    ∧ (∀ instr2 : ZydisDecodedInstruction, instr2.mnemonic = ZydisMnemonic.MOV →
        instr2.operand0.type = ZydisOperandType.REGISTER →
        instr2.operand0.reg = .GPR64 id → instr2.operand1.reg = D → D ≠ ZydisRegister.DR7 →
        ∃ s2, PrivilegedInstruction.Parse (some instr2) s = .ret true s2
          ∧ controlValue s2 D = controlValue s D
          ∧ s2.ctx.slot (SLOT_RAX + id.val) = controlValue s D) := by
  simp only [List.mem_cons, List.mem_singleton, List.not_mem_nil, or_false] at hD
  refine ⟨?_, ?_⟩
  rcases hD with hd0 | hd0 | hd0 | hd0 | hd0
  · subst hd0
    refine ⟨_, PrivilegedInstruction.Parse_write_CR0 instr s id hm ht hd hs, ?_, ?_, ?_, ?_, rfl, rfl⟩
    · simp [controlValue, State.setSlot, CONTEXT.Dr7, SLOT_DR7, SLOT_RIP]
    · intro E hE hne
      simp only [List.mem_cons, List.mem_singleton, List.not_mem_nil, or_false] at hE
      rcases hE with h | h | h | h | h <;> subst h <;>
        first
          | exact absurd rfl hne
          | simp [controlValue, State.setSlot, CONTEXT.Dr7, SLOT_DR7, SLOT_RIP]
    · intro j
      have hj := j.isLt
      simp only [State.setSlot_ctx, CONTEXT.slot_set, SLOT_RAX, SLOT_RIP, SLOT_DR7]
      repeat rw [if_neg (by omega)]
    · simp [CONTEXT.Rip, wrapAdd, State.setSlot]
  · subst hd0
    refine ⟨_, PrivilegedInstruction.Parse_write_CR3 instr s id hm ht hd hs, ?_, ?_, ?_, ?_, rfl, rfl⟩
    · simp [controlValue, State.setSlot, CONTEXT.Dr7, SLOT_DR7, SLOT_RIP]
    · intro E hE hne
      simp only [List.mem_cons, List.mem_singleton, List.not_mem_nil, or_false] at hE
      rcases hE with h | h | h | h | h <;> subst h <;>
        first
          | exact absurd rfl hne
          | simp [controlValue, State.setSlot, CONTEXT.Dr7, SLOT_DR7, SLOT_RIP]
    · intro j
      have hj := j.isLt
      simp only [State.setSlot_ctx, CONTEXT.slot_set, SLOT_RAX, SLOT_RIP, SLOT_DR7]
      repeat rw [if_neg (by omega)]
    · simp [CONTEXT.Rip, wrapAdd, State.setSlot]
  · subst hd0
    refine ⟨_, PrivilegedInstruction.Parse_write_CR4 instr s id hm ht hd hs, ?_, ?_, ?_, ?_, rfl, rfl⟩
    · simp [controlValue, State.setSlot, CONTEXT.Dr7, SLOT_DR7, SLOT_RIP]
    · intro E hE hne
      simp only [List.mem_cons, List.mem_singleton, List.not_mem_nil, or_false] at hE
      rcases hE with h | h | h | h | h <;> subst h <;>
        first
          | exact absurd rfl hne
          | simp [controlValue, State.setSlot, CONTEXT.Dr7, SLOT_DR7, SLOT_RIP]
    · intro j
      have hj := j.isLt
      simp only [State.setSlot_ctx, CONTEXT.slot_set, SLOT_RAX, SLOT_RIP, SLOT_DR7]
      repeat rw [if_neg (by omega)]
    · simp [CONTEXT.Rip, wrapAdd, State.setSlot]
  · subst hd0
    refine ⟨_, PrivilegedInstruction.Parse_write_CR8 instr s id hm ht hd hs, ?_, ?_, ?_, ?_, rfl, rfl⟩
    · simp [controlValue, State.setSlot, CONTEXT.Dr7, SLOT_DR7, SLOT_RIP]
    · intro E hE hne
      simp only [List.mem_cons, List.mem_singleton, List.not_mem_nil, or_false] at hE
      rcases hE with h | h | h | h | h <;> subst h <;>
        first
          | exact absurd rfl hne
          | simp [controlValue, State.setSlot, CONTEXT.Dr7, SLOT_DR7, SLOT_RIP]
    · intro j
      have hj := j.isLt
      simp only [State.setSlot_ctx, CONTEXT.slot_set, SLOT_RAX, SLOT_RIP, SLOT_DR7]
      repeat rw [if_neg (by omega)]
    · simp [CONTEXT.Rip, wrapAdd, State.setSlot]
  · subst hd0
    refine ⟨_, PrivilegedInstruction.Parse_write_DR7 instr s id hm ht hd hs, ?_, ?_, ?_, ?_, rfl, rfl⟩
    · simp [controlValue, State.setSlot, CONTEXT.Dr7, SLOT_DR7, SLOT_RIP]
    · intro E hE hne
      simp only [List.mem_cons, List.mem_singleton, List.not_mem_nil, or_false] at hE
      rcases hE with h | h | h | h | h <;> subst h <;>
        first
          | exact absurd rfl hne
          | simp [controlValue, State.setSlot, CONTEXT.Dr7, SLOT_DR7, SLOT_RIP]
    · intro j
      have hj := j.isLt
      simp only [State.setSlot_ctx, CONTEXT.slot_set, SLOT_RAX, SLOT_RIP, SLOT_DR7]
      repeat rw [if_neg (by omega)]
    · simp [CONTEXT.Rip, wrapAdd, State.setSlot]
  · intro instr2 hm2 ht2 hd2 hs2 hne7
    rcases hD with hd0 | hd0 | hd0 | hd0 | hd0
    · subst hd0
      refine ⟨_, PrivilegedInstruction.Parse_read_CR0 instr2 s id hm2 ht2 hd2 hs2, ?_, ?_⟩
      · simp [controlValue, State.setSlot]
      · have hj := id.isLt
        simp only [State.setSlot_ctx, CONTEXT.slot_set, SLOT_RAX, SLOT_RIP, controlValue]
        rw [if_neg (by omega), if_pos trivial]
    · subst hd0
      refine ⟨_, PrivilegedInstruction.Parse_read_CR3 instr2 s id hm2 ht2 hd2 hs2, ?_, ?_⟩
      · simp [controlValue, State.setSlot]
      · have hj := id.isLt
        simp only [State.setSlot_ctx, CONTEXT.slot_set, SLOT_RAX, SLOT_RIP, controlValue]
        rw [if_neg (by omega), if_pos trivial]
    · subst hd0
      refine ⟨_, PrivilegedInstruction.Parse_read_CR4 instr2 s id hm2 ht2 hd2 hs2, ?_, ?_⟩
      · simp [controlValue, State.setSlot]
      · have hj := id.isLt
        simp only [State.setSlot_ctx, CONTEXT.slot_set, SLOT_RAX, SLOT_RIP, controlValue]
        rw [if_neg (by omega), if_pos trivial]
    · subst hd0
      refine ⟨_, PrivilegedInstruction.Parse_read_CR8 instr2 s id hm2 ht2 hd2 hs2, ?_, ?_⟩
      · simp [controlValue, State.setSlot]
      · have hj := id.isLt
        simp only [State.setSlot_ctx, CONTEXT.slot_set, SLOT_RAX, SLOT_RIP, controlValue]
        rw [if_neg (by omega), if_pos trivial]
    · exact absurd hd0 hne7

/-- C12, exercised on `mov cr3, rax` with `Rax = 0x123000`: the virtual `CR3`
becomes `0x123000`. -/
theorem C12_mov_to_control_witness :
    movCr3RaxInstr.mnemonic = ZydisMnemonic.MOV
      ∧ movCr3RaxInstr.operand0.type = ZydisOperandType.REGISTER
      ∧ movCr3RaxInstr.operand0.reg = ZydisRegister.CR3
      ∧ ZydisRegister.CR3 ∈ [ZydisRegister.CR0, ZydisRegister.CR3, ZydisRegister.CR4,
          ZydisRegister.CR8, ZydisRegister.DR7]
      ∧ movCr3RaxInstr.operand1.reg = .GPR64 0
      ∧ (∃ s1, PrivilegedInstruction.Parse (some movCr3RaxInstr) (raxState 0x123000) = .ret true s1
        ∧ controlValue s1 ZydisRegister.CR3 = (raxState 0x123000).ctx.slot (SLOT_RAX + (0 : Fin 16).val)
        ∧ (∀ E ∈ [ZydisRegister.CR0, ZydisRegister.CR3, ZydisRegister.CR4, ZydisRegister.CR8,
            ZydisRegister.DR7], E ≠ ZydisRegister.CR3 →
            controlValue s1 E = controlValue (raxState 0x123000) E)
        ∧ (∀ j : Fin 16, s1.ctx.slot (SLOT_RAX + j.val)
            = (raxState 0x123000).ctx.slot (SLOT_RAX + j.val))
        ∧ s1.ctx.Rip = ((raxState 0x123000).ctx.Rip + movCr3RaxInstr.length) % 2 ^ 64
        ∧ s1.MSRData = (raxState 0x123000).MSRData ∧ s1.mem = (raxState 0x123000).mem)
      ∧ (PrivilegedInstruction.Parse (some movCr3RaxInstr) (raxState 0x123000)).state.CR3
          = 0x123000 :=
  ⟨rfl, rfl, rfl, by decide, rfl,
    (C12_mov_to_control movCr3RaxInstr (raxState 0x123000) 0 ZydisRegister.CR3 rfl rfl rfl
      (by decide) rfl).1,
    by decide⟩

/-- C13 — privileged `MOV` from a control register. For a decoded `MOV` whose
`operands[0]` is a 64-bit general-purpose register `R` and whose `operands[1]` is
`C ∈ {CR0, CR3, CR4, CR8}`, `PrivilegedInstruction::Parse` succeeds and `R` holds
the whole virtual value of `C`; the four virtual control registers are unchanged;
every other general-purpose register, and every other slot of the context except
`Rip`, is unchanged; `Rip` advances by the instruction length; the MSR table and
host memory are unchanged. -/
theorem C13_mov_from_control (instr : ZydisDecodedInstruction) (s : State) (id : Fin 16)
    (C : ZydisRegister) (hm : instr.mnemonic = ZydisMnemonic.MOV)
    (ht : instr.operand0.type = ZydisOperandType.REGISTER)
    (hd : instr.operand0.reg = .GPR64 id) (hs : instr.operand1.reg = C)
    (hC : C ∈ [ZydisRegister.CR0, ZydisRegister.CR3, ZydisRegister.CR4, ZydisRegister.CR8]) :
    ∃ s1, PrivilegedInstruction.Parse (some instr) s = .ret true s1
      ∧ s1.ctx.slot (SLOT_RAX + id.val) = controlValue s C
      ∧ s1.CR0 = s.CR0 ∧ s1.CR3 = s.CR3 ∧ s1.CR4 = s.CR4 ∧ s1.CR8 = s.CR8
      ∧ (∀ j : Fin 16, j ≠ id → s1.ctx.slot (SLOT_RAX + j.val) = s.ctx.slot (SLOT_RAX + j.val))
      ∧ (∀ i, i ≠ SLOT_RAX + id.val → i ≠ SLOT_RIP → s1.ctx.slot i = s.ctx.slot i)
      ∧ s1.ctx.Rip = (s.ctx.Rip + instr.length) % 2 ^ 64
      ∧ s1.MSRData = s.MSRData ∧ s1.mem = s.mem := by
  simp only [List.mem_cons, List.mem_singleton, List.not_mem_nil, or_false] at hC
  rcases hC with hC0 | hC0 | hC0 | hC0
  · subst hC0
    refine ⟨_, PrivilegedInstruction.Parse_read_CR0 instr s id hm ht hd hs, ?_, rfl, rfl, rfl, rfl,
      ?_, ?_, ?_, rfl, rfl⟩
    · simp only [State.setSlot_ctx, CONTEXT.slot_set, controlValue]
      rw [if_neg (fun h => slot_rax_add_ne_rip id h.symm), if_pos trivial]
    · intro j hj
      have hj1 : ¬ (SLOT_RAX + j.val = SLOT_RIP) := fun h => slot_rax_add_ne_rip j h.symm
      have hj2 : ¬ (SLOT_RAX + j.val = SLOT_RAX + id.val) := by
        intro h
        exact hj (Fin.ext (by omega))
      simp only [State.setSlot_ctx, CONTEXT.slot_set]
      rw [if_neg hj1, if_neg hj2]
    · intro i hi hir
      simp only [State.setSlot_ctx, CONTEXT.slot_set]
      rw [if_neg hir, if_neg hi]
    · simp [CONTEXT.Rip, wrapAdd]
  · subst hC0
    refine ⟨_, PrivilegedInstruction.Parse_read_CR3 instr s id hm ht hd hs, ?_, rfl, rfl, rfl, rfl,
      ?_, ?_, ?_, rfl, rfl⟩
    · simp only [State.setSlot_ctx, CONTEXT.slot_set, controlValue]
      rw [if_neg (fun h => slot_rax_add_ne_rip id h.symm), if_pos trivial]
    · intro j hj
      have hj1 : ¬ (SLOT_RAX + j.val = SLOT_RIP) := fun h => slot_rax_add_ne_rip j h.symm
      have hj2 : ¬ (SLOT_RAX + j.val = SLOT_RAX + id.val) := by
        intro h
        exact hj (Fin.ext (by omega))
      simp only [State.setSlot_ctx, CONTEXT.slot_set]
      rw [if_neg hj1, if_neg hj2]
    · intro i hi hir
      simp only [State.setSlot_ctx, CONTEXT.slot_set]
      rw [if_neg hir, if_neg hi]
    · simp [CONTEXT.Rip, wrapAdd]
  · subst hC0
    refine ⟨_, PrivilegedInstruction.Parse_read_CR4 instr s id hm ht hd hs, ?_, rfl, rfl, rfl, rfl,
      ?_, ?_, ?_, rfl, rfl⟩
    · simp only [State.setSlot_ctx, CONTEXT.slot_set, controlValue]
      rw [if_neg (fun h => slot_rax_add_ne_rip id h.symm), if_pos trivial]
    · intro j hj
      have hj1 : ¬ (SLOT_RAX + j.val = SLOT_RIP) := fun h => slot_rax_add_ne_rip j h.symm
      have hj2 : ¬ (SLOT_RAX + j.val = SLOT_RAX + id.val) := by
        intro h
        exact hj (Fin.ext (by omega))
      simp only [State.setSlot_ctx, CONTEXT.slot_set]
      rw [if_neg hj1, if_neg hj2]
    · intro i hi hir
      simp only [State.setSlot_ctx, CONTEXT.slot_set]
      rw [if_neg hir, if_neg hi]
    · simp [CONTEXT.Rip, wrapAdd]
  · subst hC0
    refine ⟨_, PrivilegedInstruction.Parse_read_CR8 instr s id hm ht hd hs, ?_, rfl, rfl, rfl, rfl,
      ?_, ?_, ?_, rfl, rfl⟩
    · simp only [State.setSlot_ctx, CONTEXT.slot_set, controlValue]
      rw [if_neg (fun h => slot_rax_add_ne_rip id h.symm), if_pos trivial]
    · intro j hj
      have hj1 : ¬ (SLOT_RAX + j.val = SLOT_RIP) := fun h => slot_rax_add_ne_rip j h.symm
      have hj2 : ¬ (SLOT_RAX + j.val = SLOT_RAX + id.val) := by
        intro h
        exact hj (Fin.ext (by omega))
      simp only [State.setSlot_ctx, CONTEXT.slot_set]
      rw [if_neg hj1, if_neg hj2]
    · intro i hi hir
      simp only [State.setSlot_ctx, CONTEXT.slot_set]
      rw [if_neg hir, if_neg hi]
    · simp [CONTEXT.Rip, wrapAdd]

/-- C13, exercised on `mov rax, cr0` in the initial state: `Rax` receives the
reset value `0x80050033` of the virtual `CR0`. -/
theorem C13_mov_from_control_witness :
    movRaxCr0Instr.mnemonic = ZydisMnemonic.MOV
      ∧ movRaxCr0Instr.operand0.type = ZydisOperandType.REGISTER
      ∧ movRaxCr0Instr.operand0.reg = .GPR64 0
      ∧ movRaxCr0Instr.operand1.reg = ZydisRegister.CR0
      ∧ ZydisRegister.CR0 ∈ [ZydisRegister.CR0, ZydisRegister.CR3, ZydisRegister.CR4,
          ZydisRegister.CR8]
      ∧ (∃ s1, PrivilegedInstruction.Parse (some movRaxCr0Instr) zeroState = .ret true s1
        ∧ s1.ctx.slot (SLOT_RAX + (0 : Fin 16).val) = controlValue zeroState ZydisRegister.CR0
        ∧ s1.CR0 = zeroState.CR0 ∧ s1.CR3 = zeroState.CR3 ∧ s1.CR4 = zeroState.CR4
        ∧ s1.CR8 = zeroState.CR8
        ∧ (∀ j : Fin 16, j ≠ 0 →
            s1.ctx.slot (SLOT_RAX + j.val) = zeroState.ctx.slot (SLOT_RAX + j.val))
        ∧ (∀ i, i ≠ SLOT_RAX + (0 : Fin 16).val → i ≠ SLOT_RIP →
            s1.ctx.slot i = zeroState.ctx.slot i)
        ∧ s1.ctx.Rip = (zeroState.ctx.Rip + movRaxCr0Instr.length) % 2 ^ 64
        ∧ s1.MSRData = zeroState.MSRData ∧ s1.mem = zeroState.mem)
      ∧ (PrivilegedInstruction.Parse (some movRaxCr0Instr) zeroState).state.ctx.Rax
          = 0x80050033 :=
  ⟨rfl, rfl, rfl, rfl, by decide,
    C13_mov_from_control movRaxCr0Instr zeroState 0 ZydisRegister.CR0 rfl rfl rfl rfl
      (by decide),
    by decide⟩

/-- C14 — `CLI` and `STI` are accepted and ignored. For a decoded `CLI` or `STI`,
`PrivilegedInstruction::Parse` returns true; `Rip` advances by the instruction
length; every other slot of the context (so `EFlags` too), the virtual control
registers, the MSR table and host memory are unchanged. -/
theorem C14_cli_sti (instr : ZydisDecodedInstruction) (s : State)
    (hm : instr.mnemonic = ZydisMnemonic.CLI ∨ instr.mnemonic = ZydisMnemonic.STI) :
    ∃ s1, PrivilegedInstruction.Parse (some instr) s = .ret true s1
      ∧ s1.ctx.Rip = (s.ctx.Rip + instr.length) % 2 ^ 64
      ∧ (∀ i, i ≠ SLOT_RIP → s1.ctx.slot i = s.ctx.slot i)
      ∧ s1.ctx.EFlags = s.ctx.EFlags
      ∧ s1.CR0 = s.CR0 ∧ s1.CR3 = s.CR3 ∧ s1.CR4 = s.CR4 ∧ s1.CR8 = s.CR8
      ∧ s1.MSRData = s.MSRData ∧ s1.mem = s.mem := by
  have hE : PrivilegedInstruction.Parse (some instr) s
      = .ret true (s.setSlot SLOT_RIP (wrapAdd s.ctx.Rip instr.length)) := by
    rcases hm with h | h <;> simp only [PrivilegedInstruction.Parse, h] <;> rfl
  refine ⟨_, hE, ?_, ?_, ?_, rfl, rfl, rfl, rfl, rfl, rfl⟩
  · simp [CONTEXT.Rip, wrapAdd]
  · intro i hi
    simp [hi]
  · simp [CONTEXT.EFlags, SLOT_EFLAGS, SLOT_RIP]

/-- C14, exercised on `cli` at `Rip = 0x1000`. -/
theorem C14_cli_sti_witness :
    (cliInstr.mnemonic = ZydisMnemonic.CLI ∨ cliInstr.mnemonic = ZydisMnemonic.STI)
      ∧ ∃ s1, PrivilegedInstruction.Parse (some cliInstr) zeroState = .ret true s1
        ∧ s1.ctx.Rip = (zeroState.ctx.Rip + cliInstr.length) % 2 ^ 64
        ∧ (∀ i, i ≠ SLOT_RIP → s1.ctx.slot i = zeroState.ctx.slot i)
        ∧ s1.ctx.EFlags = zeroState.ctx.EFlags
        ∧ s1.CR0 = zeroState.CR0 ∧ s1.CR3 = zeroState.CR3 ∧ s1.CR4 = zeroState.CR4
        ∧ s1.CR8 = zeroState.CR8
        ∧ s1.MSRData = zeroState.MSRData ∧ s1.mem = zeroState.mem :=
  ⟨Or.inl rfl, C14_cli_sti cliInstr zeroState (Or.inl rfl)⟩

/-! ## The seeded MSR table -/

/-- C15, as stated, fails on the name of entry `0x1DB`: `MSRContext::Initialize` on
an empty table stores `(0, "MSRLASTBRANCH-_FROM_IP_MSR")` there, which is not the
entry `(0, "MSR_LASTBRANCH_FROM_IP")` of the specification's table. -/
theorem C15_name_counterexample :
    MSRContext.Initialize (fun _ => none) 0x1DB = some (0, "MSRLASTBRANCH-_FROM_IP_MSR")
      ∧ MSRContext.Initialize (fun _ => none) 0x1DB ≠ some (0, "MSR_LASTBRANCH_FROM_IP") := by
  refine ⟨by rfl, ?_⟩
  decide

/-- C15, amended — after `MSRContext::Initialize` on an empty table the MSR table
has exactly the six keys `0x1D9`, `0x1DB`, `0x680`, `0x1C9`, `0x0` and
`0xC0000082`, with values `0`, `0`, `0`, `0`, `0xFFF` and `0x10000`, under the
names the source stores: `DBGCTL_MSR`, `MSRLASTBRANCH-_FROM_IP_MSR`,
`LastBranchFromIP_MSR`, `MSR_LASTBRANCH_TOS`, `MSR_0_P5_IP_ADDR` and `MSR_LSTAR`. -/
theorem C15_initialize_table :
    (∀ k : Nat, MSRContext.Initialize (fun _ => none) k =
      if k = 0xC0000082 then some (0x10000, "MSR_LSTAR")
      else if k = 0x0 then some (0xFFF, "MSR_0_P5_IP_ADDR")
      else if k = 0x1C9 then some (0, "MSR_LASTBRANCH_TOS")
      else if k = 0x680 then some (0, "LastBranchFromIP_MSR")
      else if k = 0x1DB then some (0, "MSRLASTBRANCH-_FROM_IP_MSR")
      else if k = 0x1D9 then some (0, "DBGCTL_MSR")
      else none)
    ∧ (MSRContext.Initialize (fun _ => none)).keys
        = {0x1D9, 0x1DB, 0x680, 0x1C9, 0x0, 0xC0000082} := by
  have hpt : ∀ k : Nat, MSRContext.Initialize (fun _ => none) k =
      if k = 0xC0000082 then some (0x10000, "MSR_LSTAR")
      else if k = 0x0 then some (0xFFF, "MSR_0_P5_IP_ADDR")
      else if k = 0x1C9 then some (0, "MSR_LASTBRANCH_TOS")
      else if k = 0x680 then some (0, "LastBranchFromIP_MSR")
      else if k = 0x1DB then some (0, "MSRLASTBRANCH-_FROM_IP_MSR")
      else if k = 0x1D9 then some (0, "DBGCTL_MSR")
      else none := by
    intro k
    rfl
  refine ⟨hpt, ?_⟩
  ext k
  simp only [MSRTable.keys, Set.mem_setOf_eq, hpt k, Set.mem_insert_iff, Set.mem_singleton_iff]
  constructor
  · intro h
    by_contra hn
    simp only [not_or] at hn
    obtain ⟨h1, h2, h3, h4, h5, h6⟩ := hn
    simp only [h1, h2, h3, h4, h5, h6, if_false, ne_eq, not_true_eq_false] at h
  · intro h
    rcases h with h | h | h | h | h | h <;> subst h <;> decide

/-! ## Register reads -/

/-- C16 — `ReadRegisterValue`. For every context: a 64-bit register reads as the
whole parent slot; a 32-bit register as the parent modulo `2^32`; a 16-bit register
as the parent modulo `2^16`; a low 8-bit register as the parent modulo `2^8`;
`AH/CH/DH/BH` (indices 4..7) as bits `[15:8]` of `RAX/RCX/RDX/RBX`, a value below
`256`. A register outside the four general-purpose classes hits `DebugBreak()`.
The function computes a value from the context and has no other output, so the
context is never changed. -/
theorem C16_read_register_value (ctx : CONTEXT) :
    (∀ id : Fin 16, ReadRegisterValue ctx (.GPR64 id) = some (ctx.slot (SLOT_RAX + id.val)))
      ∧ (∀ id : Fin 16,
          ReadRegisterValue ctx (.GPR32 id) = some (ctx.slot (SLOT_RAX + id.val) % 2 ^ 32))
      ∧ (∀ id : Fin 16,
          ReadRegisterValue ctx (.GPR16 id) = some (ctx.slot (SLOT_RAX + id.val) % 2 ^ 16))
      ∧ (∀ id : Fin 20, ReadRegisterValue ctx (.GPR8 id) = some
          (if 4 ≤ id.val ∧ id.val < 8 then ctx.slot (SLOT_RAX + (id.val - 4)) / 2 ^ 8 % 2 ^ 8
           else ctx.slot (SLOT_RAX + (if id.val < 4 then id.val else id.val - 4)) % 2 ^ 8))
      ∧ ReadRegisterValue ctx ZYDIS_REGISTER_AH = some (ctx.Rax / 2 ^ 8 % 2 ^ 8)
      ∧ ReadRegisterValue ctx ZYDIS_REGISTER_CH = some (ctx.Rcx / 2 ^ 8 % 2 ^ 8)
      ∧ ReadRegisterValue ctx ZYDIS_REGISTER_DH = some (ctx.Rdx / 2 ^ 8 % 2 ^ 8)
      ∧ ReadRegisterValue ctx ZYDIS_REGISTER_BH = some (ctx.slot (SLOT_RAX + 3) / 2 ^ 8 % 2 ^ 8)
      ∧ ReadRegisterValue ctx ZYDIS_REGISTER_AL = some (ctx.Rax % 2 ^ 8)
      ∧ (∀ x : Nat, x / 2 ^ 8 % 2 ^ 8 < 256)
      ∧ (∀ reg : ZydisRegister, classBits (ZydisRegisterGetClass reg) = 0 →
          ReadRegisterValue ctx reg = none) := by
  have hgpr8 : ∀ id : Fin 20, ReadRegisterValue ctx (.GPR8 id) = some
      (if 4 ≤ id.val ∧ id.val < 8 then ctx.slot (SLOT_RAX + (id.val - 4)) / 2 ^ 8 % 2 ^ 8
       else ctx.slot (SLOT_RAX + (if id.val < 4 then id.val else id.val - 4)) % 2 ^ 8) := by
    intro id
    by_cases hh : 4 ≤ id.val ∧ id.val < 8
    · have hhb : isHighByte (.GPR8 id) = true := by
        rw [isHighByte_GPR8]
        simp only [decide_eq_true_eq]
        exact hh
      simp only [ReadRegisterValue, ZydisRegisterGetClass, hhb, if_true, high_byte,
        GRegIndex_GPR8, GPR8_MAPPING_high id hh.1, hh, and_self]
      rfl
    · have hhb : isHighByte (.GPR8 id) = false := by
        rw [isHighByte_GPR8]
        simp only [decide_eq_false_iff_not]
        exact hh
      have hmap : (GPR8_MAPPING id).val = if id.val < 4 then id.val else id.val - 4 := by
        split
        · next h => exact GPR8_MAPPING_low id h
        · next h => exact GPR8_MAPPING_high id (by omega)
      simp only [ReadRegisterValue, ZydisRegisterGetClass, hhb, and_mask8, GRegIndex_GPR8, hmap,
        hh, if_false]
      rfl
  refine ⟨?_, ?_, ?_, hgpr8, ?_, ?_, ?_, ?_, ?_, ?_, ?_⟩
  · intro id
    rfl
  · intro id
    simp only [ReadRegisterValue, ZydisRegisterGetClass, and_mask32, GRegIndex_GPR32]
  · intro id
    simp only [ReadRegisterValue, ZydisRegisterGetClass, and_mask16, GRegIndex_GPR16]
  · exact hgpr8 4
  · exact hgpr8 5
  · exact hgpr8 6
  · exact hgpr8 7
  · exact hgpr8 0
  · intro x
    exact Nat.mod_lt _ (by norm_num)
  · intro reg hreg
    cases reg <;> simp [classBits, ZydisRegisterGetClass] at hreg <;> rfl

/-- C16, exercised on `Rax = 0xDEADBEEFCAFEBABE`: `RAX`, `EAX`, `AX`, `AL` and `AH`
read as `0xDEADBEEFCAFEBABE`, `0xCAFEBABE`, `0xBABE`, `0xBE` and `0xBA`; `RIP` is
not a general-purpose register and hits `DebugBreak()`. -/
theorem C16_read_register_value_witness :
    ReadRegisterValue (contextWith 0xDEADBEEFCAFEBABE 0 0 0) ZYDIS_REGISTER_RAX
        = some 0xDEADBEEFCAFEBABE
      ∧ ReadRegisterValue (contextWith 0xDEADBEEFCAFEBABE 0 0 0) ZYDIS_REGISTER_EAX
        = some 0xCAFEBABE
      ∧ ReadRegisterValue (contextWith 0xDEADBEEFCAFEBABE 0 0 0) ZYDIS_REGISTER_AX = some 0xBABE
      ∧ ReadRegisterValue (contextWith 0xDEADBEEFCAFEBABE 0 0 0) ZYDIS_REGISTER_AL = some 0xBE
      ∧ ReadRegisterValue (contextWith 0xDEADBEEFCAFEBABE 0 0 0) ZYDIS_REGISTER_AH = some 0xBA
      ∧ classBits (ZydisRegisterGetClass ZydisRegister.RIP) = 0
      ∧ ReadRegisterValue (contextWith 0xDEADBEEFCAFEBABE 0 0 0) ZydisRegister.RIP = none :=
  ⟨by decide, by decide, by decide, by decide, by decide, rfl,
    (C16_read_register_value (contextWith 0xDEADBEEFCAFEBABE 0 0 0)).2.2.2.2.2.2.2.2.2.2
      ZydisRegister.RIP rfl⟩

/-! ## Address translation -/

/-- C17 — translation precedence. For a decoded instruction and a fault address
for which the data provider returns a host address `p` (non-zero),
`MemoryRead::Parse` and `MemoryWrite::Parse` are exactly `EmulateRead` and
`EmulateWrite` at `p`, so the outcome is the same for every content of the address
map; the map is used only when the provider returns none, and then the access
goes to the address the map gives. -/
theorem C17_translation_precedence (env : Collaborators) (instr : ZydisDecodedInstruction)
    (addr : Nat) (s : State) :
    (env.FindDataImpl addr ≠ 0 →
        MemoryRead.Parse env (some instr) addr s
            = MemoryRead.EmulateRead instr (env.FindDataImpl addr) s
          ∧ MemoryWrite.Parse env (some instr) addr s
            = MemoryWrite.EmulateWrite instr (env.FindDataImpl addr) s
          ∧ ∀ map : Nat → Nat,
              MemoryRead.Parse { env with GetHVA := map } (some instr) addr s
                  = MemoryRead.Parse env (some instr) addr s
                ∧ MemoryWrite.Parse { env with GetHVA := map } (some instr) addr s
                  = MemoryWrite.Parse env (some instr) addr s)
      ∧ (env.FindDataImpl addr = 0 → env.GetHVA addr ≠ 0 →
        MemoryRead.Parse env (some instr) addr s
            = MemoryRead.EmulateRead instr (env.GetHVA addr) s
          ∧ MemoryWrite.Parse env (some instr) addr s
            = MemoryWrite.EmulateWrite instr (env.GetHVA addr) s) := by
  refine ⟨?_, ?_⟩
  · intro hp
    refine ⟨?_, ?_, ?_⟩
    · simp only [MemoryRead.Parse, hp, ne_eq, not_false_eq_true, if_true]
    · simp only [MemoryWrite.Parse, hp, ne_eq, not_false_eq_true, if_true]
    · intro map
      constructor
      · simp only [MemoryRead.Parse, hp, ne_eq, not_false_eq_true, if_true]
      · simp only [MemoryWrite.Parse, hp, ne_eq, not_false_eq_true, if_true]
  · intro hp hm
    constructor
    · simp only [MemoryRead.Parse, hp, hm, ne_eq, not_true_eq_false, not_false_eq_true, if_true,
        if_false]
    · simp only [MemoryWrite.Parse, hp, hm, ne_eq, not_true_eq_false, not_false_eq_true, if_true,
        if_false]

/-- C17, exercised with a provider that answers `0x7FFE0020` for `G` while the
address map holds `0x5000` for it: `mov rbx, [G]` loads the provider's bytes,
`Rbx = 0x8877665544332211`. -/
theorem C17_translation_precedence_witness :
    providerEnv.FindDataImpl scenarioG ≠ 0
      ∧ providerEnv.GetHVA scenarioG = 0x5000
      ∧ MemoryRead.Parse providerEnv (some movRbxInstr) scenarioG zeroState
          = MemoryRead.EmulateRead movRbxInstr (providerEnv.FindDataImpl scenarioG) zeroState
      ∧ (MemoryRead.Parse providerEnv (some movRbxInstr) scenarioG zeroState).state.ctx.slot
          (SLOT_RAX + 3) = 0x8877665544332211 :=
  ⟨by decide, by decide,
    ((C17_translation_precedence providerEnv movRbxInstr scenarioG zeroState).1 (by decide)).1,
    by decide⟩

/-- C18 — unresolved address. For a decoded instruction and a fault address that
neither the data provider nor the address map resolves, `MemoryRead::Parse` and
`MemoryWrite::Parse` both return false in the same state, whose context, host
memory, MSR table and virtual control registers are those of the pre-state; the
record of `Environment::CheckPtr` calls gains exactly the fault address when it is
not the sentinel `0xFFFFFFFFFFFFFFFF`, and is unchanged when it is. -/
theorem C18_unresolved_address (env : Collaborators) (instr : ZydisDecodedInstruction)
    (addr : Nat) (s : State) (hp : env.FindDataImpl addr = 0) (hmap : env.GetHVA addr = 0) :
    ∃ s1, MemoryRead.Parse env (some instr) addr s = .ret false s1
      ∧ MemoryWrite.Parse env (some instr) addr s = .ret false s1
      ∧ s1.ctx = s.ctx ∧ s1.mem = s.mem ∧ s1.MSRData = s.MSRData
      ∧ s1.CR0 = s.CR0 ∧ s1.CR3 = s.CR3 ∧ s1.CR4 = s.CR4 ∧ s1.CR8 = s.CR8
      ∧ s1.checked = (if addr = 0xFFFFFFFFFFFFFFFF then s.checked else addr :: s.checked)
      ∧ (s1.checked = addr :: s.checked ↔ addr ≠ 0xFFFFFFFFFFFFFFFF)
      ∧ (s1.checked = s.checked ↔ addr = 0xFFFFFFFFFFFFFFFF) := by
  by_cases ha : addr = 0xFFFFFFFFFFFFFFFF
  · subst ha
    refine ⟨s, ?_, ?_, rfl, rfl, rfl, rfl, rfl, rfl, rfl, ?_, ?_, ?_⟩
    · simp [MemoryRead.Parse, hp, hmap]
    · simp [MemoryWrite.Parse, hp, hmap]
    · simp
    · simp
    · simp
  · refine ⟨{ s with checked := addr :: s.checked }, ?_, ?_, rfl, rfl, rfl, rfl, rfl, rfl, rfl,
      ?_, ?_, ?_⟩
    · simp [MemoryRead.Parse, hp, hmap, ha]
    · simp [MemoryWrite.Parse, hp, hmap, ha]
    · simp [ha]
    · simp [ha]
    · simp [ha]

/-- C18, exercised with collaborators that resolve nothing, on the fault address
`0x1234`: the call fails and the hook is called once, with `0x1234`. -/
theorem C18_unresolved_address_witness :
    emptyEnv.FindDataImpl 0x1234 = 0 ∧ emptyEnv.GetHVA 0x1234 = 0
      ∧ ∃ s1, MemoryRead.Parse emptyEnv (some movRbxInstr) 0x1234 zeroState = .ret false s1
        ∧ MemoryWrite.Parse emptyEnv (some movRbxInstr) 0x1234 zeroState = .ret false s1
        ∧ s1.ctx = zeroState.ctx ∧ s1.mem = zeroState.mem ∧ s1.MSRData = zeroState.MSRData
        ∧ s1.CR0 = zeroState.CR0 ∧ s1.CR3 = zeroState.CR3 ∧ s1.CR4 = zeroState.CR4
        ∧ s1.CR8 = zeroState.CR8
        ∧ s1.checked
            = (if 0x1234 = 0xFFFFFFFFFFFFFFFF then zeroState.checked
               else 0x1234 :: zeroState.checked)
        ∧ (s1.checked = 0x1234 :: zeroState.checked ↔ 0x1234 ≠ 0xFFFFFFFFFFFFFFFF)
        ∧ (s1.checked = zeroState.checked ↔ 0x1234 = 0xFFFFFFFFFFFFFFFF) :=
  ⟨rfl, rfl, C18_unresolved_address emptyEnv movRbxInstr 0x1234 zeroState rfl rfl⟩

/-! ## Flags -/

/-- Reading `EFlags` back after a store gives the low 32 bits of the stored value. -/
theorem CONTEXT.EFlags_setEFlags (c : CONTEXT) (v : Nat) :
    (c.setEFlags v).EFlags = v % 2 ^ 32 := by
  show (((c.slot SLOT_EFLAGS % 2 ^ 32) ||| ((v % 2 ^ 32) <<< 32)) >>> 32) % 2 ^ 32 = v % 2 ^ 32
  apply Nat.eq_of_testBit_eq
  intro i
  simp only [Nat.testBit_mod_two_pow, Nat.testBit_or, Nat.testBit_shiftLeft,
    Nat.testBit_shiftRight]
  by_cases h : i < 32
  · have h2 : ¬ (32 + i < 32) := by omega
    simp [h, h2]
  · simp [h]

/-- A store into `EFlags` keeps the lower half of its slot. -/
theorem CONTEXT.setEFlags_low (c : CONTEXT) (v : Nat) :
    (c.setEFlags v).slot SLOT_EFLAGS % 2 ^ 32 = c.slot SLOT_EFLAGS % 2 ^ 32 := by
  show ((c.slot SLOT_EFLAGS % 2 ^ 32) ||| ((v % 2 ^ 32) <<< 32)) % 2 ^ 32 = _
  apply Nat.eq_of_testBit_eq
  intro i
  simp only [Nat.testBit_mod_two_pow, Nat.testBit_or, Nat.testBit_shiftLeft]
  by_cases h : i < 32
  · have h2 : ¬ (i ≥ 32) := by omega
    simp [h, h2]
  · simp [h]

theorem flagMask_cleared :
    Nat.testBit 0xFFFFF72A 0 = false ∧ Nat.testBit 0xFFFFF72A 2 = false
      ∧ Nat.testBit 0xFFFFF72A 4 = false ∧ Nat.testBit 0xFFFFF72A 6 = false
      ∧ Nat.testBit 0xFFFFF72A 7 = false ∧ Nat.testBit 0xFFFFF72A 11 = false := by
  decide

theorem flagMask_kept : ∀ i : Fin 32, i.val ∉ [0, 2, 4, 6, 7, 11] →
    Nat.testBit 0xFFFFF72A i.val = true := by
  decide

/-- Bit `i` of a flags word assembled as `cmpFlags` assembles it. -/
theorem flagsWord_testBit (e : Nat) (cf pf af zf sf ovf : Bool) (i : Nat) :
    ((e &&& 0xFFFFF72A) ||| (cf.toNat ||| (pf.toNat <<< 2) ||| (af.toNat <<< 4)
      ||| (zf.toNat <<< 6) ||| (sf.toNat <<< 7) ||| (ovf.toNat <<< 11))).testBit i
    = if i = 0 then cf else if i = 2 then pf else if i = 4 then af else if i = 6 then zf
      else if i = 7 then sf else if i = 11 then ovf
      else (e.testBit i && Nat.testBit 0xFFFFF72A i) := by
  obtain ⟨m0, m2, m4, m6, m7, m11⟩ := flagMask_cleared
  simp only [Nat.testBit_or, Nat.testBit_and, Nat.testBit_shiftLeft, Nat.testBit_bool_to_nat]
  by_cases h0 : i = 0
  · subst h0; simp [m0]
  by_cases h2 : i = 2
  · subst h2; simp [m2]
  by_cases h4 : i = 4
  · subst h4; simp [m4]
  by_cases h6 : i = 6
  · subst h6; simp [m6]
  by_cases h7 : i = 7
  · subst h7; simp [m7]
  by_cases h11 : i = 11
  · subst h11; simp [m11]
  simp only [h0, h2, h4, h6, h7, h11, if_false, decide_False, Bool.false_and, Bool.or_false]
  have c2 : (decide (i ≥ 2) && (decide (i - 2 = 0) && pf)) = false := by
    by_cases h : i ≥ 2
    · have : ¬ (i - 2 = 0) := by omega
      simp [this]
    · simp [h]
  have c4 : (decide (i ≥ 4) && (decide (i - 4 = 0) && af)) = false := by
    by_cases h : i ≥ 4
    · have : ¬ (i - 4 = 0) := by omega
      simp [this]
    · simp [h]
  have c6 : (decide (i ≥ 6) && (decide (i - 6 = 0) && zf)) = false := by
    by_cases h : i ≥ 6
    · have : ¬ (i - 6 = 0) := by omega
      simp [this]
    · simp [h]
  have c7 : (decide (i ≥ 7) && (decide (i - 7 = 0) && sf)) = false := by
    by_cases h : i ≥ 7
    · have : ¬ (i - 7 = 0) := by omega
      simp [this]
    · simp [h]
  have c11 : (decide (i ≥ 11) && (decide (i - 11 = 0) && ovf)) = false := by
    by_cases h : i ≥ 11
    · have : ¬ (i - 11 = 0) := by omega
      simp [this]
    · simp [h]
  rw [c2, c4, c6, c7, c11]
  simp

/-- The flags word of `cmpFlags` fits the 32-bit `EFlags` field. -/
theorem cmpFlags_lt (W e a b : Nat) : cmpFlags W e a b < 2 ^ 32 := by
  apply Nat.lt_pow_two_of_testBit
  intro i hi
  unfold cmpFlags
  simp only []
  rw [flagsWord_testBit]
  have hmask : Nat.testBit 0xFFFFF72A i = false :=
    Nat.testBit_lt_two_pow (Nat.lt_of_lt_of_le (by norm_num) (Nat.pow_le_pow_right (by norm_num) hi))
  rw [if_neg (by omega), if_neg (by omega), if_neg (by omega), if_neg (by omega),
    if_neg (by omega), if_neg (by omega), hmask]
  simp

/-- A wrapped difference of two values below the modulus vanishes exactly when they
are equal. -/
theorem wrapDiff_eq_zero (P m r : Nat) (hm : m < P) (hr : r < P) :
    (m + (P - r)) % P = 0 ↔ m = r := by
  constructor
  · intro h
    by_cases hle : r ≤ m
    · have e : m + (P - r) = (m - r) + P := by omega
      rw [e, Nat.add_mod_right, Nat.mod_eq_of_lt (by omega)] at h
      omega
    · have hlt : m + (P - r) < P := by omega
      rw [Nat.mod_eq_of_lt hlt] at h
      omega
  · intro h
    subst h
    have e : m + (P - m) = P := by omega
    rw [e, Nat.mod_self]

/-- A register that `ReadRegisterValue` can read has one of the four widths. -/
theorem classBits_of_read {ctx : CONTEXT} {reg : ZydisRegister} {v : Nat}
    (hv : ReadRegisterValue ctx reg = some v) :
    classBits (ZydisRegisterGetClass reg) = 8 ∨ classBits (ZydisRegisterGetClass reg) = 16
      ∨ classBits (ZydisRegisterGetClass reg) = 32
      ∨ classBits (ZydisRegisterGetClass reg) = 64 := by
  cases reg <;> simp [ReadRegisterValue, ZydisRegisterGetClass, classBits] at hv ⊢

/-- The dispatch of `EmulateCMPSourcePtr`: the helper of the register's width is
called on the value `ReadRegisterValue` returned. -/
theorem InstrEmu.EmulateCMPSourcePtr_eq (s : State) (reg : ZydisRegister) (ptr v : Nat)
    (hv : ReadRegisterValue s.ctx reg = some v) :
    EmulateCMPSourcePtr s reg ptr = .ret true
      (s.setEFlags (u_cmp_sp (classBits (ZydisRegisterGetClass reg)) s.mem s.ctx.EFlags ptr v)) := by
  cases reg <;> simp [ReadRegisterValue, ZydisRegisterGetClass] at hv <;>
    simp only [EmulateCMPSourcePtr, ReadRegisterValue, ZydisRegisterGetClass, classBits] <;>
    (try split) <;> simp_all

theorem CONTEXT.EFlags_set_of_ne (c : CONTEXT) (i y : Nat) (hi : i ≠ SLOT_EFLAGS) :
    (c.set i y).EFlags = c.EFlags := by
  show ((if SLOT_EFLAGS = i then y else c.slot SLOT_EFLAGS) >>> 32) % 2 ^ 32 = _
  rw [if_neg (Ne.symm hi)]
  rfl

theorem pow256_of_width {W : Nat} (h : W = 8 ∨ W = 16 ∨ W = 32 ∨ W = 64) :
    256 ^ (W / 8) = 2 ^ W ∧ 0 < W := by
  rcases h with h | h | h | h <;> subst h <;> constructor <;> norm_num

/-- C19 — `CMP [addr], reg`. For a decoded `CMP` with a memory `operands[0]` and a
general-purpose register `operands[1]` of width `W ∈ {8, 16, 32, 64}`, let `m` be
the `W`-bit little-endian value at the translated address and `r` the `W`-bit
register value. `EmulateRead` succeeds and `EFlags` becomes the flags word of the
`W`-bit subtraction `m − r`: `CF = (m < r)`, `ZF = (m = r)`, `SF` the top bit of
the difference, `OF` the signed overflow, `AF = (m mod 16 < r mod 16)`, `PF` the
even parity of the low byte of the difference; the other bits of `EFlags` are
kept. When `m = r`: `ZF = 1` and `CF = OF = SF = 0`. No other slot of the context
changes except `Rip`, which advances by the instruction length; host memory is
unchanged. -/
theorem C19_cmp_flags (instr : ZydisDecodedInstruction) (addr : Nat) (s : State)
    (v W m r : Nat) (hm : instr.mnemonic = ZydisMnemonic.CMP)
    (h0 : instr.operand0.type = ZydisOperandType.MEMORY)
    (h1 : instr.operand1.type = ZydisOperandType.REGISTER)
    (hv : ReadRegisterValue s.ctx instr.operand1.reg = some v)
    (hW : W = classBits (ZydisRegisterGetClass instr.operand1.reg))
    (hmem : m = readLE s.mem addr (W / 8)) (hr : r = v % 2 ^ W) :
    ∃ s1, MemoryRead.EmulateRead instr addr s = .ret true s1
      ∧ s1.ctx.EFlags = cmpFlags W s.ctx.EFlags m r
      ∧ s1.ctx.EFlags.testBit 0 = decide (m < r)
      ∧ s1.ctx.EFlags.testBit 6 = decide (m = r)
      ∧ s1.ctx.EFlags.testBit 7 = ((m + (2 ^ W - r)) % 2 ^ W).testBit (W - 1)
      ∧ s1.ctx.EFlags.testBit 11
          = ((m.testBit (W - 1) != r.testBit (W - 1))
              && (((m + (2 ^ W - r)) % 2 ^ W).testBit (W - 1) != m.testBit (W - 1)))
      ∧ s1.ctx.EFlags.testBit 4 = decide (m % 16 < r % 16)
      ∧ s1.ctx.EFlags.testBit 2 = parityEven ((m + (2 ^ W - r)) % 2 ^ W)
      ∧ (m = r → s1.ctx.EFlags.testBit 6 = true ∧ s1.ctx.EFlags.testBit 0 = false
          ∧ s1.ctx.EFlags.testBit 11 = false ∧ s1.ctx.EFlags.testBit 7 = false)
      ∧ (∀ i : Fin 32, i.val ∉ [0, 2, 4, 6, 7, 11] →
          s1.ctx.EFlags.testBit i.val = s.ctx.EFlags.testBit i.val)
      ∧ (∀ i, i ≠ SLOT_EFLAGS → i ≠ SLOT_RIP → s1.ctx.slot i = s.ctx.slot i)
      ∧ s1.ctx.slot SLOT_EFLAGS % 2 ^ 32 = s.ctx.slot SLOT_EFLAGS % 2 ^ 32
      ∧ s1.ctx.Rip = (s.ctx.Rip + instr.length) % 2 ^ 64
      ∧ s1.mem = s.mem := by
  have hwidth := classBits_of_read hv
  rw [← hW] at hwidth
  obtain ⟨hpow, hWpos⟩ := pow256_of_width hwidth
  have hmlt : m < 2 ^ W := by
    rw [hmem, ← hpow]
    exact readLE_lt s.mem (W / 8) addr
  have hrlt : r < 2 ^ W := by
    rw [hr]
    exact Nat.mod_lt _ (Nat.two_pow_pos W)
  have hrun := InstrEmu.EmulateCMPSourcePtr_eq s instr.operand1.reg addr v hv
  have hX : u_cmp_sp (classBits (ZydisRegisterGetClass instr.operand1.reg)) s.mem s.ctx.EFlags
      addr v = cmpFlags W s.ctx.EFlags m r := by
    rw [← hW, hmem, hr]
    rfl
  rw [hX] at hrun
  have hE : MemoryRead.EmulateRead instr addr s
      = SkipToNext instr (s.setEFlags (cmpFlags W s.ctx.EFlags m r)) := by
    unfold MemoryRead.EmulateRead
    simp only [hm, h0, h1, and_self, if_true, hrun, Outcome.andThen]
  have hfl : ((s.setEFlags (cmpFlags W s.ctx.EFlags m r)).ctx.set SLOT_RIP
      (wrapAdd (s.setEFlags (cmpFlags W s.ctx.EFlags m r)).ctx.Rip instr.length)).EFlags
      = cmpFlags W s.ctx.EFlags m r := by
    rw [CONTEXT.EFlags_set_of_ne _ _ _ (by decide), State.setEFlags_ctx,
      CONTEXT.EFlags_setEFlags, Nat.mod_eq_of_lt (cmpFlags_lt _ _ _ _)]
  have hbit : ∀ i, (cmpFlags W s.ctx.EFlags m r).testBit i
      = if i = 0 then decide (m < r)
        else if i = 2 then parityEven ((m + (2 ^ W - r)) % 2 ^ W)
        else if i = 4 then decide (m % 16 < r % 16)
        else if i = 6 then decide ((m + (2 ^ W - r)) % 2 ^ W = 0)
        else if i = 7 then ((m + (2 ^ W - r)) % 2 ^ W).testBit (W - 1)
        else if i = 11 then ((m.testBit (W - 1) != r.testBit (W - 1))
          && (((m + (2 ^ W - r)) % 2 ^ W).testBit (W - 1) != m.testBit (W - 1)))
        else (s.ctx.EFlags.testBit i && Nat.testBit 0xFFFFF72A i) := by
    intro i
    unfold cmpFlags
    simp only []
    rw [flagsWord_testBit]
  have hzf : decide ((m + (2 ^ W - r)) % 2 ^ W = 0) = decide (m = r) := by
    have := wrapDiff_eq_zero (2 ^ W) m r hmlt hrlt
    simp only [this]
  refine ⟨_, hE, hfl, ?_, ?_, ?_, ?_, ?_, ?_, ?_, ?_, ?_, ?_, ?_, rfl⟩
  · show Nat.testBit (CONTEXT.EFlags _) 0 = _
    rw [hfl, hbit]
    simp
  · show Nat.testBit (CONTEXT.EFlags _) 6 = _
    rw [hfl, hbit, ← hzf]
    simp
  · show Nat.testBit (CONTEXT.EFlags _) 7 = _
    rw [hfl, hbit]
    simp
  · show Nat.testBit (CONTEXT.EFlags _) 11 = _
    rw [hfl, hbit]
    simp
  · show Nat.testBit (CONTEXT.EFlags _) 4 = _
    rw [hfl, hbit]
    simp
  · show Nat.testBit (CONTEXT.EFlags _) 2 = _
    rw [hfl, hbit]
    simp
  · intro heq
    have hd : (m + (2 ^ W - r)) % 2 ^ W = 0 := (wrapDiff_eq_zero (2 ^ W) m r hmlt hrlt).2 heq
    refine ⟨?_, ?_, ?_, ?_⟩
    · show Nat.testBit (CONTEXT.EFlags _) 6 = _
      rw [hfl, hbit, hd]
      simp
    · show Nat.testBit (CONTEXT.EFlags _) 0 = _
      rw [hfl, hbit, heq]
      simp
    · show Nat.testBit (CONTEXT.EFlags _) 11 = _
      rw [hfl, hbit, heq]
      simp
    · show Nat.testBit (CONTEXT.EFlags _) 7 = _
      rw [hfl, hbit, hd]
      simp
  · intro i hi
    show Nat.testBit (CONTEXT.EFlags _) i.val = _
    rw [hfl, hbit, flagMask_kept i hi]
    simp only [List.mem_cons, List.mem_singleton, List.not_mem_nil, or_false, not_or] at hi
    obtain ⟨a0, a2, a4, a6, a7, a11⟩ := hi
    simp [a0, a2, a4, a6, a7, a11]
  · intro i hi hir
    show ((s.ctx.setEFlags _).set SLOT_RIP _).slot i = _
    simp only [CONTEXT.slot_set, CONTEXT.setEFlags]
    rw [if_neg hir, if_neg hi]
  · show ((s.ctx.setEFlags _).set SLOT_RIP _).slot SLOT_EFLAGS % 2 ^ 32 = _
    rw [CONTEXT.slot_set, if_neg (by decide)]
    exact CONTEXT.setEFlags_low _ _
  · show ((s.ctx.setEFlags _).set SLOT_RIP (wrapAdd (s.ctx.setEFlags _).Rip instr.length)).Rip = _
    have hrip : (s.ctx.setEFlags (cmpFlags W s.ctx.EFlags m r)).Rip = s.ctx.Rip := by
      simp [CONTEXT.Rip, CONTEXT.setEFlags, SLOT_RIP, SLOT_EFLAGS]
    rw [hrip]
    simp [CONTEXT.Rip, wrapAdd]

/-- C19, exercised on the flag scenario `cmp dword ptr [G], eax` with
`Rax = 0x44332211` over the bytes `11 22 33 44 …`: memory and register agree, so
`ZF = 1` and `CF = OF = SF = 0`. -/
theorem C19_cmp_flags_witness :
    cmpMemEaxInstr.mnemonic = ZydisMnemonic.CMP
      ∧ cmpMemEaxInstr.operand0.type = ZydisOperandType.MEMORY
      ∧ cmpMemEaxInstr.operand1.type = ZydisOperandType.REGISTER
      ∧ ReadRegisterValue (raxState 0x44332211).ctx cmpMemEaxInstr.operand1.reg = some 0x44332211
      ∧ 32 = classBits (ZydisRegisterGetClass cmpMemEaxInstr.operand1.reg)
      ∧ 0x44332211 = readLE (raxState 0x44332211).mem 0x7FFE0020 (32 / 8)
      ∧ 0x44332211 = 0x44332211 % 2 ^ 32
      ∧ ∃ s1, MemoryRead.EmulateRead cmpMemEaxInstr 0x7FFE0020 (raxState 0x44332211) = .ret true s1
        ∧ s1.ctx.EFlags.testBit 6 = true ∧ s1.ctx.EFlags.testBit 0 = false
        ∧ s1.ctx.EFlags.testBit 11 = false ∧ s1.ctx.EFlags.testBit 7 = false
        ∧ s1.ctx.Rip = ((raxState 0x44332211).ctx.Rip + cmpMemEaxInstr.length) % 2 ^ 64
        ∧ s1.mem = (raxState 0x44332211).mem := by
  refine ⟨rfl, rfl, rfl, by decide, rfl, by decide, by decide, ?_⟩
  obtain ⟨s1, hrun, _, _, _, _, _, _, _, hzero, _, _, _, hrip, hmem⟩ :=
    C19_cmp_flags cmpMemEaxInstr 0x7FFE0020 (raxState 0x44332211) 0x44332211 32 0x44332211
      0x44332211 rfl rfl rfl (by decide) rfl (by decide) (by decide)
  exact ⟨s1, hrun, (hzero rfl).1, (hzero rfl).2.1, (hzero rfl).2.2.1, (hzero rfl).2.2.2, hrip, hmem⟩

/-- Every successful run of `EmulateTestSourcePtr` stores a flags word with `0x10000` or-ed in. -/
theorem InstrEmu.EmulateTestSourcePtr_rf (s : State) (reg : ZydisRegister) (ptr : Nat) :
    EmulateTestSourcePtr s reg ptr = .fatal s
      ∨ ∃ v, EmulateTestSourcePtr s reg ptr = .ret true (s.setEFlags (v ||| 0x10000)) := by
  unfold EmulateTestSourcePtr
  repeat' split
  all_goals first | exact Or.inl rfl | exact Or.inr ⟨_, rfl⟩

/-- Every successful run of `EmulateTestDestPtr` stores a flags word with `0x10000` or-ed in. -/
theorem InstrEmu.EmulateTestDestPtr_rf (s : State) (reg : ZydisRegister) (ptr : Nat) :
    EmulateTestDestPtr s reg ptr = .fatal s
      ∨ ∃ v, EmulateTestDestPtr s reg ptr = .ret true (s.setEFlags (v ||| 0x10000)) := by
  unfold EmulateTestDestPtr
  repeat' split
  all_goals first | exact Or.inl rfl | exact Or.inr ⟨_, rfl⟩

/-- Every successful run of `EmulateTestImm` stores a flags word with `0x10000` or-ed in. -/
theorem InstrEmu.EmulateTestImm_rf (s : State) (imm : Int) (ptr size : Nat) :
    EmulateTestImm s imm ptr size = .fatal s
      ∨ ∃ v, EmulateTestImm s imm ptr size = .ret true (s.setEFlags (v ||| 0x10000)) := by
  unfold EmulateTestImm
  repeat' split
  all_goals first | exact Or.inl rfl | exact Or.inr ⟨_, rfl⟩

/-- On a general-purpose register `EmulateTestSourcePtr` returns. -/
theorem InstrEmu.EmulateTestSourcePtr_returns (s : State) (reg : ZydisRegister) (ptr : Nat)
    (h : classBits (ZydisRegisterGetClass reg) ≠ 0) :
    ∃ s2, EmulateTestSourcePtr s reg ptr = .ret true s2 := by
  cases reg with
  | GPR64 id => exact ⟨_, rfl⟩
  | GPR32 id => exact ⟨_, rfl⟩
  | GPR16 id => exact ⟨_, rfl⟩
  | GPR8 id =>
    by_cases hh : isHighByte (.GPR8 id) = true
    · simp only [EmulateTestSourcePtr, ReadRegisterValue, ZydisRegisterGetClass, hh, if_true]
      exact ⟨_, rfl⟩
    · rw [Bool.not_eq_true] at hh
      simp only [EmulateTestSourcePtr, ReadRegisterValue, ZydisRegisterGetClass, hh, Bool.false_eq_true,
        if_false]
      exact ⟨_, rfl⟩
  | _ => simp [classBits, ZydisRegisterGetClass] at h

/-- On a general-purpose register `EmulateTestDestPtr` returns. -/
theorem InstrEmu.EmulateTestDestPtr_returns (s : State) (reg : ZydisRegister) (ptr : Nat)
    (h : classBits (ZydisRegisterGetClass reg) ≠ 0) :
    ∃ s2, EmulateTestDestPtr s reg ptr = .ret true s2 := by
  cases reg with
  | GPR64 id => exact ⟨_, rfl⟩
  | GPR32 id => exact ⟨_, rfl⟩
  | GPR16 id => exact ⟨_, rfl⟩
  | GPR8 id =>
    by_cases hh : isHighByte (.GPR8 id) = true
    · simp only [EmulateTestDestPtr, ReadRegisterValue, ZydisRegisterGetClass, hh, if_true]
      exact ⟨_, rfl⟩
    · rw [Bool.not_eq_true] at hh
      simp only [EmulateTestDestPtr, ReadRegisterValue, ZydisRegisterGetClass, hh, Bool.false_eq_true,
        if_false]
      exact ⟨_, rfl⟩
  | _ => simp [classBits, ZydisRegisterGetClass] at h

/-- On an element size of 8, 16, 32 or 64 bits `EmulateTestImm` returns. -/
theorem InstrEmu.EmulateTestImm_returns (s : State) (imm : Int) (ptr size : Nat)
    (h : size ∈ [8, 16, 32, 64]) : ∃ s2, EmulateTestImm s imm ptr size = .ret true s2 := by
  simp only [List.mem_cons, List.mem_singleton, List.not_mem_nil, or_false] at h
  rcases h with h | h | h | h <;> subst h <;> exact ⟨_, rfl⟩

theorem Outcome.andThen_skip_returns {o : Outcome} (instr : ZydisDecodedInstruction)
    (h : ∃ s2, o = .ret true s2) :
    ∃ s3, (o.andThen fun _ s1 => SkipToNext instr s1) = .ret true s3 := by
  obtain ⟨s2, h2⟩ := h
  rw [h2]
  exact ⟨_, rfl⟩

theorem Outcome.andThen_skip_rf {o : Outcome} {s : State} (instr : ZydisDecodedInstruction)
    (h : o = .fatal s ∨ ∃ v, o = .ret true (s.setEFlags (v ||| 0x10000))) :
    (o.andThen fun _ s1 => SkipToNext instr s1) = .fatal s
      ∨ ∃ v, (o.andThen fun _ s1 => SkipToNext instr s1)
          = SkipToNext instr (s.setEFlags (v ||| 0x10000)) := by
  rcases h with h | ⟨v, h⟩
  · rw [h]; exact Or.inl rfl
  · rw [h]; exact Or.inr ⟨v, rfl⟩

/-- Every run of `EmulateRead` on a `TEST` stops at `DebugBreak()` in the pre-state
or is `SkipToNext` after a store of a flags word with `0x10000` or-ed in. -/
theorem MemoryRead.EmulateRead_TEST_shape (instr : ZydisDecodedInstruction) (addr : Nat)
    (s : State) (hm : instr.mnemonic = ZydisMnemonic.TEST) :
    EmulateRead instr addr s = .fatal s
      ∨ ∃ v, EmulateRead instr addr s = SkipToNext instr (s.setEFlags (v ||| 0x10000)) := by
  unfold EmulateRead
  simp only [hm]
  split
  · exact Outcome.andThen_skip_rf instr (InstrEmu.EmulateTestSourcePtr_rf _ _ _)
  · split
    · exact Outcome.andThen_skip_rf instr (InstrEmu.EmulateTestDestPtr_rf _ _ _)
    · split
      · exact Outcome.andThen_skip_rf instr (InstrEmu.EmulateTestImm_rf _ _ _ _)
      · split
        · exact Outcome.andThen_skip_rf instr (InstrEmu.EmulateTestImm_rf _ _ _ _)
        · exact Or.inl rfl

/-- What a `SkipToNext` after a store of `v | 0x10000` into `EFlags` leaves. -/
theorem test_post (instr : ZydisDecodedInstruction) (s s1 : State) (v : Nat)
    (h : SkipToNext instr (s.setEFlags (v ||| 0x10000)) = .ret true s1) :
    s1.ctx.EFlags.testBit 16 = true
      ∧ (∀ j : Fin 16, s1.ctx.slot (SLOT_RAX + j.val) = s.ctx.slot (SLOT_RAX + j.val))
      ∧ (∀ i, i ≠ SLOT_EFLAGS → i ≠ SLOT_RIP → s1.ctx.slot i = s.ctx.slot i)
      ∧ s1.mem = s.mem
      ∧ s1.ctx.Rip = (s.ctx.Rip + instr.length) % 2 ^ 64 := by
  simp only [SkipToNext, Outcome.ret.injEq, true_and] at h
  subst h
  have hother : ∀ i, i ≠ SLOT_EFLAGS → i ≠ SLOT_RIP →
      ((s.setEFlags (v ||| 0x10000)).ctx.set SLOT_RIP
        (wrapAdd (s.setEFlags (v ||| 0x10000)).ctx.Rip instr.length)).slot i = s.ctx.slot i := by
    intro i hi hir
    simp only [CONTEXT.slot_set, State.setEFlags_ctx, CONTEXT.setEFlags]
    rw [if_neg hir, if_neg hi]
  refine ⟨?_, ?_, hother, rfl, ?_⟩
  · show Nat.testBit (CONTEXT.EFlags _) 16 = true
    rw [CONTEXT.EFlags_set_of_ne _ _ _ (by decide), State.setEFlags_ctx,
      CONTEXT.EFlags_setEFlags, Nat.testBit_mod_two_pow, Nat.testBit_or]
    have h16 : Nat.testBit 0x10000 16 = true := by decide
    simp [h16]
  · intro j
    have hj := j.isLt
    exact hother _ (by simp only [SLOT_RAX, SLOT_EFLAGS]; omega)
      (by simp only [SLOT_RAX, SLOT_RIP]; omega)
  · show ((s.setEFlags (v ||| 0x10000)).ctx.set SLOT_RIP
        (wrapAdd (s.setEFlags (v ||| 0x10000)).ctx.Rip instr.length)).Rip = _
    have hrip : (s.setEFlags (v ||| 0x10000)).ctx.Rip = s.ctx.Rip := by
      simp [CONTEXT.Rip, CONTEXT.setEFlags, SLOT_RIP, SLOT_EFLAGS]
    rw [hrip]
    simp [CONTEXT.Rip, wrapAdd]

/-- C20 — `TEST` sets bit 16 of `EFlags`. For a decoded `TEST`: whenever
`EmulateRead` (or `MemoryRead::Parse`) returns true, bit 16 (`0x10000`) of `EFlags`
is set in the post-state, all sixteen general-purpose registers and every other
slot of the context except `Rip` are unchanged, host memory is unchanged, and
`Rip` has advanced by the instruction length. The emulation does return true on
each supported shape: memory with a general-purpose register in either operand
order (widths 8, 16, 32, 64), and memory with an immediate in either order when
the element size is 8, 16, 32 or 64. -/
theorem C20_test_sets_bit16 (env : Collaborators) (instr : ZydisDecodedInstruction)
    (addr : Nat) (s s1 : State) (hm : instr.mnemonic = ZydisMnemonic.TEST) :
    (MemoryRead.EmulateRead instr addr s = .ret true s1 →
        s1.ctx.EFlags.testBit 16 = true
          ∧ (∀ j : Fin 16, s1.ctx.slot (SLOT_RAX + j.val) = s.ctx.slot (SLOT_RAX + j.val))
          ∧ (∀ i, i ≠ SLOT_EFLAGS → i ≠ SLOT_RIP → s1.ctx.slot i = s.ctx.slot i)
          ∧ s1.mem = s.mem
          ∧ s1.ctx.Rip = (s.ctx.Rip + instr.length) % 2 ^ 64)
      ∧ (MemoryRead.Parse env (some instr) addr s = .ret true s1 →
        s1.ctx.EFlags.testBit 16 = true
          ∧ (∀ j : Fin 16, s1.ctx.slot (SLOT_RAX + j.val) = s.ctx.slot (SLOT_RAX + j.val))
          ∧ (∀ i, i ≠ SLOT_EFLAGS → i ≠ SLOT_RIP → s1.ctx.slot i = s.ctx.slot i)
          ∧ s1.mem = s.mem
          ∧ s1.ctx.Rip = (s.ctx.Rip + instr.length) % 2 ^ 64)
      ∧ (instr.operand0.type = ZydisOperandType.MEMORY →
          instr.operand1.type = ZydisOperandType.REGISTER →
          classBits (ZydisRegisterGetClass instr.operand1.reg) ≠ 0 →
          ∃ s2, MemoryRead.EmulateRead instr addr s = .ret true s2)
      ∧ (instr.operand1.type = ZydisOperandType.MEMORY →
          instr.operand0.type = ZydisOperandType.REGISTER →
          classBits (ZydisRegisterGetClass instr.operand0.reg) ≠ 0 →
          ∃ s2, MemoryRead.EmulateRead instr addr s = .ret true s2)
      ∧ (instr.operand1.type = ZydisOperandType.MEMORY →
          instr.operand0.type = ZydisOperandType.IMMEDIATE →
          instr.operand1.element_size ∈ [8, 16, 32, 64] →
          ∃ s2, MemoryRead.EmulateRead instr addr s = .ret true s2)
      ∧ (instr.operand1.type = ZydisOperandType.IMMEDIATE →
          instr.operand0.type = ZydisOperandType.MEMORY →
          instr.operand0.element_size ∈ [8, 16, 32, 64] →
          ∃ s2, MemoryRead.EmulateRead instr addr s = .ret true s2) := by
  have key : ∀ p, MemoryRead.EmulateRead instr p s = .ret true s1 →
      s1.ctx.EFlags.testBit 16 = true
        ∧ (∀ j : Fin 16, s1.ctx.slot (SLOT_RAX + j.val) = s.ctx.slot (SLOT_RAX + j.val))
        ∧ (∀ i, i ≠ SLOT_EFLAGS → i ≠ SLOT_RIP → s1.ctx.slot i = s.ctx.slot i)
        ∧ s1.mem = s.mem
        ∧ s1.ctx.Rip = (s.ctx.Rip + instr.length) % 2 ^ 64 := by
    intro p hp
    rcases MemoryRead.EmulateRead_TEST_shape instr p s hm with h | ⟨v, h⟩
    · rw [h] at hp
      cases hp
    · rw [h] at hp
      exact test_post instr s s1 v hp
  refine ⟨key addr, ?_, ?_, ?_, ?_, ?_⟩
  · intro hp
    unfold MemoryRead.Parse at hp
    simp only [] at hp
    split at hp
    · exact key _ hp
    · split at hp
      · exact key _ hp
      · split at hp <;> cases hp
  · intro h0 h1 hc
    unfold MemoryRead.EmulateRead
    simp only [hm, h0, h1, and_self, if_true]
    exact Outcome.andThen_skip_returns instr (InstrEmu.EmulateTestSourcePtr_returns s _ addr hc)
  · intro h1 h0 hc
    unfold MemoryRead.EmulateRead
    simp only [hm, h0, h1, and_self, if_true, reduceCtorEq, false_and, if_false]
    exact Outcome.andThen_skip_returns instr (InstrEmu.EmulateTestDestPtr_returns s _ addr hc)
  · intro h1 h0 hc
    unfold MemoryRead.EmulateRead
    simp only [hm, h0, h1, and_self, if_true, reduceCtorEq, false_and, and_false, if_false]
    exact Outcome.andThen_skip_returns instr (InstrEmu.EmulateTestImm_returns s _ addr _ hc)
  · intro h1 h0 hc
    unfold MemoryRead.EmulateRead
    simp only [hm, h0, h1, and_self, if_true, reduceCtorEq, false_and, and_false, if_false]
    exact Outcome.andThen_skip_returns instr (InstrEmu.EmulateTestImm_returns s _ addr _ hc)

/-- C20, exercised on `test dword ptr [G], eax` with `Rax = 0x44332211`: the read is
emulated and bit 16 of `EFlags` is set afterwards. -/
theorem C20_test_sets_bit16_witness :
    testMemEaxInstr.mnemonic = ZydisMnemonic.TEST
      ∧ MemoryRead.EmulateRead testMemEaxInstr 0x7FFE0020 (raxState 0x44332211)
          = .ret true
              (MemoryRead.EmulateRead testMemEaxInstr 0x7FFE0020 (raxState 0x44332211)).state
      ∧ (MemoryRead.EmulateRead testMemEaxInstr 0x7FFE0020
            (raxState 0x44332211)).state.ctx.EFlags.testBit 16 = true
      ∧ (MemoryRead.EmulateRead testMemEaxInstr 0x7FFE0020
            (raxState 0x44332211)).state.ctx.Rax = 0x44332211 :=
  ⟨rfl, by rfl,
    ((C20_test_sets_bit16 emptyEnv testMemEaxInstr 0x7FFE0020 (raxState 0x44332211)
      (MemoryRead.EmulateRead testMemEaxInstr 0x7FFE0020 (raxState 0x44332211)).state rfl).1
      (by rfl)).1,
    by decide⟩

/-! ## Slices under bitwise operations -/

theorem testBit_of_lt {m k i : Nat} (hm : m < 2 ^ k) (hi : k ≤ i) : m.testBit i = false :=
  Nat.testBit_lt_two_pow (Nat.lt_of_lt_of_le hm (Nat.pow_le_pow_right (by norm_num) hi))

/-- The low `k` bits of `op P m` are `op` of the low `k` bits of `P` with `m`, for a
bitwise `op` and `m` below `2^k`. -/
theorem op_mod (op : Nat → Nat → Nat) (f : Bool → Bool → Bool)
    (hop : ∀ a b i, (op a b).testBit i = f (a.testBit i) (b.testBit i))
    (hff : f false false = false) (P m k : Nat) (hm : m < 2 ^ k) :
    (op P m) % 2 ^ k = op (P % 2 ^ k) m := by
  apply Nat.eq_of_testBit_eq
  intro i
  rw [Nat.testBit_mod_two_pow, hop, hop, Nat.testBit_mod_two_pow]
  by_cases hi : i < k
  · simp [hi]
  · rw [testBit_of_lt hm (by omega)]
    simp [hi, hff]

/-- The bits of `P` from `k` upwards survive `op P m` when `op` has `false` as right
unit and `m` is below `2^k`. -/
theorem op_div (op : Nat → Nat → Nat) (f : Bool → Bool → Bool)
    (hop : ∀ a b i, (op a b).testBit i = f (a.testBit i) (b.testBit i))
    (hf0 : ∀ x, f x false = x) (P m k : Nat) (hm : m < 2 ^ k) :
    (op P m) / 2 ^ k = P / 2 ^ k := by
  rw [← Nat.shiftRight_eq_div_pow, ← Nat.shiftRight_eq_div_pow]
  apply Nat.eq_of_testBit_eq
  intro i
  rw [Nat.testBit_shiftRight, Nat.testBit_shiftRight, hop, testBit_of_lt hm (by omega), hf0]

theorem op_shift_mid (op : Nat → Nat → Nat) (f : Bool → Bool → Bool)
    (hop : ∀ a b i, (op a b).testBit i = f (a.testBit i) (b.testBit i))
    (hff : f false false = false) (P m : Nat) (hm : m < 2 ^ 8) :
    (op P (m <<< 8)) / 2 ^ 8 % 2 ^ 8 = op (P / 2 ^ 8 % 2 ^ 8) m := by
  rw [← Nat.shiftRight_eq_div_pow, ← Nat.shiftRight_eq_div_pow]
  apply Nat.eq_of_testBit_eq
  intro i
  rw [Nat.testBit_mod_two_pow, Nat.testBit_shiftRight, hop, hop, Nat.testBit_mod_two_pow,
    Nat.testBit_shiftRight, Nat.testBit_shiftLeft]
  by_cases hi : i < 8
  · have : 8 + i - 8 = i := by omega
    simp [hi, this]
  · rw [testBit_of_lt hm (show 8 ≤ i by omega)]
    simp [hi, hff]

theorem op_shift_low (op : Nat → Nat → Nat) (f : Bool → Bool → Bool)
    (hop : ∀ a b i, (op a b).testBit i = f (a.testBit i) (b.testBit i))
    (hf0 : ∀ x, f x false = x) (P m : Nat) :
    (op P (m <<< 8)) % 2 ^ 8 = P % 2 ^ 8 := by
  apply Nat.eq_of_testBit_eq
  intro i
  rw [Nat.testBit_mod_two_pow, Nat.testBit_mod_two_pow, hop, Nat.testBit_shiftLeft]
  by_cases hi : i < 8
  · have : ¬ (i ≥ 8) := by omega
    simp [hi, this, hf0]
  · simp [hi]

theorem op_shift_high (op : Nat → Nat → Nat) (f : Bool → Bool → Bool)
    (hop : ∀ a b i, (op a b).testBit i = f (a.testBit i) (b.testBit i))
    (hf0 : ∀ x, f x false = x) (P m : Nat) (hm : m < 2 ^ 8) :
    (op P (m <<< 8)) / 2 ^ 16 = P / 2 ^ 16 := by
  rw [← Nat.shiftRight_eq_div_pow, ← Nat.shiftRight_eq_div_pow]
  apply Nat.eq_of_testBit_eq
  intro i
  rw [Nat.testBit_shiftRight, Nat.testBit_shiftRight, hop, Nat.testBit_shiftLeft,
    testBit_of_lt hm (show 8 ≤ 16 + i - 8 by omega)]
  simp [hf0]

theorem gpr_slot_ne_rip (id : Fin 16) : SLOT_RAX + id.val ≠ SLOT_RIP :=
  fun h => slot_rax_add_ne_rip id h.symm

theorem readLE_lt_two_pow (mem : Memory) (p : Nat) :
    readLE mem p 1 < 2 ^ 8 ∧ readLE mem p 2 < 2 ^ 16 ∧ readLE mem p 4 < 2 ^ 32
      ∧ readLE mem p 8 < 2 ^ 64 := by
  refine ⟨?_, ?_, ?_, ?_⟩
  · exact lt_of_lt_of_eq (readLE_lt mem 1 p) (by norm_num)
  · exact lt_of_lt_of_eq (readLE_lt mem 2 p) (by norm_num)
  · exact lt_of_lt_of_eq (readLE_lt mem 4 p) (by norm_num)
  · exact lt_of_lt_of_eq (readLE_lt mem 8 p) (by norm_num)

/-- The read-side `OR` dispatch of `EmulateRead`. -/
theorem MemoryRead.EmulateRead_OR (instr : ZydisDecodedInstruction) (addr : Nat) (s : State)
    (hm : instr.mnemonic = ZydisMnemonic.OR)
    (ht : instr.operand0.type = ZydisOperandType.REGISTER) :
    EmulateRead instr addr s
      = (InstrEmu.ReadPtr.EmulateOR s instr.operand0.reg addr).andThen
          fun _ s1 => SkipToNext instr s1 := by
  unfold EmulateRead
  simp only [hm, ht, if_true]

/-- The read-side `XOR` dispatch of `EmulateRead`. -/
theorem MemoryRead.EmulateRead_XOR (instr : ZydisDecodedInstruction) (addr : Nat) (s : State)
    (hm : instr.mnemonic = ZydisMnemonic.XOR)
    (ht : instr.operand0.type = ZydisOperandType.REGISTER) :
    EmulateRead instr addr s
      = (InstrEmu.ReadPtr.EmulateXOR s instr.operand0.reg addr).andThen
          fun _ s1 => SkipToNext instr s1 := by
  unfold EmulateRead
  simp only [hm, ht, if_true]

/-- The read-side `AND` dispatch of `EmulateRead`. -/
theorem MemoryRead.EmulateRead_AND (instr : ZydisDecodedInstruction) (addr : Nat) (s : State)
    (hm : instr.mnemonic = ZydisMnemonic.AND)
    (ht : instr.operand0.type = ZydisOperandType.REGISTER) :
    EmulateRead instr addr s
      = (InstrEmu.ReadPtr.EmulateAND s instr.operand0.reg addr).andThen
          fun _ s1 => SkipToNext instr s1 := by
  unfold EmulateRead
  simp only [hm, ht, if_true]

/-- The read-side `SUB` dispatch of `EmulateRead`. -/
theorem MemoryRead.EmulateRead_SUB (instr : ZydisDecodedInstruction) (addr : Nat) (s : State)
    (hm : instr.mnemonic = ZydisMnemonic.SUB)
    (ht : instr.operand0.type = ZydisOperandType.REGISTER) :
    EmulateRead instr addr s
      = (InstrEmu.ReadPtr.EmulateSUB s instr.operand0.reg addr).andThen
          fun _ s1 => SkipToNext instr s1 := by
  unfold EmulateRead
  simp only [hm, ht, if_true]

/-- The read-side `ADD` dispatch of `EmulateRead`. -/
theorem MemoryRead.EmulateRead_ADD (instr : ZydisDecodedInstruction) (addr : Nat) (s : State)
    (hm : instr.mnemonic = ZydisMnemonic.ADD)
    (ht : instr.operand0.type = ZydisOperandType.REGISTER) :
    EmulateRead instr addr s
      = (InstrEmu.ReadPtr.EmulateADD s instr.operand0.reg addr).andThen
          fun _ s1 => SkipToNext instr s1 := by
  unfold EmulateRead
  simp only [hm, ht, if_true]

/-- The `MOVZX` dispatch of `EmulateRead`. -/
theorem MemoryRead.EmulateRead_MOVZX (instr : ZydisDecodedInstruction) (addr : Nat) (s : State)
    (hm : instr.mnemonic = ZydisMnemonic.MOVZX)
    (ht : instr.operand0.type = ZydisOperandType.REGISTER)
    (ht1 : instr.operand1.type = ZydisOperandType.MEMORY) :
    EmulateRead instr addr s
      = (InstrEmu.ReadPtr.EmulateMOVZX s instr.operand0.reg addr instr.operand1.size).andThen
          fun _ s1 => SkipToNext instr s1 := by
  unfold EmulateRead
  simp only [hm, ht, ht1, and_self, if_true]

/-- The `MOVSXD` dispatch of `EmulateRead`. -/
theorem MemoryRead.EmulateRead_MOVSXD (instr : ZydisDecodedInstruction) (addr : Nat) (s : State)
    (hm : instr.mnemonic = ZydisMnemonic.MOVSXD)
    (ht : instr.operand0.type = ZydisOperandType.REGISTER)
    (ht1 : instr.operand1.type = ZydisOperandType.MEMORY) :
    EmulateRead instr addr s
      = (InstrEmu.ReadPtr.EmulateMOVSX s instr.operand0.reg addr instr.operand1.size).andThen
          fun _ s1 => SkipToNext instr s1 := by
  unfold EmulateRead
  simp only [hm, ht, ht1, and_self, if_true]

/-! ## Runs of the read-side helpers, register kind by register kind -/

/-- What `ReadPtr::EmulateOR` stores, for each kind of general-purpose register. -/
theorem InstrEmu.ReadPtr.EmulateOR_run (s : State) (ptr : Nat) :
    (∀ id : Fin 16, EmulateOR s (.GPR64 id) ptr = .ret true
        (s.setSlot (SLOT_RAX + id.val) (s.ctx.slot (SLOT_RAX + id.val) ||| readLE s.mem ptr 8)))
      ∧ (∀ id : Fin 16, EmulateOR s (.GPR32 id) ptr = .ret true
        (s.setSlot (SLOT_RAX + id.val) ((s.ctx.slot (SLOT_RAX + id.val) % 2 ^ 32) ||| readLE s.mem ptr 4)))
      ∧ (∀ id : Fin 16, EmulateOR s (.GPR16 id) ptr = .ret true
        (s.setSlot (SLOT_RAX + id.val) (s.ctx.slot (SLOT_RAX + id.val) ||| readLE s.mem ptr 2)))
      ∧ (∀ id : Fin 20, isHighByte (.GPR8 id) = false → EmulateOR s (.GPR8 id) ptr = .ret true
        (s.setSlot (SLOT_RAX + (GPR8_MAPPING id).val) (s.ctx.slot (SLOT_RAX + (GPR8_MAPPING id).val) ||| readLE s.mem ptr 1)))
      ∧ (∀ id : Fin 20, isHighByte (.GPR8 id) = true → EmulateOR s (.GPR8 id) ptr = .ret true
        (s.setSlot (SLOT_RAX + (GPR8_MAPPING id).val)
          (s.ctx.slot (SLOT_RAX + (GPR8_MAPPING id).val) ||| (readLE s.mem ptr 1 <<< 8)))) := by
  refine ⟨?_, ?_, ?_, ?_, ?_⟩
  · intro id
    rfl
  · intro id
    simp only [EmulateOR, ZydisRegisterGetClass, GRegIndex_GPR32, and_mask32]
    rfl
  · intro id
    rfl
  · intro id h
    simp only [EmulateOR, ZydisRegisterGetClass, GRegIndex_GPR8, h, Bool.false_eq_true, if_false]
    rfl
  · intro id h
    simp only [EmulateOR, ZydisRegisterGetClass, GRegIndex_GPR8, h, if_true]
    rfl

/-- What `ReadPtr::EmulateXOR` stores, for each kind of general-purpose register. -/
theorem InstrEmu.ReadPtr.EmulateXOR_run (s : State) (ptr : Nat) :
    (∀ id : Fin 16, EmulateXOR s (.GPR64 id) ptr = .ret true
        (s.setSlot (SLOT_RAX + id.val) (s.ctx.slot (SLOT_RAX + id.val) ^^^ readLE s.mem ptr 8)))
      ∧ (∀ id : Fin 16, EmulateXOR s (.GPR32 id) ptr = .ret true
        (s.setSlot (SLOT_RAX + id.val) ((s.ctx.slot (SLOT_RAX + id.val) % 2 ^ 32) ^^^ readLE s.mem ptr 4)))
      ∧ (∀ id : Fin 16, EmulateXOR s (.GPR16 id) ptr = .ret true
        (s.setSlot (SLOT_RAX + id.val) (s.ctx.slot (SLOT_RAX + id.val) ^^^ readLE s.mem ptr 2)))
      ∧ (∀ id : Fin 20, isHighByte (.GPR8 id) = false → EmulateXOR s (.GPR8 id) ptr = .ret true
        (s.setSlot (SLOT_RAX + (GPR8_MAPPING id).val) (s.ctx.slot (SLOT_RAX + (GPR8_MAPPING id).val) ^^^ readLE s.mem ptr 1)))
      ∧ (∀ id : Fin 20, isHighByte (.GPR8 id) = true → EmulateXOR s (.GPR8 id) ptr = .ret true
        (s.setSlot (SLOT_RAX + (GPR8_MAPPING id).val)
          (s.ctx.slot (SLOT_RAX + (GPR8_MAPPING id).val) ^^^ (readLE s.mem ptr 1 <<< 8)))) := by
  refine ⟨?_, ?_, ?_, ?_, ?_⟩
  · intro id
    rfl
  · intro id
    simp only [EmulateXOR, ZydisRegisterGetClass, GRegIndex_GPR32, and_mask32]
    rfl
  · intro id
    rfl
  · intro id h
    simp only [EmulateXOR, ZydisRegisterGetClass, GRegIndex_GPR8, h, Bool.false_eq_true, if_false]
    rfl
  · intro id h
    simp only [EmulateXOR, ZydisRegisterGetClass, GRegIndex_GPR8, h, if_true]
    rfl

/-- What `ReadPtr::EmulateAND` stores, for each kind of general-purpose register. -/
theorem InstrEmu.ReadPtr.EmulateAND_run (s : State) (ptr : Nat) :
    (∀ id : Fin 16, EmulateAND s (.GPR64 id) ptr = .ret true
        (s.setSlot (SLOT_RAX + id.val) (s.ctx.slot (SLOT_RAX + id.val) &&& readLE s.mem ptr 8)))
      ∧ (∀ id : Fin 16, EmulateAND s (.GPR32 id) ptr = .ret true
        (s.setSlot (SLOT_RAX + id.val) ((s.ctx.slot (SLOT_RAX + id.val) % 2 ^ 32) &&& readLE s.mem ptr 4)))
      ∧ (∀ id : Fin 16, EmulateAND s (.GPR16 id) ptr = .ret true
        (s.setSlot (SLOT_RAX + id.val) (s.ctx.slot (SLOT_RAX + id.val) &&& readLE s.mem ptr 2)))
      ∧ (∀ id : Fin 20, isHighByte (.GPR8 id) = false → EmulateAND s (.GPR8 id) ptr = .ret true
        (s.setSlot (SLOT_RAX + (GPR8_MAPPING id).val) (s.ctx.slot (SLOT_RAX + (GPR8_MAPPING id).val) &&& readLE s.mem ptr 1)))
      ∧ (∀ id : Fin 20, isHighByte (.GPR8 id) = true → EmulateAND s (.GPR8 id) ptr = .ret true
        (s.setSlot (SLOT_RAX + (GPR8_MAPPING id).val)
          (s.ctx.slot (SLOT_RAX + (GPR8_MAPPING id).val) &&& (readLE s.mem ptr 1 <<< 8)))) := by
  refine ⟨?_, ?_, ?_, ?_, ?_⟩
  · intro id
    rfl
  · intro id
    simp only [EmulateAND, ZydisRegisterGetClass, GRegIndex_GPR32, and_mask32]
    rfl
  · intro id
    rfl
  · intro id h
    simp only [EmulateAND, ZydisRegisterGetClass, GRegIndex_GPR8, h, Bool.false_eq_true, if_false]
    rfl
  · intro id h
    simp only [EmulateAND, ZydisRegisterGetClass, GRegIndex_GPR8, h, if_true]
    rfl

/-- What `ReadPtr::EmulateADD` stores, for each kind of general-purpose register. -/
theorem InstrEmu.ReadPtr.EmulateADD_run (s : State) (ptr : Nat) :
    (∀ id : Fin 16, EmulateADD s (.GPR64 id) ptr = .ret true
        (s.setSlot (SLOT_RAX + id.val) (wrapAdd (s.ctx.slot (SLOT_RAX + id.val)) (readLE s.mem ptr 8))))
      ∧ (∀ id : Fin 16, EmulateADD s (.GPR32 id) ptr = .ret true
        (s.setSlot (SLOT_RAX + id.val) (wrapAdd (s.ctx.slot (SLOT_RAX + id.val) % 2 ^ 32) (readLE s.mem ptr 4))))
      ∧ (∀ id : Fin 16, EmulateADD s (.GPR16 id) ptr = .ret true
        (s.setSlot (SLOT_RAX + id.val) (wrapAdd (s.ctx.slot (SLOT_RAX + id.val)) (readLE s.mem ptr 2))))
      ∧ (∀ id : Fin 20, isHighByte (.GPR8 id) = false → EmulateADD s (.GPR8 id) ptr = .ret true
        (s.setSlot (SLOT_RAX + (GPR8_MAPPING id).val) (wrapAdd (s.ctx.slot (SLOT_RAX + (GPR8_MAPPING id).val)) (readLE s.mem ptr 1))))
      ∧ (∀ id : Fin 20, isHighByte (.GPR8 id) = true → EmulateADD s (.GPR8 id) ptr = .ret true
        (s.setSlot (SLOT_RAX + (GPR8_MAPPING id).val)
          (wrapAdd (s.ctx.slot (SLOT_RAX + (GPR8_MAPPING id).val)) (readLE s.mem ptr 1 <<< 8)))) := by
  refine ⟨?_, ?_, ?_, ?_, ?_⟩
  · intro id
    rfl
  · intro id
    simp only [EmulateADD, ZydisRegisterGetClass, GRegIndex_GPR32, and_mask32]
    rfl
  · intro id
    rfl
  · intro id h
    simp only [EmulateADD, ZydisRegisterGetClass, GRegIndex_GPR8, h, Bool.false_eq_true, if_false]
    rfl
  · intro id h
    simp only [EmulateADD, ZydisRegisterGetClass, GRegIndex_GPR8, h, if_true]
    rfl

/-- What `ReadPtr::EmulateSUB` stores, for each kind of general-purpose register. -/
theorem InstrEmu.ReadPtr.EmulateSUB_run (s : State) (ptr : Nat) :
    (∀ id : Fin 16, EmulateSUB s (.GPR64 id) ptr = .ret true
        (s.setSlot (SLOT_RAX + id.val) (wrapSub (s.ctx.slot (SLOT_RAX + id.val)) (readLE s.mem ptr 8))))
      ∧ (∀ id : Fin 16, EmulateSUB s (.GPR32 id) ptr = .ret true
        (s.setSlot (SLOT_RAX + id.val) (wrapSub (s.ctx.slot (SLOT_RAX + id.val) % 2 ^ 32) (readLE s.mem ptr 4))))
      ∧ (∀ id : Fin 16, EmulateSUB s (.GPR16 id) ptr = .ret true
        (s.setSlot (SLOT_RAX + id.val) (wrapSub (s.ctx.slot (SLOT_RAX + id.val)) (readLE s.mem ptr 2))))
      ∧ (∀ id : Fin 20, isHighByte (.GPR8 id) = false → EmulateSUB s (.GPR8 id) ptr = .ret true
        (s.setSlot (SLOT_RAX + (GPR8_MAPPING id).val) (wrapSub (s.ctx.slot (SLOT_RAX + (GPR8_MAPPING id).val)) (readLE s.mem ptr 1))))
      ∧ (∀ id : Fin 20, isHighByte (.GPR8 id) = true → EmulateSUB s (.GPR8 id) ptr = .ret true
        (s.setSlot (SLOT_RAX + (GPR8_MAPPING id).val)
          (wrapSub (s.ctx.slot (SLOT_RAX + (GPR8_MAPPING id).val)) (readLE s.mem ptr 1 <<< 8)))) := by
  refine ⟨?_, ?_, ?_, ?_, ?_⟩
  · intro id
    rfl
  · intro id
    simp only [EmulateSUB, ZydisRegisterGetClass, GRegIndex_GPR32, and_mask32]
    rfl
  · intro id
    rfl
  · intro id h
    simp only [EmulateSUB, ZydisRegisterGetClass, GRegIndex_GPR8, h, Bool.false_eq_true, if_false]
    rfl
  · intro id h
    simp only [EmulateSUB, ZydisRegisterGetClass, GRegIndex_GPR8, h, if_true]
    rfl

/-! ## Read-side `OR` and `XOR` -/

/-- C21 — read-side `OR` and `XOR` at every destination width. For a decoded `OR`
or `XOR` whose `operands[0]` is a register, `EmulateRead` succeeds, advances `Rip`
by the instruction length and changes nothing but the parent `P` of the
destination, which becomes: `P op m64` for a 64-bit destination; `P[31:0] op m32`,
a value below `2^32`, for a 32-bit destination; for a 16-bit destination a value
whose bits `[15:0]` are `P[15:0] op m16` and whose bits `[63:16]` are those of `P`;
for a low 8-bit destination a value whose bits `[7:0]` are `P[7:0] op m8` and whose
other bits are those of `P`; for `AH/CH/DH/BH` a value whose bits `[15:8]` are
`P[15:8] op m8` and whose bits `[7:0]` and `[63:16]` are those of `P`. -/
theorem C21_or_xor_read (instr : ZydisDecodedInstruction) (addr : Nat) (s : State)
    (hm : instr.mnemonic = ZydisMnemonic.OR ∨ instr.mnemonic = ZydisMnemonic.XOR)
    (ht : instr.operand0.type = ZydisOperandType.REGISTER) :
    (∀ id : Fin 16, instr.operand0.reg = .GPR64 id →
        StoresOnly s instr.length (SLOT_RAX + id.val)
          (bitOp instr.mnemonic (s.ctx.slot (SLOT_RAX + id.val)) (readLE s.mem addr 8))
          (MemoryRead.EmulateRead instr addr s))
      ∧ (∀ id : Fin 16, instr.operand0.reg = .GPR32 id →
        StoresOnly s instr.length (SLOT_RAX + id.val)
          (bitOp instr.mnemonic (s.ctx.slot (SLOT_RAX + id.val) % 2 ^ 32) (readLE s.mem addr 4))
          (MemoryRead.EmulateRead instr addr s)
        ∧ bitOp instr.mnemonic (s.ctx.slot (SLOT_RAX + id.val) % 2 ^ 32) (readLE s.mem addr 4)
            < 2 ^ 32)
      ∧ (∀ id : Fin 16, instr.operand0.reg = .GPR16 id →
        ∃ v, StoresOnly s instr.length (SLOT_RAX + id.val) v (MemoryRead.EmulateRead instr addr s)
          ∧ v % 2 ^ 16
              = bitOp instr.mnemonic (s.ctx.slot (SLOT_RAX + id.val) % 2 ^ 16) (readLE s.mem addr 2)
          ∧ v / 2 ^ 16 = s.ctx.slot (SLOT_RAX + id.val) / 2 ^ 16)
      ∧ (∀ id : Fin 20, instr.operand0.reg = .GPR8 id → id.val < 4 ∨ 8 ≤ id.val →
        ∃ v, StoresOnly s instr.length (SLOT_RAX + (GPR8_MAPPING id).val) v
            (MemoryRead.EmulateRead instr addr s)
          ∧ v % 2 ^ 8
              = bitOp instr.mnemonic (s.ctx.slot (SLOT_RAX + (GPR8_MAPPING id).val) % 2 ^ 8)
                  (readLE s.mem addr 1)
          ∧ v / 2 ^ 8 = s.ctx.slot (SLOT_RAX + (GPR8_MAPPING id).val) / 2 ^ 8)
      ∧ (∀ id : Fin 20, instr.operand0.reg = .GPR8 id → 4 ≤ id.val ∧ id.val < 8 →
        ∃ v, StoresOnly s instr.length (SLOT_RAX + (GPR8_MAPPING id).val) v
            (MemoryRead.EmulateRead instr addr s)
          ∧ v / 2 ^ 8 % 2 ^ 8
              = bitOp instr.mnemonic (s.ctx.slot (SLOT_RAX + (GPR8_MAPPING id).val) / 2 ^ 8 % 2 ^ 8)
                  (readLE s.mem addr 1)
          ∧ v % 2 ^ 8 = s.ctx.slot (SLOT_RAX + (GPR8_MAPPING id).val) % 2 ^ 8
          ∧ v / 2 ^ 16 = s.ctx.slot (SLOT_RAX + (GPR8_MAPPING id).val) / 2 ^ 16) := by
  have hb := readLE_lt_two_pow s.mem addr
  have hor : ∀ a b i, (bitOp .OR a b).testBit i = (fun x y => x || y) (a.testBit i) (b.testBit i) :=
    fun a b i => Nat.testBit_or a b i
  have hxor : ∀ a b i,
      (bitOp .XOR a b).testBit i = (fun x y => Bool.xor x y) (a.testBit i) (b.testBit i) :=
    fun a b i => Nat.testBit_xor a b i
  have hlow : ∀ id : Fin 20, id.val < 4 ∨ 8 ≤ id.val → isHighByte (.GPR8 id) = false := by
    intro id h
    rw [isHighByte_GPR8]
    simp only [decide_eq_false_iff_not]
    omega
  have hhigh : ∀ id : Fin 20, 4 ≤ id.val ∧ id.val < 8 → isHighByte (.GPR8 id) = true := by
    intro id h
    rw [isHighByte_GPR8]
    simpa using h
  rcases hm with hm | hm
  · have hE := MemoryRead.EmulateRead_OR instr addr s hm ht
    have hR := InstrEmu.ReadPtr.EmulateOR_run s addr
    rw [hm]
    refine ⟨?_, ?_, ?_, ?_, ?_⟩
    · intro id hreg
      rw [hE, hreg, hR.1 id]
      exact StoresOnly.of_skip instr s _ _ (gpr_slot_ne_rip id)
    · intro id hreg
      rw [hE, hreg, hR.2.1 id]
      exact ⟨StoresOnly.of_skip instr s _ _ (gpr_slot_ne_rip id),
        Nat.or_lt_two_pow (Nat.mod_lt _ (by norm_num)) hb.2.2.1⟩
    · intro id hreg
      rw [hE, hreg, hR.2.2.1 id]
      exact ⟨_, StoresOnly.of_skip instr s _ _ (gpr_slot_ne_rip id),
        op_mod _ _ hor rfl _ _ 16 hb.2.1, op_div _ _ hor (by simp) _ _ 16 hb.2.1⟩
    · intro id hreg hid
      rw [hE, hreg, hR.2.2.2.1 id (hlow id hid)]
      exact ⟨_, StoresOnly.of_skip instr s _ _ (gpr_slot_ne_rip _),
        op_mod _ _ hor rfl _ _ 8 hb.1, op_div _ _ hor (by simp) _ _ 8 hb.1⟩
    · intro id hreg hid
      rw [hE, hreg, hR.2.2.2.2 id (hhigh id hid)]
      exact ⟨_, StoresOnly.of_skip instr s _ _ (gpr_slot_ne_rip _),
        op_shift_mid _ _ hor rfl _ _ hb.1, op_shift_low _ _ hor (by simp) _ _,
        op_shift_high _ _ hor (by simp) _ _ hb.1⟩
  · have hE := MemoryRead.EmulateRead_XOR instr addr s hm ht
    have hR := InstrEmu.ReadPtr.EmulateXOR_run s addr
    rw [hm]
    refine ⟨?_, ?_, ?_, ?_, ?_⟩
    · intro id hreg
      rw [hE, hreg, hR.1 id]
      exact StoresOnly.of_skip instr s _ _ (gpr_slot_ne_rip id)
    · intro id hreg
      rw [hE, hreg, hR.2.1 id]
      exact ⟨StoresOnly.of_skip instr s _ _ (gpr_slot_ne_rip id),
        Nat.xor_lt_two_pow (Nat.mod_lt _ (by norm_num)) hb.2.2.1⟩
    · intro id hreg
      rw [hE, hreg, hR.2.2.1 id]
      exact ⟨_, StoresOnly.of_skip instr s _ _ (gpr_slot_ne_rip id),
        op_mod _ _ hxor rfl _ _ 16 hb.2.1, op_div _ _ hxor (by simp) _ _ 16 hb.2.1⟩
    · intro id hreg hid
      rw [hE, hreg, hR.2.2.2.1 id (hlow id hid)]
      exact ⟨_, StoresOnly.of_skip instr s _ _ (gpr_slot_ne_rip _),
        op_mod _ _ hxor rfl _ _ 8 hb.1, op_div _ _ hxor (by simp) _ _ 8 hb.1⟩
    · intro id hreg hid
      rw [hE, hreg, hR.2.2.2.2 id (hhigh id hid)]
      exact ⟨_, StoresOnly.of_skip instr s _ _ (gpr_slot_ne_rip _),
        op_shift_mid _ _ hxor rfl _ _ hb.1, op_shift_low _ _ hxor (by simp) _ _,
        op_shift_high _ _ hxor (by simp) _ _ hb.1⟩

/-- C21, exercised at host address `0x7FFE0020` (bytes `11 22 …`) with
`Rax = 0xDEADBEEFCAFEBABE`: `or ax, [G]` leaves `Rax = 0xDEADBEEFCAFEBABF` and
`xor ah, [G]` leaves `Rax = 0xDEADBEEFCAFEABBE`. -/
theorem C21_or_xor_read_witness :
    (orAxInstr.mnemonic = ZydisMnemonic.OR ∨ orAxInstr.mnemonic = ZydisMnemonic.XOR)
      ∧ orAxInstr.operand0.type = ZydisOperandType.REGISTER
      ∧ (∃ v, StoresOnly (raxState 0xDEADBEEFCAFEBABE) orAxInstr.length
            (SLOT_RAX + (0 : Fin 16).val) v
            (MemoryRead.EmulateRead orAxInstr 0x7FFE0020 (raxState 0xDEADBEEFCAFEBABE))
          ∧ v % 2 ^ 16
              = bitOp orAxInstr.mnemonic
                  ((raxState 0xDEADBEEFCAFEBABE).ctx.slot (SLOT_RAX + (0 : Fin 16).val) % 2 ^ 16)
                  (readLE (raxState 0xDEADBEEFCAFEBABE).mem 0x7FFE0020 2)
          ∧ v / 2 ^ 16
              = (raxState 0xDEADBEEFCAFEBABE).ctx.slot (SLOT_RAX + (0 : Fin 16).val) / 2 ^ 16)
      ∧ (MemoryRead.EmulateRead orAxInstr 0x7FFE0020 (raxState 0xDEADBEEFCAFEBABE)).state.ctx.Rax
          = 0xDEADBEEFCAFEBABF
      ∧ (MemoryRead.EmulateRead xorAhInstr 0x7FFE0020 (raxState 0xDEADBEEFCAFEBABE)).state.ctx.Rax
          = 0xDEADBEEFCAFEABBE :=
  ⟨Or.inl rfl, rfl,
    (C21_or_xor_read orAxInstr 0x7FFE0020 (raxState 0xDEADBEEFCAFEBABE) (Or.inl rfl) rfl).2.2.1
      0 rfl,
    by decide, by decide⟩

/-! ## Read-side `AND` at 16 and 8 bits -/

/-- C22 — read-side `AND` with a 16-bit or 8-bit destination does not mask-merge.
For every pre-state and memory content, `and r16, [addr]` and `and r8, [addr]`
succeed and leave the parent register equal to `P & m16`, respectively `P & m8` or
`P & (m8 << 8)`: bits `[63:16]` of the parent are zero afterwards, whatever they
were before. At host address `0x7FFE0020` (bytes `11 22 …`) with
`Rax = 0xDEADBEEFCAFEBABE`: `and ax, [G]` leaves `Rax = 0x2210`, not
`0xDEADBEEFCAFE2210`; `and al, [G]` leaves `0x10`, not `0xDEADBEEFCAFEBA10`;
`and ah, [G]` leaves `0x1000`, not `0xDEADBEEFCAFE10BE`. -/
theorem C22_and_parent_cleared (s : State) (addr : Nat) :
    (∀ id : Fin 16, ∃ s1,
        MemoryRead.EmulateRead (regMemInstr .AND (.GPR16 id) 16 16) addr s = .ret true s1
          ∧ s1.ctx.slot (SLOT_RAX + id.val)
              = s.ctx.slot (SLOT_RAX + id.val) &&& readLE s.mem addr 2
          ∧ s1.ctx.slot (SLOT_RAX + id.val) / 2 ^ 16 = 0)
      ∧ (∀ id : Fin 20, ∃ s1,
        MemoryRead.EmulateRead (regMemInstr .AND (.GPR8 id) 8 8) addr s = .ret true s1
          ∧ s1.ctx.slot (SLOT_RAX + (GPR8_MAPPING id).val)
              = s.ctx.slot (SLOT_RAX + (GPR8_MAPPING id).val)
                  &&& (if isHighByte (.GPR8 id) then readLE s.mem addr 1 <<< 8
                        else readLE s.mem addr 1)
          ∧ s1.ctx.slot (SLOT_RAX + (GPR8_MAPPING id).val) / 2 ^ 16 = 0)
      ∧ (MemoryRead.EmulateRead andAxInstr 0x7FFE0020 (raxState 0xDEADBEEFCAFEBABE)).state.ctx.Rax
          = 0x2210
      ∧ (MemoryRead.EmulateRead andAlInstr 0x7FFE0020 (raxState 0xDEADBEEFCAFEBABE)).state.ctx.Rax
          = 0x10
      ∧ (MemoryRead.EmulateRead andAhInstr 0x7FFE0020 (raxState 0xDEADBEEFCAFEBABE)).state.ctx.Rax
          = 0x1000 := by
  have hb := readLE_lt_two_pow s.mem addr
  have hR := InstrEmu.ReadPtr.EmulateAND_run s addr
  have hsmall : ∀ P m : Nat, m < 2 ^ 16 → (P &&& m) / 2 ^ 16 = 0 := by
    intro P m hm
    exact Nat.div_eq_of_lt (lt_of_le_of_lt Nat.and_le_right hm)
  refine ⟨?_, ?_, by decide, by decide, by decide⟩
  · intro id
    have hE := MemoryRead.EmulateRead_AND (regMemInstr .AND (.GPR16 id) 16 16) addr s rfl rfl
    have hreg : (regMemInstr .AND (.GPR16 id) 16 16).operand0.reg = .GPR16 id := rfl
    rw [hE, hreg, hR.2.2.1 id]
    obtain ⟨s1, h1, h2, -⟩ := StoresOnly.of_skip (regMemInstr .AND (.GPR16 id) 16 16) s
      (SLOT_RAX + id.val) (s.ctx.slot (SLOT_RAX + id.val) &&& readLE s.mem addr 2)
      (gpr_slot_ne_rip id)
    refine ⟨s1, h1, h2, ?_⟩
    rw [h2]
    exact hsmall _ _ hb.2.1
  · intro id
    have hE := MemoryRead.EmulateRead_AND (regMemInstr .AND (.GPR8 id) 8 8) addr s rfl rfl
    have hreg : (regMemInstr .AND (.GPR8 id) 8 8).operand0.reg = .GPR8 id := rfl
    by_cases hh : isHighByte (.GPR8 id) = true
    · rw [hE, hreg, hR.2.2.2.2 id hh, if_pos hh]
      obtain ⟨s1, h1, h2, -⟩ := StoresOnly.of_skip (regMemInstr .AND (.GPR8 id) 8 8) s
        (SLOT_RAX + (GPR8_MAPPING id).val)
        (s.ctx.slot (SLOT_RAX + (GPR8_MAPPING id).val) &&& (readLE s.mem addr 1 <<< 8))
        (gpr_slot_ne_rip _)
      refine ⟨s1, h1, h2, ?_⟩
      rw [h2]
      apply hsmall
      have := hb.1
      rw [Nat.shiftLeft_eq]
      omega
    · have hh2 : isHighByte (.GPR8 id) = false := by simpa using hh
      rw [hE, hreg, hR.2.2.2.1 id hh2, if_neg hh]
      obtain ⟨s1, h1, h2, -⟩ := StoresOnly.of_skip (regMemInstr .AND (.GPR8 id) 8 8) s
        (SLOT_RAX + (GPR8_MAPPING id).val)
        (s.ctx.slot (SLOT_RAX + (GPR8_MAPPING id).val) &&& readLE s.mem addr 1)
        (gpr_slot_ne_rip _)
      refine ⟨s1, h1, h2, ?_⟩
      rw [h2]
      apply hsmall
      have := hb.1
      omega

/-! ## Read-side `ADD` and `SUB` -/

/-- What `ReadRegisterValue` returns, for each kind of general-purpose register. -/
theorem ReadRegisterValue_run (c : CONTEXT) :
    (∀ id : Fin 16, ReadRegisterValue c (.GPR64 id) = some (c.slot (SLOT_RAX + id.val)))
      ∧ (∀ id : Fin 16,
        ReadRegisterValue c (.GPR32 id) = some (c.slot (SLOT_RAX + id.val) % 2 ^ 32))
      ∧ (∀ id : Fin 16,
        ReadRegisterValue c (.GPR16 id) = some (c.slot (SLOT_RAX + id.val) % 2 ^ 16))
      ∧ (∀ id : Fin 20, isHighByte (.GPR8 id) = false →
        ReadRegisterValue c (.GPR8 id)
          = some (c.slot (SLOT_RAX + (GPR8_MAPPING id).val) % 2 ^ 8))
      ∧ (∀ id : Fin 20, isHighByte (.GPR8 id) = true →
        ReadRegisterValue c (.GPR8 id)
          = some (c.slot (SLOT_RAX + (GPR8_MAPPING id).val) / 256 % 256)) := by
  refine ⟨?_, ?_, ?_, ?_, ?_⟩
  · intro id
    rfl
  · intro id
    simp only [ReadRegisterValue, ZydisRegisterGetClass, GRegIndex_GPR32, and_mask32]
  · intro id
    simp only [ReadRegisterValue, ZydisRegisterGetClass, GRegIndex_GPR16, and_mask16]
  · intro id h
    simp only [ReadRegisterValue, ZydisRegisterGetClass, GRegIndex_GPR8, h, Bool.false_eq_true,
      if_false, and_mask8]
  · intro id h
    simp only [ReadRegisterValue, ZydisRegisterGetClass, GRegIndex_GPR8, h, if_true, high_byte]

/-- C23 — read-side `ADD` and `SUB` compute the right value in the destination
slice. For a decoded `ADD` or `SUB` whose `operands[0]` is a general-purpose
register of width `w` (64, 32, 16 or 8, the latter including `AH/CH/DH/BH`),
`EmulateRead` succeeds, and the destination read through `ReadRegisterValue` after
the call equals its value before the call plus, respectively minus, the `w`-bit
little-endian memory value, reduced modulo `2^w`. -/
theorem C23_add_sub_value (instr : ZydisDecodedInstruction) (addr : Nat) (s : State)
    (hm : instr.mnemonic = ZydisMnemonic.ADD ∨ instr.mnemonic = ZydisMnemonic.SUB)
    (ht : instr.operand0.type = ZydisOperandType.REGISTER)
    (hc : classBits (ZydisRegisterGetClass instr.operand0.reg) ≠ 0) :
    ∃ s1 before after,
      MemoryRead.EmulateRead instr addr s = .ret true s1
        ∧ ReadRegisterValue s.ctx instr.operand0.reg = some before
        ∧ ReadRegisterValue s1.ctx instr.operand0.reg = some after
        ∧ (after : Int)
            = arithOp instr.mnemonic before
                (readLE s.mem addr (classBits (ZydisRegisterGetClass instr.operand0.reg) / 8))
              % 2 ^ classBits (ZydisRegisterGetClass instr.operand0.reg) := by
  have hb := readLE_lt_two_pow s.mem addr
  have hA := InstrEmu.ReadPtr.EmulateADD_run s addr
  have hS := InstrEmu.ReadPtr.EmulateSUB_run s addr
  have hEA := MemoryRead.EmulateRead_ADD instr addr s
  have hES := MemoryRead.EmulateRead_SUB instr addr s
  cases hreg : instr.operand0.reg with
  | GPR64 id =>
    rcases hm with hm | hm
    · rw [hEA hm ht, hreg, hA.1 id]
      obtain ⟨s1, h1, h2, -⟩ := StoresOnly.of_skip instr s (SLOT_RAX + id.val)
        (wrapAdd (s.ctx.slot (SLOT_RAX + id.val)) (readLE s.mem addr 8)) (gpr_slot_ne_rip id)
      refine ⟨s1, _, _, h1, (ReadRegisterValue_run s.ctx).1 id,
        (ReadRegisterValue_run s1.ctx).1 id, ?_⟩
      rw [h2, hm]
      simp only [arithOp, classBits, ZydisRegisterGetClass, wrapAdd, Nat.reduceDiv]
      omega
    · rw [hES hm ht, hreg, hS.1 id]
      obtain ⟨s1, h1, h2, -⟩ := StoresOnly.of_skip instr s (SLOT_RAX + id.val)
        (wrapSub (s.ctx.slot (SLOT_RAX + id.val)) (readLE s.mem addr 8)) (gpr_slot_ne_rip id)
      refine ⟨s1, _, _, h1, (ReadRegisterValue_run s.ctx).1 id,
        (ReadRegisterValue_run s1.ctx).1 id, ?_⟩
      rw [h2, hm]
      have := hb.2.2.2
      simp only [arithOp, classBits, ZydisRegisterGetClass, wrapSub, Nat.reduceDiv]
      omega
  | GPR32 id =>
    rcases hm with hm | hm
    · rw [hEA hm ht, hreg, hA.2.1 id]
      obtain ⟨s1, h1, h2, -⟩ := StoresOnly.of_skip instr s (SLOT_RAX + id.val)
        (wrapAdd (s.ctx.slot (SLOT_RAX + id.val) % 2 ^ 32) (readLE s.mem addr 4))
        (gpr_slot_ne_rip id)
      refine ⟨s1, _, _, h1, (ReadRegisterValue_run s.ctx).2.1 id,
        (ReadRegisterValue_run s1.ctx).2.1 id, ?_⟩
      rw [h2, hm]
      simp only [arithOp, classBits, ZydisRegisterGetClass, wrapAdd, Nat.reduceDiv]
      omega
    · rw [hES hm ht, hreg, hS.2.1 id]
      obtain ⟨s1, h1, h2, -⟩ := StoresOnly.of_skip instr s (SLOT_RAX + id.val)
        (wrapSub (s.ctx.slot (SLOT_RAX + id.val) % 2 ^ 32) (readLE s.mem addr 4))
        (gpr_slot_ne_rip id)
      refine ⟨s1, _, _, h1, (ReadRegisterValue_run s.ctx).2.1 id,
        (ReadRegisterValue_run s1.ctx).2.1 id, ?_⟩
      rw [h2, hm]
      have := hb.2.2.1
      simp only [arithOp, classBits, ZydisRegisterGetClass, wrapSub, Nat.reduceDiv]
      omega
  | GPR16 id =>
    rcases hm with hm | hm
    · rw [hEA hm ht, hreg, hA.2.2.1 id]
      obtain ⟨s1, h1, h2, -⟩ := StoresOnly.of_skip instr s (SLOT_RAX + id.val)
        (wrapAdd (s.ctx.slot (SLOT_RAX + id.val)) (readLE s.mem addr 2)) (gpr_slot_ne_rip id)
      refine ⟨s1, _, _, h1, (ReadRegisterValue_run s.ctx).2.2.1 id,
        (ReadRegisterValue_run s1.ctx).2.2.1 id, ?_⟩
      rw [h2, hm]
      simp only [arithOp, classBits, ZydisRegisterGetClass, wrapAdd, Nat.reduceDiv]
      omega
    · rw [hES hm ht, hreg, hS.2.2.1 id]
      obtain ⟨s1, h1, h2, -⟩ := StoresOnly.of_skip instr s (SLOT_RAX + id.val)
        (wrapSub (s.ctx.slot (SLOT_RAX + id.val)) (readLE s.mem addr 2)) (gpr_slot_ne_rip id)
      refine ⟨s1, _, _, h1, (ReadRegisterValue_run s.ctx).2.2.1 id,
        (ReadRegisterValue_run s1.ctx).2.2.1 id, ?_⟩
      rw [h2, hm]
      have := hb.2.1
      simp only [arithOp, classBits, ZydisRegisterGetClass, wrapSub, Nat.reduceDiv]
      omega
  | GPR8 id =>
    by_cases hh : isHighByte (.GPR8 id) = true
    · rcases hm with hm | hm
      · rw [hEA hm ht, hreg, hA.2.2.2.2 id hh]
        obtain ⟨s1, h1, h2, -⟩ := StoresOnly.of_skip instr s (SLOT_RAX + (GPR8_MAPPING id).val)
          (wrapAdd (s.ctx.slot (SLOT_RAX + (GPR8_MAPPING id).val)) (readLE s.mem addr 1 <<< 8))
          (gpr_slot_ne_rip _)
        refine ⟨s1, _, _, h1, (ReadRegisterValue_run s.ctx).2.2.2.2 id hh,
          (ReadRegisterValue_run s1.ctx).2.2.2.2 id hh, ?_⟩
        rw [h2, hm]
        have := hb.1
        simp only [arithOp, classBits, ZydisRegisterGetClass, wrapAdd, Nat.reduceDiv,
          Nat.shiftLeft_eq]
        omega
      · rw [hES hm ht, hreg, hS.2.2.2.2 id hh]
        obtain ⟨s1, h1, h2, -⟩ := StoresOnly.of_skip instr s (SLOT_RAX + (GPR8_MAPPING id).val)
          (wrapSub (s.ctx.slot (SLOT_RAX + (GPR8_MAPPING id).val)) (readLE s.mem addr 1 <<< 8))
          (gpr_slot_ne_rip _)
        refine ⟨s1, _, _, h1, (ReadRegisterValue_run s.ctx).2.2.2.2 id hh,
          (ReadRegisterValue_run s1.ctx).2.2.2.2 id hh, ?_⟩
        rw [h2, hm]
        have := hb.1
        simp only [arithOp, classBits, ZydisRegisterGetClass, wrapSub, Nat.reduceDiv,
          Nat.shiftLeft_eq]
        omega
    · have hh2 : isHighByte (.GPR8 id) = false := by simpa using hh
      rcases hm with hm | hm
      · rw [hEA hm ht, hreg, hA.2.2.2.1 id hh2]
        obtain ⟨s1, h1, h2, -⟩ := StoresOnly.of_skip instr s (SLOT_RAX + (GPR8_MAPPING id).val)
          (wrapAdd (s.ctx.slot (SLOT_RAX + (GPR8_MAPPING id).val)) (readLE s.mem addr 1))
          (gpr_slot_ne_rip _)
        refine ⟨s1, _, _, h1, (ReadRegisterValue_run s.ctx).2.2.2.1 id hh2,
          (ReadRegisterValue_run s1.ctx).2.2.2.1 id hh2, ?_⟩
        rw [h2, hm]
        simp only [arithOp, classBits, ZydisRegisterGetClass, wrapAdd, Nat.reduceDiv]
        omega
      · rw [hES hm ht, hreg, hS.2.2.2.1 id hh2]
        obtain ⟨s1, h1, h2, -⟩ := StoresOnly.of_skip instr s (SLOT_RAX + (GPR8_MAPPING id).val)
          (wrapSub (s.ctx.slot (SLOT_RAX + (GPR8_MAPPING id).val)) (readLE s.mem addr 1))
          (gpr_slot_ne_rip _)
        refine ⟨s1, _, _, h1, (ReadRegisterValue_run s.ctx).2.2.2.1 id hh2,
          (ReadRegisterValue_run s1.ctx).2.2.2.1 id hh2, ?_⟩
        rw [h2, hm]
        have := hb.1
        simp only [arithOp, classBits, ZydisRegisterGetClass, wrapSub, Nat.reduceDiv]
        omega
  | _ =>
    rw [hreg] at hc
    exact absurd rfl hc

/-- C23, exercised at host address `0x7FFE0020` (bytes `11 22 …`): `add ah, [G]`
with `Rax = 0xDEADBEEFCAFEBABE` takes `AH` from `0xBA` to `0xCB`, and
`sub ax, [G]` with `Rax = 0` takes `AX` from `0` to `0xDDEF`. -/
theorem C23_add_sub_value_witness :
    (addAhInstr.mnemonic = ZydisMnemonic.ADD ∨ addAhInstr.mnemonic = ZydisMnemonic.SUB)
      ∧ addAhInstr.operand0.type = ZydisOperandType.REGISTER
      ∧ classBits (ZydisRegisterGetClass addAhInstr.operand0.reg) ≠ 0
      ∧ (∃ s1 before after,
          MemoryRead.EmulateRead addAhInstr 0x7FFE0020 (raxState 0xDEADBEEFCAFEBABE) = .ret true s1
            ∧ ReadRegisterValue (raxState 0xDEADBEEFCAFEBABE).ctx addAhInstr.operand0.reg
                = some before
            ∧ ReadRegisterValue s1.ctx addAhInstr.operand0.reg = some after
            ∧ (after : Int)
                = arithOp addAhInstr.mnemonic before
                    (readLE (raxState 0xDEADBEEFCAFEBABE).mem 0x7FFE0020
                      (classBits (ZydisRegisterGetClass addAhInstr.operand0.reg) / 8))
                  % 2 ^ classBits (ZydisRegisterGetClass addAhInstr.operand0.reg))
      ∧ ReadRegisterValue (raxState 0xDEADBEEFCAFEBABE).ctx ZYDIS_REGISTER_AH = some 0xBA
      ∧ ReadRegisterValue
          (MemoryRead.EmulateRead addAhInstr 0x7FFE0020 (raxState 0xDEADBEEFCAFEBABE)).state.ctx
          ZYDIS_REGISTER_AH = some 0xCB
      ∧ ReadRegisterValue
          (MemoryRead.EmulateRead subAxInstr 0x7FFE0020 (raxState 0)).state.ctx
          ZYDIS_REGISTER_AX = some 0xDDEF :=
  ⟨Or.inl rfl, rfl, by decide,
    C23_add_sub_value addAhInstr 0x7FFE0020 (raxState 0xDEADBEEFCAFEBABE) (Or.inl rfl) rfl
      (by decide),
    by decide, by decide, by decide⟩

/-! ## `MOVZX` -/

/-- C24 — `MOVZX reg, [addr]` for the three supported shapes. A 32-bit destination
with a 16-bit or an 8-bit memory source: `EmulateRead` succeeds and the whole
64-bit parent equals the memory value, which is below `2^16`, respectively `2^8`,
so the destination read at 32 bits is its zero-extension. A 16-bit destination
with an 8-bit source: `EmulateRead` succeeds and the destination read at 16 bits
equals the memory byte. In each case `Rip` advances by the instruction length and
no other slot of the context, no byte of host memory, no MSR entry and no virtual
control register changes. -/
theorem C24_movzx_read (instr : ZydisDecodedInstruction) (addr : Nat) (s : State)
    (hm : instr.mnemonic = ZydisMnemonic.MOVZX)
    (ht : instr.operand0.type = ZydisOperandType.REGISTER)
    (ht1 : instr.operand1.type = ZydisOperandType.MEMORY) :
    (∀ id : Fin 16, instr.operand0.reg = .GPR32 id → instr.operand1.size = 16 →
        StoresOnly s instr.length (SLOT_RAX + id.val) (readLE s.mem addr 2)
          (MemoryRead.EmulateRead instr addr s)
        ∧ (∃ s1, MemoryRead.EmulateRead instr addr s = .ret true s1
            ∧ ReadRegisterValue s1.ctx (.GPR32 id) = some (readLE s.mem addr 2))
        ∧ readLE s.mem addr 2 < 2 ^ 16)
      ∧ (∀ id : Fin 16, instr.operand0.reg = .GPR32 id → instr.operand1.size = 8 →
        StoresOnly s instr.length (SLOT_RAX + id.val) (readLE s.mem addr 1)
          (MemoryRead.EmulateRead instr addr s)
        ∧ (∃ s1, MemoryRead.EmulateRead instr addr s = .ret true s1
            ∧ ReadRegisterValue s1.ctx (.GPR32 id) = some (readLE s.mem addr 1))
        ∧ readLE s.mem addr 1 < 2 ^ 8)
      ∧ (∀ id : Fin 16, instr.operand0.reg = .GPR16 id → instr.operand1.size = 8 →
        StoresOnly s instr.length (SLOT_RAX + id.val) (readLE s.mem addr 1)
          (MemoryRead.EmulateRead instr addr s)
        ∧ (∃ s1, MemoryRead.EmulateRead instr addr s = .ret true s1
            ∧ ReadRegisterValue s1.ctx (.GPR16 id) = some (readLE s.mem addr 1))
        ∧ readLE s.mem addr 1 < 2 ^ 8) := by
  have hb := readLE_lt_two_pow s.mem addr
  have hE := MemoryRead.EmulateRead_MOVZX instr addr s hm ht ht1
  refine ⟨?_, ?_, ?_⟩
  · intro id hreg hsz
    have hrun : InstrEmu.ReadPtr.EmulateMOVZX s (.GPR32 id) addr 16
        = .ret true (s.setSlot (SLOT_RAX + id.val) (readLE s.mem addr 2)) := rfl
    rw [hE, hreg, hsz, hrun]
    have hS := StoresOnly.of_skip instr s (SLOT_RAX + id.val) (readLE s.mem addr 2)
      (gpr_slot_ne_rip id)
    refine ⟨hS, ?_, hb.2.1⟩
    obtain ⟨s1, h1, h2, -⟩ := hS
    refine ⟨s1, h1, ?_⟩
    rw [(ReadRegisterValue_run s1.ctx).2.1 id, h2, Nat.mod_eq_of_lt]
    exact lt_trans hb.2.1 (by norm_num)
  · intro id hreg hsz
    have hrun : InstrEmu.ReadPtr.EmulateMOVZX s (.GPR32 id) addr 8
        = .ret true (s.setSlot (SLOT_RAX + id.val) (readLE s.mem addr 1)) := rfl
    rw [hE, hreg, hsz, hrun]
    have hS := StoresOnly.of_skip instr s (SLOT_RAX + id.val) (readLE s.mem addr 1)
      (gpr_slot_ne_rip id)
    refine ⟨hS, ?_, hb.1⟩
    obtain ⟨s1, h1, h2, -⟩ := hS
    refine ⟨s1, h1, ?_⟩
    rw [(ReadRegisterValue_run s1.ctx).2.1 id, h2, Nat.mod_eq_of_lt]
    exact lt_trans hb.1 (by norm_num)
  · intro id hreg hsz
    have hrun : InstrEmu.ReadPtr.EmulateMOVZX s (.GPR16 id) addr 8
        = .ret true (s.setSlot (SLOT_RAX + id.val) (readLE s.mem addr 1)) := rfl
    rw [hE, hreg, hsz, hrun]
    have hS := StoresOnly.of_skip instr s (SLOT_RAX + id.val) (readLE s.mem addr 1)
      (gpr_slot_ne_rip id)
    refine ⟨hS, ?_, hb.1⟩
    obtain ⟨s1, h1, h2, -⟩ := hS
    refine ⟨s1, h1, ?_⟩
    rw [(ReadRegisterValue_run s1.ctx).2.2.1 id, h2, Nat.mod_eq_of_lt]
    exact lt_trans hb.1 (by norm_num)

/-- C24, exercised at host address `0x7FFE0020` (bytes `11 22 …`) with
`Rax = 0xDEADBEEFCAFEBABE`: `movzx eax, word ptr [G]` leaves `Rax = 0x2211`. -/
theorem C24_movzx_read_witness :
    movzxEaxInstr.mnemonic = ZydisMnemonic.MOVZX
      ∧ movzxEaxInstr.operand0.type = ZydisOperandType.REGISTER
      ∧ movzxEaxInstr.operand1.type = ZydisOperandType.MEMORY
      ∧ StoresOnly (raxState 0xDEADBEEFCAFEBABE) movzxEaxInstr.length
          (SLOT_RAX + (0 : Fin 16).val) (readLE (raxState 0xDEADBEEFCAFEBABE).mem 0x7FFE0020 2)
          (MemoryRead.EmulateRead movzxEaxInstr 0x7FFE0020 (raxState 0xDEADBEEFCAFEBABE))
      ∧ readLE (raxState 0xDEADBEEFCAFEBABE).mem 0x7FFE0020 2 = 0x2211
      ∧ (MemoryRead.EmulateRead movzxEaxInstr 0x7FFE0020
            (raxState 0xDEADBEEFCAFEBABE)).state.ctx.Rax = 0x2211 :=
  ⟨rfl, rfl, rfl,
    ((C24_movzx_read movzxEaxInstr 0x7FFE0020 (raxState 0xDEADBEEFCAFEBABE) rfl rfl rfl).1
      0 rfl rfl).1,
    by decide, by decide⟩

/-! ## `MOVSXD` -/

theorem classBits_cases {c : ZydisRegisterClass} (h : classBits c ≠ 0) :
    classBits c = 8 ∨ classBits c = 16 ∨ classBits c = 32 ∨ classBits c = 64 := by
  cases c <;> simp [classBits] at h ⊢

/-- A register other than `AH/CH/DH/BH` whose slot holds a 64-bit value reads as the
low `w` bits of its slot, `w` being the width of its class. -/
theorem ReadRegisterValue_low (c : CONTEXT) (reg : ZydisRegister)
    (hc : classBits (ZydisRegisterGetClass reg) ≠ 0) (hh : isHighByte reg = false)
    (hv : c.slot (GRegIndex reg) < 2 ^ 64) :
    ReadRegisterValue c reg
      = some (c.slot (GRegIndex reg) % 2 ^ classBits (ZydisRegisterGetClass reg)) := by
  cases reg with
  | GPR64 id =>
    simp only [ReadRegisterValue, ZydisRegisterGetClass, classBits]
    rw [Nat.mod_eq_of_lt hv]
  | GPR32 id => simp only [ReadRegisterValue, ZydisRegisterGetClass, classBits, and_mask32]
  | GPR16 id => simp only [ReadRegisterValue, ZydisRegisterGetClass, classBits, and_mask16]
  | GPR8 id =>
    simp only [ReadRegisterValue, ZydisRegisterGetClass, classBits, hh, Bool.false_eq_true,
      if_false, and_mask8]
  | _ => exact absurd rfl hc

/-- Reading the 64-bit sign extension of an `sz`-bit pattern at `W` bits gives the
signed value of the pattern modulo `2^W`. -/
theorem signExtend_read (sz W m : Nat) (hs : sz = 8 ∨ sz = 16 ∨ sz = 32 ∨ sz = 64)
    (hW : W = 8 ∨ W = 16 ∨ W = 32 ∨ W = 64) :
    ((signExtend sz m % 2 ^ W : Nat) : Int) = signedValue sz m % 2 ^ W := by
  unfold signExtend signedValue
  by_cases h : m.testBit (sz - 1) = true
  · rw [if_pos h, if_pos h]
    rcases hs with rfl | rfl | rfl | rfl <;> rcases hW with rfl | rfl | rfl | rfl <;> omega
  · rw [if_neg h, if_neg h]
    rcases hs with rfl | rfl | rfl | rfl <;> rcases hW with rfl | rfl | rfl | rfl <;> omega

theorem signExtend_lt (sz m : Nat) (hs : sz = 8 ∨ sz = 16 ∨ sz = 32 ∨ sz = 64)
    (hm : m < 2 ^ sz) : signExtend sz m < 2 ^ 64 := by
  unfold signExtend
  split <;> rcases hs with rfl | rfl | rfl | rfl <;> omega

theorem readLE_lt_width (mem : Memory) (p sz : Nat)
    (hs : sz = 8 ∨ sz = 16 ∨ sz = 32 ∨ sz = 64) : readLE mem p (sz / 8) < 2 ^ sz := by
  have hb := readLE_lt_two_pow mem p
  rcases hs with rfl | rfl | rfl | rfl
  · exact hb.1
  · exact hb.2.1
  · exact hb.2.2.1
  · exact hb.2.2.2

/-- What `ReadPtr::EmulateMOVSX` stores for a source of 8, 16, 32 or 64 bits. -/
theorem InstrEmu.ReadPtr.EmulateMOVSX_run (s : State) (reg : ZydisRegister) (ptr sz : Nat)
    (hs : sz = 8 ∨ sz = 16 ∨ sz = 32 ∨ sz = 64) :
    EmulateMOVSX s reg ptr sz
      = .ret true (s.setSlot (GRegIndex reg) (signExtend sz (readLE s.mem ptr (sz / 8)))) := by
  rcases hs with rfl | rfl | rfl | rfl <;> rfl

/-- C25 — `MOVSXD reg, [addr]` with a source of `sz ∈ {8, 16, 32, 64}` bits and a
general-purpose destination of width `W` other than `AH/CH/DH/BH` (no `MOVSXD` has
an 8-bit destination). `EmulateRead` succeeds; the parent of the destination holds
the 64-bit sign extension of the memory value `m`, that is `m + (2^64 - 2^sz)`
when bit `sz - 1` of `m` is set and `m` otherwise; and the destination read at
width `W` equals the signed value of `m` modulo `2^W`, its two's-complement
sign extension to `W` bits. -/
theorem C25_movsxd_read (instr : ZydisDecodedInstruction) (addr : Nat) (s : State)
    (hm : instr.mnemonic = ZydisMnemonic.MOVSXD)
    (ht : instr.operand0.type = ZydisOperandType.REGISTER)
    (ht1 : instr.operand1.type = ZydisOperandType.MEMORY)
    (hs : instr.operand1.size = 8 ∨ instr.operand1.size = 16 ∨ instr.operand1.size = 32
      ∨ instr.operand1.size = 64)
    (hc : classBits (ZydisRegisterGetClass instr.operand0.reg) ≠ 0)
    (hh : isHighByte instr.operand0.reg = false) :
    ∃ s1 after,
      MemoryRead.EmulateRead instr addr s = .ret true s1
        ∧ s1.ctx.slot (GRegIndex instr.operand0.reg)
            = (if (readLE s.mem addr (instr.operand1.size / 8)).testBit (instr.operand1.size - 1)
                then readLE s.mem addr (instr.operand1.size / 8)
                  + (2 ^ 64 - 2 ^ instr.operand1.size)
                else readLE s.mem addr (instr.operand1.size / 8))
        ∧ ReadRegisterValue s1.ctx instr.operand0.reg = some after
        ∧ (after : Int)
            = signedValue instr.operand1.size (readLE s.mem addr (instr.operand1.size / 8))
              % 2 ^ classBits (ZydisRegisterGetClass instr.operand0.reg) := by
  have hne : instr.operand0.reg ≠ ZydisRegister.RIP := by
    intro h
    rw [h] at hc
    exact hc rfl
  rw [MemoryRead.EmulateRead_MOVSXD instr addr s hm ht ht1,
    InstrEmu.ReadPtr.EmulateMOVSX_run s _ addr _ hs]
  obtain ⟨s1, h1, h2, -⟩ := StoresOnly.of_skip instr s (GRegIndex instr.operand0.reg)
    (signExtend instr.operand1.size (readLE s.mem addr (instr.operand1.size / 8)))
    (GRegIndex_ne_rip hne)
  have hlt := signExtend_lt instr.operand1.size _ hs (readLE_lt_width s.mem addr _ hs)
  refine ⟨s1, _, h1, h2, ?_, signExtend_read _ _ _ hs (classBits_cases hc)⟩
  rw [ReadRegisterValue_low s1.ctx _ hc hh (by rw [h2]; exact hlt), h2]

/-- C25, exercised at host address `0x7FFE0024` (bytes `55 66 77 88`) on
`movsxd rax, dword ptr [G + 4]`: the dword `0x88776655` has its top bit set and
`Rax` becomes `0xFFFFFFFF88776655`. -/
theorem C25_movsxd_read_witness :
    movsxdRaxInstr.mnemonic = ZydisMnemonic.MOVSXD
      ∧ movsxdRaxInstr.operand0.type = ZydisOperandType.REGISTER
      ∧ movsxdRaxInstr.operand1.type = ZydisOperandType.MEMORY
      ∧ (movsxdRaxInstr.operand1.size = 8 ∨ movsxdRaxInstr.operand1.size = 16
          ∨ movsxdRaxInstr.operand1.size = 32 ∨ movsxdRaxInstr.operand1.size = 64)
      ∧ classBits (ZydisRegisterGetClass movsxdRaxInstr.operand0.reg) ≠ 0
      ∧ isHighByte movsxdRaxInstr.operand0.reg = false
      ∧ (∃ s1 after,
          MemoryRead.EmulateRead movsxdRaxInstr 0x7FFE0024 zeroState = .ret true s1
            ∧ s1.ctx.slot (GRegIndex movsxdRaxInstr.operand0.reg)
                = (if (readLE zeroState.mem 0x7FFE0024
                        (movsxdRaxInstr.operand1.size / 8)).testBit
                      (movsxdRaxInstr.operand1.size - 1)
                    then readLE zeroState.mem 0x7FFE0024 (movsxdRaxInstr.operand1.size / 8)
                      + (2 ^ 64 - 2 ^ movsxdRaxInstr.operand1.size)
                    else readLE zeroState.mem 0x7FFE0024 (movsxdRaxInstr.operand1.size / 8))
            ∧ ReadRegisterValue s1.ctx movsxdRaxInstr.operand0.reg = some after
            ∧ (after : Int)
                = signedValue movsxdRaxInstr.operand1.size
                    (readLE zeroState.mem 0x7FFE0024 (movsxdRaxInstr.operand1.size / 8))
                  % 2 ^ classBits (ZydisRegisterGetClass movsxdRaxInstr.operand0.reg))
      ∧ readLE zeroState.mem 0x7FFE0024 4 = 0x88776655
      ∧ (MemoryRead.EmulateRead movsxdRaxInstr 0x7FFE0024 zeroState).state.ctx.Rax
          = 0xFFFFFFFF88776655 :=
  ⟨rfl, rfl, rfl, Or.inr (Or.inr (Or.inl rfl)), by decide, by decide,
    C25_movsxd_read movsxdRaxInstr 0x7FFE0024 zeroState rfl rfl rfl
      (Or.inr (Or.inr (Or.inl rfl))) (by decide) (by decide),
    by decide, by decide⟩

/-- Why the statement on `MOVSXD` leaves `AH/CH/DH/BH` out: `EmulateMOVSX` never looks at the register
class, so on the (undecodable) shape `movsxd ah, byte [G]` the byte `0x11` lands in
bits `[7:0]` of `Rax` and `AH` reads `0`. -/
theorem movsxd_high_byte_example :
    ReadRegisterValue
        (MemoryRead.EmulateRead (regMemInstr .MOVSXD ZYDIS_REGISTER_AH 8 8) 0x7FFE0020
          zeroState).state.ctx ZYDIS_REGISTER_AH = some 0
      ∧ readLE zeroState.mem 0x7FFE0020 1 = 0x11 := by
  constructor <;> decide

/-! ## Write-side `OR`, `XOR`, `AND` -/

/-- C26 — write-side `OR`, `XOR` and `AND`. For a decoded `OR`, `XOR` or `AND`,
whatever its operands, `MemoryWrite::EmulateWrite` stops at `DebugBreak()` in the
pre-state: it returns neither `true` nor `false`, and the context (`Rip` included),
host memory, the MSR table and the virtual control registers are those of the
pre-state. -/
theorem C26_write_bitwise_fatal (instr : ZydisDecodedInstruction) (addr : Nat) (s : State)
    (hm : instr.mnemonic = ZydisMnemonic.OR ∨ instr.mnemonic = ZydisMnemonic.XOR
      ∨ instr.mnemonic = ZydisMnemonic.AND) :
    MemoryWrite.EmulateWrite instr addr s = .fatal s
      ∧ (∀ b s1, MemoryWrite.EmulateWrite instr addr s ≠ .ret b s1)
      ∧ (MemoryWrite.EmulateWrite instr addr s).state.ctx = s.ctx
      ∧ (MemoryWrite.EmulateWrite instr addr s).state.ctx.Rip = s.ctx.Rip
      ∧ (MemoryWrite.EmulateWrite instr addr s).state.mem = s.mem
      ∧ (MemoryWrite.EmulateWrite instr addr s).state = s := by
  have h : MemoryWrite.EmulateWrite instr addr s = .fatal s := by
    unfold MemoryWrite.EmulateWrite
    rcases hm with hm | hm | hm <;> rw [hm] <;> simp only [] <;> split <;> rfl
  rw [h]
  exact ⟨rfl, fun b s1 hb => Outcome.noConfusion hb, rfl, rfl, rfl, rfl⟩

/-- C26, exercised on `or [G], eax` at host address `0x7FFE0020` with
`Rax = 0x44332211`: the call stops in the pre-state, `Rip` still `0x1000`. -/
theorem C26_write_bitwise_fatal_witness :
    (orMemEaxInstr.mnemonic = ZydisMnemonic.OR ∨ orMemEaxInstr.mnemonic = ZydisMnemonic.XOR
        ∨ orMemEaxInstr.mnemonic = ZydisMnemonic.AND)
      ∧ MemoryWrite.EmulateWrite orMemEaxInstr 0x7FFE0020 (raxState 0x44332211)
          = .fatal (raxState 0x44332211)
      ∧ (MemoryWrite.EmulateWrite orMemEaxInstr 0x7FFE0020 (raxState 0x44332211)).state.ctx.Rip
          = 0x1000
      ∧ MemoryWrite.Parse scenarioEnv (some orMemEaxInstr) scenarioG (raxState 0x44332211)
          = .fatal (raxState 0x44332211) :=
  ⟨Or.inl rfl,
    (C26_write_bitwise_fatal orMemEaxInstr 0x7FFE0020 (raxState 0x44332211) (Or.inl rfl)).1,
    by decide, by rfl⟩

/-! ## The frame of the read-side stores -/

theorem GRegIndex_gpr_range {reg : ZydisRegister}
    (hc : classBits (ZydisRegisterGetClass reg) ≠ 0) :
    SLOT_RAX ≤ GRegIndex reg ∧ GRegIndex reg < SLOT_RAX + 16 := by
  cases reg with
  | GPR8 id =>
    rw [GRegIndex_GPR8]
    have := (GPR8_MAPPING id).isLt
    omega
  | GPR16 id =>
    rw [GRegIndex_GPR16]
    have := id.isLt
    omega
  | GPR32 id =>
    rw [GRegIndex_GPR32]
    have := id.isLt
    omega
  | GPR64 id =>
    rw [GRegIndex_GPR64]
    have := id.isLt
    omega
  | _ => exact absurd rfl hc

/-- `ReadPtr::EmulateMOV` returns only for a general-purpose register. -/
theorem InstrEmu.ReadPtr.EmulateMOV_gpr (s : State) (reg : ZydisRegister) (ptr : Nat) :
    EmulateMOV s reg ptr = .fatal s
      ∨ (classBits (ZydisRegisterGetClass reg) ≠ 0
          ∧ ∃ v, EmulateMOV s reg ptr = .ret true (s.setSlot (GRegIndex reg) v)) := by
  by_cases hc : classBits (ZydisRegisterGetClass reg) = 0
  · left
    cases reg <;>
      first
        | rfl
        | exact absurd hc (by simp [ZydisRegisterGetClass, classBits])
  · rcases EmulateMOV_shape s reg ptr with h | h
    · exact Or.inl h
    · exact Or.inr ⟨hc, h⟩

/-- `ReadPtr::EmulateSUB` returns only for a general-purpose register. -/
theorem InstrEmu.ReadPtr.EmulateSUB_gpr (s : State) (reg : ZydisRegister) (ptr : Nat) :
    EmulateSUB s reg ptr = .fatal s
      ∨ (classBits (ZydisRegisterGetClass reg) ≠ 0
          ∧ ∃ v, EmulateSUB s reg ptr = .ret true (s.setSlot (GRegIndex reg) v)) := by
  by_cases hc : classBits (ZydisRegisterGetClass reg) = 0
  · left
    cases reg <;>
      first
        | rfl
        | exact absurd hc (by simp [ZydisRegisterGetClass, classBits])
  · rcases EmulateSUB_shape s reg ptr with h | h
    · exact Or.inl h
    · exact Or.inr ⟨hc, h⟩

/-- `ReadPtr::EmulateADD` returns only for a general-purpose register. -/
theorem InstrEmu.ReadPtr.EmulateADD_gpr (s : State) (reg : ZydisRegister) (ptr : Nat) :
    EmulateADD s reg ptr = .fatal s
      ∨ (classBits (ZydisRegisterGetClass reg) ≠ 0
          ∧ ∃ v, EmulateADD s reg ptr = .ret true (s.setSlot (GRegIndex reg) v)) := by
  by_cases hc : classBits (ZydisRegisterGetClass reg) = 0
  · left
    cases reg <;>
      first
        | rfl
        | exact absurd hc (by simp [ZydisRegisterGetClass, classBits])
  · rcases EmulateADD_shape s reg ptr with h | h
    · exact Or.inl h
    · exact Or.inr ⟨hc, h⟩

/-- `ReadPtr::EmulateOR` returns only for a general-purpose register. -/
theorem InstrEmu.ReadPtr.EmulateOR_gpr (s : State) (reg : ZydisRegister) (ptr : Nat) :
    EmulateOR s reg ptr = .fatal s
      ∨ (classBits (ZydisRegisterGetClass reg) ≠ 0
          ∧ ∃ v, EmulateOR s reg ptr = .ret true (s.setSlot (GRegIndex reg) v)) := by
  by_cases hc : classBits (ZydisRegisterGetClass reg) = 0
  · left
    cases reg <;>
      first
        | rfl
        | exact absurd hc (by simp [ZydisRegisterGetClass, classBits])
  · rcases EmulateOR_shape s reg ptr with h | h
    · exact Or.inl h
    · exact Or.inr ⟨hc, h⟩

/-- `ReadPtr::EmulateXOR` returns only for a general-purpose register. -/
theorem InstrEmu.ReadPtr.EmulateXOR_gpr (s : State) (reg : ZydisRegister) (ptr : Nat) :
    EmulateXOR s reg ptr = .fatal s
      ∨ (classBits (ZydisRegisterGetClass reg) ≠ 0
          ∧ ∃ v, EmulateXOR s reg ptr = .ret true (s.setSlot (GRegIndex reg) v)) := by
  by_cases hc : classBits (ZydisRegisterGetClass reg) = 0
  · left
    cases reg <;>
      first
        | rfl
        | exact absurd hc (by simp [ZydisRegisterGetClass, classBits])
  · rcases EmulateXOR_shape s reg ptr with h | h
    · exact Or.inl h
    · exact Or.inr ⟨hc, h⟩

/-- `ReadPtr::EmulateAND` returns only for a general-purpose register. -/
theorem InstrEmu.ReadPtr.EmulateAND_gpr (s : State) (reg : ZydisRegister) (ptr : Nat) :
    EmulateAND s reg ptr = .fatal s
      ∨ (classBits (ZydisRegisterGetClass reg) ≠ 0
          ∧ ∃ v, EmulateAND s reg ptr = .ret true (s.setSlot (GRegIndex reg) v)) := by
  by_cases hc : classBits (ZydisRegisterGetClass reg) = 0
  · left
    cases reg <;>
      first
        | rfl
        | exact absurd hc (by simp [ZydisRegisterGetClass, classBits])
  · rcases EmulateAND_shape s reg ptr with h | h
    · exact Or.inl h
    · exact Or.inr ⟨hc, h⟩

/-- `ReadPtr::EmulateMOVZX` returns only for a general-purpose register. -/
theorem InstrEmu.ReadPtr.EmulateMOVZX_gpr (s : State) (reg : ZydisRegister) (ptr size : Nat) :
    EmulateMOVZX s reg ptr size = .fatal s
      ∨ (classBits (ZydisRegisterGetClass reg) ≠ 0
          ∧ ∃ v, EmulateMOVZX s reg ptr size = .ret true (s.setSlot (GRegIndex reg) v)) := by
  by_cases hc : classBits (ZydisRegisterGetClass reg) = 0
  · left
    cases reg <;>
      first
        | rfl
        | exact absurd hc (by simp [ZydisRegisterGetClass, classBits])
  · rcases EmulateMOVZX_shape s reg ptr size with h | h
    · exact Or.inl h
    · exact Or.inr ⟨hc, h⟩

theorem store_then_skip {instr : ZydisDecodedInstruction} {s : State} {o : Outcome}
    (h : o = .fatal s
      ∨ (classBits (ZydisRegisterGetClass instr.operand0.reg) ≠ 0
          ∧ ∃ v, o = .ret true (s.setSlot (GRegIndex instr.operand0.reg) v))) :
    (o.andThen fun _ s1 => SkipToNext instr s1) = .fatal s
      ∨ (classBits (ZydisRegisterGetClass instr.operand0.reg) ≠ 0
          ∧ ∃ v, (o.andThen fun _ s1 => SkipToNext instr s1)
              = SkipToNext instr (s.setSlot (GRegIndex instr.operand0.reg) v)) := by
  rcases h with h | ⟨hc, v, h⟩
  · exact Or.inl (by rw [h]; rfl)
  · exact Or.inr ⟨hc, v, by rw [h]; rfl⟩

/-- A read-side `MOV`, `OR`, `XOR`, `AND`, `ADD`, `SUB`, `MOVZX` or `MOVSXD` either
stops at `DebugBreak()` in the pre-state, or stores into the parent of a
general-purpose `operands[0].reg` and runs `SkipToNext`. -/
theorem MemoryRead.EmulateRead_store_shape (instr : ZydisDecodedInstruction) (addr : Nat)
    (s : State)
    (hm : instr.mnemonic = ZydisMnemonic.MOV ∨ instr.mnemonic = ZydisMnemonic.OR
      ∨ instr.mnemonic = ZydisMnemonic.XOR ∨ instr.mnemonic = ZydisMnemonic.AND
      ∨ instr.mnemonic = ZydisMnemonic.ADD ∨ instr.mnemonic = ZydisMnemonic.SUB
      ∨ instr.mnemonic = ZydisMnemonic.MOVZX ∨ instr.mnemonic = ZydisMnemonic.MOVSXD)
    (hd : instr.mnemonic = ZydisMnemonic.MOVSXD →
      classBits (ZydisRegisterGetClass instr.operand0.reg) ≠ 0) :
    EmulateRead instr addr s = .fatal s
      ∨ (classBits (ZydisRegisterGetClass instr.operand0.reg) ≠ 0
          ∧ ∃ v, EmulateRead instr addr s
              = SkipToNext instr (s.setSlot (GRegIndex instr.operand0.reg) v)) := by
  rcases hm with hm | hm | hm | hm | hm | hm | hm | hm
  · unfold EmulateRead
    simp only [hm]
    split
    · exact store_then_skip (InstrEmu.ReadPtr.EmulateMOV_gpr _ _ _)
    · exact Or.inl rfl
  · unfold EmulateRead
    simp only [hm]
    split
    · exact store_then_skip (InstrEmu.ReadPtr.EmulateOR_gpr _ _ _)
    · exact Or.inl rfl
  · unfold EmulateRead
    simp only [hm]
    split
    · exact store_then_skip (InstrEmu.ReadPtr.EmulateXOR_gpr _ _ _)
    · exact Or.inl rfl
  · unfold EmulateRead
    simp only [hm]
    split
    · exact store_then_skip (InstrEmu.ReadPtr.EmulateAND_gpr _ _ _)
    · exact Or.inl rfl
  · unfold EmulateRead
    simp only [hm]
    split
    · exact store_then_skip (InstrEmu.ReadPtr.EmulateADD_gpr _ _ _)
    · exact Or.inl rfl
  · unfold EmulateRead
    simp only [hm]
    split
    · exact store_then_skip (InstrEmu.ReadPtr.EmulateSUB_gpr _ _ _)
    · exact Or.inl rfl
  · unfold EmulateRead
    simp only [hm]
    split
    · exact store_then_skip (InstrEmu.ReadPtr.EmulateMOVZX_gpr _ _ _ _)
    · exact Or.inl rfl
  · unfold EmulateRead
    simp only [hm]
    split
    · rcases InstrEmu.ReadPtr.EmulateMOVSX_shape s instr.operand0.reg addr
        instr.operand1.size with h | h
      · exact store_then_skip (Or.inl h)
      · exact store_then_skip (Or.inr ⟨hd hm, h⟩)
    · exact Or.inl rfl

/-- C27 — the read-side stores never touch the flags. For a decoded `MOV`, `OR`,
`XOR`, `AND`, `ADD`, `SUB`, `MOVZX` or `MOVSXD` (for `MOVSXD`, whose helper does
not look at the register class, with a general-purpose destination), every
successful `EmulateRead` leaves `EFlags` at its pre-call value, and every slot of
the context other than the parent of the destination, one of `Rax … R15`, and
`Rip` at its pre-call value; host memory, the MSR table and the virtual control
registers are unchanged as well. -/
theorem C27_read_frame (instr : ZydisDecodedInstruction) (addr : Nat) (s s1 : State)
    (hm : instr.mnemonic = ZydisMnemonic.MOV ∨ instr.mnemonic = ZydisMnemonic.OR
      ∨ instr.mnemonic = ZydisMnemonic.XOR ∨ instr.mnemonic = ZydisMnemonic.AND
      ∨ instr.mnemonic = ZydisMnemonic.ADD ∨ instr.mnemonic = ZydisMnemonic.SUB
      ∨ instr.mnemonic = ZydisMnemonic.MOVZX ∨ instr.mnemonic = ZydisMnemonic.MOVSXD)
    (hd : instr.mnemonic = ZydisMnemonic.MOVSXD →
      classBits (ZydisRegisterGetClass instr.operand0.reg) ≠ 0)
    (h : MemoryRead.EmulateRead instr addr s = .ret true s1) :
    s1.ctx.EFlags = s.ctx.EFlags
      ∧ (∀ j, j ≠ GRegIndex instr.operand0.reg → j ≠ SLOT_RIP → s1.ctx.slot j = s.ctx.slot j)
      ∧ (SLOT_RAX ≤ GRegIndex instr.operand0.reg ∧ GRegIndex instr.operand0.reg < SLOT_RAX + 16)
      ∧ s1.mem = s.mem ∧ s1.MSRData = s.MSRData
      ∧ s1.CR0 = s.CR0 ∧ s1.CR3 = s.CR3 ∧ s1.CR4 = s.CR4 ∧ s1.CR8 = s.CR8 := by
  rcases MemoryRead.EmulateRead_store_shape instr addr s hm hd with hf | ⟨hc, v, hv⟩
  · rw [hf] at h
    exact Outcome.noConfusion h
  · have hr := GRegIndex_gpr_range hc
    have hi : GRegIndex instr.operand0.reg ≠ SLOT_RIP := by
      simp only [SLOT_RAX, SLOT_RIP] at hr ⊢
      omega
    have he : SLOT_EFLAGS ≠ GRegIndex instr.operand0.reg := by
      simp only [SLOT_RAX, SLOT_EFLAGS] at hr ⊢
      omega
    obtain ⟨s2, h1, -, -, hfr, hmem, hmsr, h0, h3, h4, h8⟩ :=
      StoresOnly.of_skip instr s (GRegIndex instr.operand0.reg) v hi
    rw [hv, h1] at h
    have hs : s2 = s1 := by
      injection h with _ h
    subst hs
    refine ⟨?_, hfr, hr, hmem, hmsr, h0, h3, h4, h8⟩
    unfold CONTEXT.EFlags
    rw [hfr SLOT_EFLAGS he (by decide)]

/-- C27, exercised on `movsxd rax, dword ptr [G + 4]` at host address `0x7FFE0024`
from the zeroed context: the read is emulated, `Rax` and `Rip` change, `EFlags`
and every other slot keep their values. -/
theorem C27_read_frame_witness :
    (movsxdRaxInstr.mnemonic = ZydisMnemonic.MOV ∨ movsxdRaxInstr.mnemonic = ZydisMnemonic.OR
      ∨ movsxdRaxInstr.mnemonic = ZydisMnemonic.XOR ∨ movsxdRaxInstr.mnemonic = ZydisMnemonic.AND
      ∨ movsxdRaxInstr.mnemonic = ZydisMnemonic.ADD ∨ movsxdRaxInstr.mnemonic = ZydisMnemonic.SUB
      ∨ movsxdRaxInstr.mnemonic = ZydisMnemonic.MOVZX ∨ movsxdRaxInstr.mnemonic = ZydisMnemonic.MOVSXD)
      ∧ (movsxdRaxInstr.mnemonic = ZydisMnemonic.MOVSXD →
          classBits (ZydisRegisterGetClass movsxdRaxInstr.operand0.reg) ≠ 0)
      ∧ MemoryRead.EmulateRead movsxdRaxInstr 0x7FFE0024 zeroState
          = .ret true (MemoryRead.EmulateRead movsxdRaxInstr 0x7FFE0024 zeroState).state
      ∧ (MemoryRead.EmulateRead movsxdRaxInstr 0x7FFE0024 zeroState).state.ctx.EFlags
          = zeroState.ctx.EFlags
      ∧ (∀ j, j ≠ GRegIndex movsxdRaxInstr.operand0.reg → j ≠ SLOT_RIP →
          (MemoryRead.EmulateRead movsxdRaxInstr 0x7FFE0024 zeroState).state.ctx.slot j
            = zeroState.ctx.slot j)
      ∧ (MemoryRead.EmulateRead movsxdRaxInstr 0x7FFE0024 zeroState).state.ctx.Rax
          = 0xFFFFFFFF88776655
      ∧ (MemoryRead.EmulateRead movsxdRaxInstr 0x7FFE0024 zeroState).state.ctx.Rip = 0x1007 :=
  ⟨Or.inr (Or.inr (Or.inr (Or.inr (Or.inr (Or.inr (Or.inr rfl)))))),
    fun _ => by decide, by rfl,
    (C27_read_frame movsxdRaxInstr 0x7FFE0024 zeroState
      (MemoryRead.EmulateRead movsxdRaxInstr 0x7FFE0024 zeroState).state
      (Or.inr (Or.inr (Or.inr (Or.inr (Or.inr (Or.inr (Or.inr rfl)))))))
      (fun _ => by decide) (by rfl)).1,
    (C27_read_frame movsxdRaxInstr 0x7FFE0024 zeroState
      (MemoryRead.EmulateRead movsxdRaxInstr 0x7FFE0024 zeroState).state
      (Or.inr (Or.inr (Or.inr (Or.inr (Or.inr (Or.inr (Or.inr rfl)))))))
      (fun _ => by decide) (by rfl)).2.1,
    by decide, by decide⟩

end VCPU
